import Mathlib

/-!
# flagconfig: command-line flags derived from the fields of a structure

A shallow embedding of the Go package `flagconfig` (`flags.go`, `defaults.go`,
`wrappers.go`) and theorems about it.

The package is written against `reflect`, `flag`, `strconv` and `time`.  The embedding
keeps the package's own functions (`getName`, `defaultStringFlag`, `asValue`,
`getPointerToField`, `byKind`, `fieldsAsFlags`, the `defaultX` parsers, the `Set` methods of
the two wrappers) and represents what they receive from those libraries as data:

* a `reflect.Type` is a `GoType` descriptor (string form, kind, method set, fields);
* the memory reachable from the structure is a tree `Val`; every pointer owns its pointee,
  an address is the path `Loc` from the top-level structure;
* the standard parsers, `strings.ToLower` and the user-declared `Set` / `UnmarshalText` /
  `UnmarshalBinary` methods are the fields of an environment `Env`, and every theorem holds
  for every environment;
* a `*flag.FlagSet` is the list of the registration calls made on it, in call order; of
  what the registrar does with a call the embedding keeps that an `XxxVar` stores its
  default in the variable and that `Var` calls `value.String()`, which for the two wrappers
  is code of the package and panics when the marshaler fails; the registrar's checks of
  the name and its later parsing of arguments are outside the embedding;
* the recursion of `fieldsAsFlags` is bounded by a fuel argument; a walk that exhausts it
  ends with the outcome `outOfFuel`, which no Go run has.

Layout: definitions, then general lemmas and the replay of the package's tests, then one
theorem per claim (`C1`, `C2`, ...) with its witness.
-/

namespace Flagconfig

/-! ## Types as `reflect` shows them -/

/-- Kinds of the types that are neither structures nor pointers. -/
inductive BasicKind where
  | bool | int | int8 | int16 | int32 | int64
  | uint | uint8 | uint16 | uint32 | uint64 | uintptr
  | float32 | float64 | complex64 | complex128
  | array | chan | func | interface | map | slice | string | unsafePointer
deriving DecidableEq, Repr

/-- The enumeration `reflect.Kind` (without `Invalid`, which no type has). -/
inductive Kind where
  | bool | int | int8 | int16 | int32 | int64
  | uint | uint8 | uint16 | uint32 | uint64 | uintptr
  | float32 | float64 | complex64 | complex128
  | array | chan | func | interface | map | ptr | slice | string | struct | unsafePointer
deriving DecidableEq, Repr

/-- Embedding of `BasicKind` into `reflect.Kind`. -/
def BasicKind.toKind : BasicKind → Kind
  | .bool => .bool | .int => .int | .int8 => .int8 | .int16 => .int16
  | .int32 => .int32 | .int64 => .int64
  | .uint => .uint | .uint8 => .uint8 | .uint16 => .uint16 | .uint32 => .uint32
  | .uint64 => .uint64 | .uintptr => .uintptr
  | .float32 => .float32 | .float64 => .float64
  | .complex64 => .complex64 | .complex128 => .complex128
  | .array => .array | .chan => .chan | .func => .func | .interface => .interface
  | .map => .map | .slice => .slice | .string => .string
  | .unsafePointer => .unsafePointer

/-- A method of a type: its name and whether it is declared on the pointer receiver.
A method is identified by its name; its signature is the one the interface asks for. -/
structure Method where
  name : String
  ptrRecv : Bool
deriving DecidableEq, Repr

/-- The part of `reflect.StructField` that does not depend on the field's type.
`Tag` holds the `key:"value"` pairs of the tag string in the order they are written;
a field is exported when `PkgPath` is empty. -/
structure StructField where
  Name : String
  PkgPath : String := ""
  Tag : List (String × String) := []
  Anonymous : Bool := false
deriving DecidableEq, Repr

/-- Type descriptors.  `str` is what `Type.String()` prints.  `methods` lists the methods
declared on (or promoted to) the type with value and pointer receivers; for an interface
type it lists the interface's methods.  `ptr none e` is the pointer type `*e`,
`ptr (some n) e` a defined type `n` whose underlying type is `*e`.  Two types are the same
type when their descriptors are equal. -/
inductive GoType where
  | basic (str : String) (kind : BasicKind) (methods : List Method)
  | struct (str : String) (methods : List Method) (fields : List (StructField × GoType))
  | ptr (name : Option String) (elem : GoType)
deriving Repr, Inhabited

mutual
/-- Decision procedure for the equality of two type descriptors. -/
def GoType.decEq : (a b : GoType) → Decidable (a = b)
  | .basic s k m, .basic s2 k2 m2 =>
    if h : s = s2 ∧ k = k2 ∧ m = m2 then
      isTrue (by obtain ⟨h1, h2, h3⟩ := h; subst h1 h2 h3; rfl)
    else isFalse (by intro e; injection e with e1 e2 e3; exact h ⟨e1, e2, e3⟩)
  | .struct s m fs, .struct s2 m2 fs2 =>
    match GoType.decEqFields fs fs2 with
    | isTrue hf =>
      if h : s = s2 ∧ m = m2 then
        isTrue (by obtain ⟨h1, h2⟩ := h; subst h1 h2 hf; rfl)
      else isFalse (by intro e; injection e with e1 e2 e3; exact h ⟨e1, e2⟩)
    | isFalse hf => isFalse (by intro e; injection e with e1 e2 e3; exact hf e3)
  | .ptr n e, .ptr n2 e2 =>
    match GoType.decEq e e2 with
    | isTrue he =>
      if h : n = n2 then isTrue (by subst h he; rfl)
      else isFalse (by intro q; injection q with q1 q2; exact h q1)
    | isFalse he => isFalse (by intro q; injection q with q1 q2; exact he q2)
  | .basic .., .struct .. => isFalse (by intro e; cases e)
  | .basic .., .ptr .. => isFalse (by intro e; cases e)
  | .struct .., .basic .. => isFalse (by intro e; cases e)
  | .struct .., .ptr .. => isFalse (by intro e; cases e)
  | .ptr .., .basic .. => isFalse (by intro e; cases e)
  | .ptr .., .struct .. => isFalse (by intro e; cases e)
/-- Decision procedure for the equality of two field lists. -/
def GoType.decEqFields :
    (a b : List (StructField × GoType)) → Decidable (a = b)
  | [], [] => isTrue rfl
  | p :: r, p2 :: r2 =>
    match GoType.decEq p.2 p2.2, GoType.decEqFields r r2 with
    | isTrue ht, isTrue hr =>
      if h : p.1 = p2.1 then isTrue (by rw [Prod.ext h ht, hr])
      else isFalse (by intro e; injection e with e1 e2; exact h (by rw [e1]))
    | isFalse ht, _ => isFalse (by intro e; injection e with e1 e2; exact ht (by rw [e1]))
    | _, isFalse hr => isFalse (by intro e; injection e with e1 e2; exact hr e2)
  | [], _ :: _ => isFalse (by intro e; cases e)
  | _ :: _, [] => isFalse (by intro e; cases e)
end

instance : DecidableEq GoType := GoType.decEq

/-- The string form of a type, `Type.String()`. -/
def GoType.toStr : GoType → String
  | .basic s _ _ => s
  | .struct s _ _ => s
  | .ptr (some n) _ => n
  | .ptr none e => "*" ++ e.toStr

/-- The kind of a type, `Type.Kind()`. -/
def GoType.kind : GoType → Kind
  | .basic _ k _ => k.toKind
  | .struct _ _ _ => .struct
  | .ptr _ _ => .ptr

/-- Names of the methods in the method set of a type.  A value type has the methods with
value receivers; the pointer type `*T` has all methods of `T`, except that a pointer to an
interface or to a pointer has none; a defined pointer type has none. -/
def GoType.methodSet : GoType → List String
  | .basic _ _ ms => (ms.filter fun m => !m.ptrRecv).map Method.name
  | .struct _ ms _ => (ms.filter fun m => !m.ptrRecv).map Method.name
  | .ptr (some _) _ => []
  | .ptr none (.basic _ k ms) => if k = .interface then [] else ms.map Method.name
  | .ptr none (.struct _ ms _) => ms.map Method.name
  | .ptr none (.ptr _ _) => []

/-- Method `t.Implements(u)` for an interface type `u`: every method of `u` is in the method set
of `t`. -/
def GoType.Implements (t u : GoType) : Bool :=
  u.methodSet.all fun m => t.methodSet.contains m

/-- Function `reflect.PtrTo(t)`, the type `*t`. -/
def GoType.PtrTo (t : GoType) : GoType := .ptr none t

/-- The predeclared type with the given kind and name. -/
def GoType.builtin (str : String) (k : BasicKind) : GoType := .basic str k []

/-! ## Values and memory -/

/-- Contents of a variable.  Integers of all signed kinds are `int`, of all unsigned kinds
`uint`; a `float64` is its IEEE-754 bit pattern; the kinds whose content the package never
reads are `other`.  A structure holds the contents of its fields in declaration order, a
pointer is nil or holds its pointee, an interface is nil or holds the dynamic type and
value. -/
inductive Val where
  | bool (b : Bool)
  | int (i : Int)
  | uint (n : Nat)
  | float (bits : Nat)
  | str (s : String)
  | other (content : String)
  | struct (fields : List Val)
  | ptr (pointee : Option Val)
  | iface (dyn : Option (GoType × Val))
deriving Repr, Inhabited

mutual
/-- Function `reflect.Zero`: the zero value of a type. -/
def zero : GoType → Val
  | .basic _ k _ =>
    match k with
    | .bool => .bool false
    | .int | .int8 | .int16 | .int32 | .int64 => .int 0
    | .uint | .uint8 | .uint16 | .uint32 | .uint64 | .uintptr => .uint 0
    | .float32 | .float64 => .float 0
    | .string => .str ""
    | .interface => .iface none
    | .complex64 | .complex128 | .array | .chan | .func | .map | .slice
    | .unsafePointer => .other ""
  | .struct _ _ fs => .struct (zeroFields fs)
  | .ptr _ _ => .ptr none
/-- Zero values of the fields of a structure. -/
def zeroFields : List (StructField × GoType) → List Val
  | [] => []
  | p :: rest => zero p.2 :: zeroFields rest
end

/-- One step of an address: into field `i` of a structure, through a pointer, or into the
dynamic value of an interface. -/
inductive Step where
  | field (i : Nat)
  | deref
  | dyn
deriving DecidableEq, Repr

/-- An address: the path from the top-level structure to a variable. -/
abbrev Loc := List Step

/-- The fields of a structure value (none when the value is not a structure). -/
def Val.fields : Val → List Val
  | .struct vs => vs
  | _ => []

/-- Value `v.Field(i)` of a structure whose field `i` has type `ft`. -/
def Val.Field (vs : List Val) (ft : GoType) (i : Nat) : Val := vs.getD i (zero ft)

/-- Store `new` at the address `path` inside `v`. -/
def Val.write : Val → List Step → Val → Val
  | _, [], new => new
  | .ptr (some pv), .deref :: r, new => .ptr (some (Val.write pv r new))
  | .iface (some (dt, dv)), .dyn :: r, new => .iface (some (dt, Val.write dv r new))
  | .struct vs, .field i :: r, new =>
    .struct (vs.set i (Val.write (vs.getD i default) r new))
  | v, _, _ => v

/-- The content at the address `path` inside `v`. -/
def Val.read : Val → List Step → Option Val
  | v, [] => some v
  | .ptr (some pv), .deref :: r => Val.read pv r
  | .iface (some (_, dv)), .dyn :: r => Val.read dv r
  | .struct vs, .field i :: r => (vs.get? i).bind fun fv => Val.read fv r
  | _, _ => none

/-- An interface value holding a pointer (`reflect.Value.Interface()` of a pointer): its
dynamic type and the address it points to. -/
structure Pointer where
  typ : GoType
  loc : Loc
deriving DecidableEq, Repr

/-! ## The libraries the package calls -/

/-- What the package takes from outside: the platform's `int` size, `strings.ToLower`,
`strconv.Quote`, the standard parsers (each returns the value and the error of the Go
function, the error given by its message), and the methods declared by the program on its
own types: `Set`, `UnmarshalText` and `UnmarshalBinary` (receiver's pointer type, pointee
before the call, argument; result: pointee after the call and the error), `String`
(field `ValueString`; receiver's pointer type and pointee; result: the string) and
`MarshalText` and `MarshalBinary` (receiver's pointer type and pointee; result: the data and
the error). -/
structure Env where
  intSize : Nat := 64
  ToLower : String → String
  Quote : String → String
  ParseBool : String → Bool × Option String
  ParseInt : String → Nat → Nat → Int × Option String
  ParseUint : String → Nat → Nat → Nat × Option String
  ParseFloat : String → Nat → Nat × Option String
  ParseDuration : String → Int × Option String
  Set : GoType → Val → String → Val × Option String
  UnmarshalText : GoType → Val → String → Val × Option String
  UnmarshalBinary : GoType → Val → String → Val × Option String
  ValueString : GoType → Val → String
  MarshalText : GoType → Val → String × Option String
  MarshalBinary : GoType → Val → String × Option String

/-- Conversion `int(x)` of an `int64`: wrap into the signed range of `bits` bits. -/
def toInt (bits : Nat) (x : Int) : Int :=
  (x + 2 ^ (bits - 1)) % 2 ^ bits - 2 ^ (bits - 1)

/-- Conversion `uint(x)` of a `uint64`: wrap into `bits` bits. -/
def toUint (bits : Nat) (x : Nat) : Nat := x % 2 ^ bits

/-! ## `defaults.go` -/

/-- Source `defaultBool`. -/
def defaultBool (W : Env) (str : String) : Bool × Option String :=
  if str = "" then (false, none) else W.ParseBool str

/-- Source `defaultDuration`; a `time.Duration` is its count of nanoseconds. -/
def defaultDuration (W : Env) (str : String) : Int × Option String :=
  if str = "" then (0, none) else W.ParseDuration str

/-- Source `defaultFloat64`. -/
def defaultFloat64 (W : Env) (str : String) : Nat × Option String :=
  if str = "" then (0, none) else W.ParseFloat str 64

/-- Source `defaultInt`: `strconv.ParseInt(str, 0, 0)` converted with `int(..)`. -/
def defaultInt (W : Env) (str : String) : Int × Option String :=
  if str = "" then (0, none)
  else
    let r := W.ParseInt str 0 0
    (toInt W.intSize r.1, r.2)

/-- Source `defaultInt64`. -/
def defaultInt64 (W : Env) (str : String) : Int × Option String :=
  if str = "" then (0, none)
  else
    let r := W.ParseInt str 0 64
    (r.1, r.2)

/-- Source `defaultUint`: `strconv.ParseUint(str, 0, 0)` converted with `uint(..)`. -/
def defaultUint (W : Env) (str : String) : Nat × Option String :=
  if str = "" then (0, none)
  else
    let r := W.ParseUint str 0 0
    (toUint W.intSize r.1, r.2)

/-- Source `defaultUint64`. -/
def defaultUint64 (W : Env) (str : String) : Nat × Option String :=
  if str = "" then (0, none)
  else
    let r := W.ParseUint str 0 64
    (r.1, r.2)

/-! ## Errors -/

/-- Error values.  `external` is an error made outside the package (a parser's or a
method's), given by its message.  `unsupportedType` is the value of the package variable
`unsupportedTypeErr`.  `unsupportedField` and `inField` are the two `fmt.Errorf` values of
`fieldsAsFlags`, kept with their arguments; `inField` wraps `err` (verb `%w`). -/
inductive GoError where
  | external (msg : String)
  | unsupportedType
  | IncorrectDefaultValue (Field : String) (Typ : Option GoType) (Value : String)
      (Reason : GoError)
  | unsupportedField (Name : String) (valueType : GoType)
  | inField (Name : String) (valueType : GoType) (err : GoError)
deriving DecidableEq, Repr

/-- Package variable `unsupportedTypeErr`. -/
def unsupportedTypeErr : GoError := .unsupportedType

/-- Formatting of a possibly nil type with the verb `%s`. -/
def fmtType : Option GoType → String
  | some t => t.toStr
  | none => "%!s(<nil>)"

/-- Method `Error()` of every error value. -/
def GoError.Error (W : Env) : GoError → String
  | .external msg => msg
  | .unsupportedType =>
    "unsupported type: type should implements flag.Value or be bool, (u)int(64), string, float64"
  | .IncorrectDefaultValue f t v r =>
    "can't set default value " ++ W.Quote v ++ " for field " ++ f ++ " type " ++ fmtType t
      ++ ": " ++ r.Error W
  | .unsupportedField n t =>
    "field " ++ n ++ " has unsupported type " ++ t.toStr
      ++ ", type should implements flag.Value or be bool, (u)int(64), string, float64"
  | .inField n t e => "in field " ++ n ++ " with type " ++ t.toStr ++ ": " ++ e.Error W

/-- Method `Unwrap()`: of `IncorrectDefaultValue` (source) and of a `%w` error. -/
def GoError.Unwrap : GoError → Option GoError
  | .IncorrectDefaultValue _ _ _ r => some r
  | .inField _ _ e => some e
  | _ => none

/-- Function `errors.Is`: some error of the `Unwrap` chain equals `target`. -/
def errorsIs : GoError → GoError → Bool
  | .IncorrectDefaultValue f t v r, target =>
    decide (GoError.IncorrectDefaultValue f t v r = target) || errorsIs r target
  | .inField n t e, target => decide (GoError.inField n t e = target) || errorsIs e target
  | err, target => decide (err = target)

/-- Function `errors.As` with a target of type `*IncorrectDefaultValue`: the first
`IncorrectDefaultValue` of the `Unwrap` chain. -/
def errorsAsIncorrectDefaultValue : GoError → Option GoError
  | .IncorrectDefaultValue f t v r => some (.IncorrectDefaultValue f t v r)
  | .inField _ _ e => errorsAsIncorrectDefaultValue e
  | _ => none

/-! ## The registrar -/

/-- A `flag.Value` built by `asValue`: the pointer itself, or one of the two wrappers of
`wrappers.go` around it. -/
inductive FlagValue where
  | native (ptr : Pointer)
  | textWrapper (text : Pointer)
  | binaryWrapper (binary : Pointer)
deriving DecidableEq, Repr

/-- Source `textWrapper.Set`. -/
def textWrapper.Set (W : Env) (text : Pointer) (pointee : Val) (s : String) :
    Val × Option String :=
  W.UnmarshalText text.typ pointee s

/-- Source `binaryWrapper.Set`. -/
def binaryWrapper.Set (W : Env) (binary : Pointer) (pointee : Val) (s : String) :
    Val × Option String :=
  W.UnmarshalBinary binary.typ pointee s

/-- Source `textWrapper.String` (named `toStr` here, `String` being the type): the empty
string for a wrapper around nil, otherwise the data of `MarshalText`; `panic(err)` when
`MarshalText` fails (the error side of the result, with the message of `err`). -/
def textWrapper.toStr (W : Env) (text : Option Pointer) (pointee : Val) :
    Except String String :=
  match text with
  | none => .ok ""
  | some ptr =>
    match W.MarshalText ptr.typ pointee with
    | (_, some err) => .error err
    | (data, none) => .ok data

/-- Source `binaryWrapper.String`: the empty string for a wrapper around nil, otherwise the
data of `MarshalBinary`; `panic(err)` when `MarshalBinary` fails. -/
def binaryWrapper.toStr (W : Env) (binary : Option Pointer) (pointee : Val) :
    Except String String :=
  match binary with
  | none => .ok ""
  | some ptr =>
    match W.MarshalBinary ptr.typ pointee with
    | (_, some err) => .error err
    | (data, none) => .ok data

/-- Method `String` of a `flag.Value`, by its dynamic type; the error side is a panic.  The
wrappers that `asValue` builds hold a pointer, never nil. -/
def FlagValue.toStr (W : Env) : FlagValue → Val → Except String String
  | .native ptr, pointee => .ok (W.ValueString ptr.typ pointee)
  | .textWrapper text, pointee => textWrapper.toStr W (some text) pointee
  | .binaryWrapper binary, pointee => binaryWrapper.toStr W (some binary) pointee

/-- Method `Set` of a `flag.Value`, by its dynamic type. -/
def FlagValue.Set (W : Env) : FlagValue → Val → String → Val × Option String
  | .native ptr, pointee, s => W.Set ptr.typ pointee s
  | .textWrapper text, pointee, s => textWrapper.Set W text pointee s
  | .binaryWrapper binary, pointee, s => binaryWrapper.Set W binary pointee s

/-- The pointer a `flag.Value` built by `asValue` is bound to. -/
def FlagValue.pointer : FlagValue → Pointer
  | .native ptr => ptr
  | .textWrapper text => text
  | .binaryWrapper binary => binary

/-- One registration call on the `*flag.FlagSet`, with its arguments: `Var(value, name,
usage)` or `XxxVar(p, name, value, usage)`. -/
inductive Flag where
  | Var (value : FlagValue) (name usage : String)
  | StringVar (p : Loc) (name : String) (value : String) (usage : String)
  | BoolVar (p : Loc) (name : String) (value : Bool) (usage : String)
  | IntVar (p : Loc) (name : String) (value : Int) (usage : String)
  | Int64Var (p : Loc) (name : String) (value : Int) (usage : String)
  | UintVar (p : Loc) (name : String) (value : Nat) (usage : String)
  | Uint64Var (p : Loc) (name : String) (value : Nat) (usage : String)
  | Float64Var (p : Loc) (name : String) (value : Nat) (usage : String)
  | DurationVar (p : Loc) (name : String) (value : Int) (usage : String)
deriving DecidableEq, Repr

/-- The registrations of a `*flag.FlagSet`, in call order.  The registrar is outside the
package: a call is recorded with its arguments, an `XxxVar` call stores its `value`
argument in `*p`, as the `flag` package documents, and a `Var` call calls `value.String()`
before it records the flag (`FlagSet.Var`). -/
abbrev FlagSet := List Flag

/-- Name under which a flag is registered. -/
def Flag.name : Flag → String
  | .Var _ n _ | .StringVar _ n _ _ | .BoolVar _ n _ _ | .IntVar _ n _ _ | .Int64Var _ n _ _
  | .UintVar _ n _ _ | .Uint64Var _ n _ _ | .Float64Var _ n _ _ | .DurationVar _ n _ _ => n

/-- Usage text of a flag. -/
def Flag.usage : Flag → String
  | .Var _ _ u | .StringVar _ _ _ u | .BoolVar _ _ _ u | .IntVar _ _ _ u | .Int64Var _ _ _ u
  | .UintVar _ _ _ u | .Uint64Var _ _ _ u | .Float64Var _ _ _ u | .DurationVar _ _ _ u => u

/-- Address of the storage a flag is bound to. -/
def Flag.loc : Flag → Loc
  | .Var v _ _ => v.pointer.loc
  | .StringVar p _ _ _ | .BoolVar p _ _ _ | .IntVar p _ _ _ | .Int64Var p _ _ _
  | .UintVar p _ _ _ | .Uint64Var p _ _ _ | .Float64Var p _ _ _ | .DurationVar p _ _ _ => p

/-- The call `flags.Var(value, name, usage)`: the registrar calls `value.String()` to
remember the default as a string and then records the flag; when `String` panics the flag
is not recorded.  `pointee` is the content of the variable the value is bound to.  The
result is the panic message, if any, and the flag set after the call. -/
def FlagSet.Var (W : Env) (flags : FlagSet) (value : FlagValue) (pointee : Val)
    (name usage : String) : Option String × FlagSet :=
  match value.toStr W pointee with
  | .error msg => (some msg, flags)
  | .ok _ => (none, flags ++ [.Var value name usage])

/-! ## `flags.go` -/

/-- Package variable `timeDurationType`: the descriptor of `time.Duration`. -/
def timeDurationType : GoType :=
  .basic "time.Duration" .int64
    [⟨"Abs", false⟩, ⟨"Hours", false⟩, ⟨"Microseconds", false⟩, ⟨"Milliseconds", false⟩,
     ⟨"Minutes", false⟩, ⟨"Nanoseconds", false⟩, ⟨"Round", false⟩, ⟨"Seconds", false⟩,
     ⟨"String", false⟩, ⟨"Truncate", false⟩]

/-- Package variable `flagsValueInterfaceType`: the interface `flag.Value`. -/
def flagsValueInterfaceType : GoType :=
  .basic "flag.Value" .interface [⟨"String", false⟩, ⟨"Set", false⟩]

/-- Package variable `encodingBinaryInterfaceType`: the interface `encodingBinary` of
`wrappers.go`. -/
def encodingBinaryInterfaceType : GoType :=
  .basic "flagconfig.encodingBinary" .interface
    [⟨"UnmarshalBinary", false⟩, ⟨"MarshalBinary", false⟩]

/-- Package variable `encodingTextInterfaceType`: the interface `encodingText` of
`wrappers.go`. -/
def encodingTextInterfaceType : GoType :=
  .basic "flagconfig.encodingText" .interface
    [⟨"UnmarshalText", false⟩, ⟨"MarshalText", false⟩]

/-- Source `TagsSettings`: the names of the four tags. -/
structure TagsSettings where
  Default : String
  Description : String
  NameOverride : String
  Ignored : String
deriving DecidableEq, Repr

/-- Package variable `DefaultTagsNaming`. -/
def DefaultTagsNaming : TagsSettings :=
  { Default := "default", Description := "desc", NameOverride := "name", Ignored := "ignored" }

/-- Package variable `EnvconfigTagsNaming`. -/
def EnvconfigTagsNaming : TagsSettings :=
  { Default := "default", Description := "desc", NameOverride := "envconfig",
    Ignored := "ignored" }

/-- Method `StructTag.Lookup`: the value of the first pair with the key. -/
def StructField.Lookup (f : StructField) (key : String) : Option String :=
  (f.Tag.find? fun kv => kv.1 = key).map Prod.snd

/-- Method `StructTag.Get`: as `Lookup`, the empty string when the key is absent. -/
def StructField.Get (f : StructField) (key : String) : String :=
  (f.Lookup key).getD ""

/-- Source `TagsSettings.getName`. -/
def TagsSettings.getName (W : Env) (s : TagsSettings) (field : StructField) : String :=
  match field.Lookup s.NameOverride with
  | some override => override
  | none => W.ToLower field.Name

/-- Source `asValue`. -/
def asValue (ptr : Pointer) (t : GoType) : Option FlagValue :=
  if t.Implements flagsValueInterfaceType then some (.native ptr)
  else if t.Implements encodingTextInterfaceType then some (.textWrapper ptr)
  else if t.Implements encodingBinaryInterfaceType then some (.binaryWrapper ptr)
  else none

/-- Source `defaultStringFlag`. -/
def defaultStringFlag (f : StructField) (settings : TagsSettings) : String :=
  let fromTag := f.Get settings.Default
  if fromTag ≠ "" then fromTag else ""

/-- How a call ends: it returns a nil error, returns an error, panics, or (for the
recursive walk of the embedding) exhausts its fuel. -/
inductive Outcome where
  | nil
  | error (err : GoError)
  | panic (msg : String)
  | outOfFuel
deriving DecidableEq, Repr

/-- State after a call on a variable: how the call ended, the content of the variable and
the registrations made so far. -/
structure Result where
  out : Outcome
  val : Val
  flags : FlagSet

/-- The panic of a failed type assertion `x.(T)` on an `interface{}`. -/
def assertPanic (p : Pointer) (want : GoType) : Outcome :=
  .panic ("interface conversion: interface \x7b\x7d is " ++ p.typ.toStr ++ ", not "
    ++ want.toStr)

/-- Source `byKind`.  `val` is the content of `*pointerToField`; a type assertion
`pointerToField.(*T)` holds when the pointer's dynamic type is `*T`. -/
def byKind (W : Env) (ft : GoType) (flags : FlagSet) (pointerToField : Pointer) (val : Val)
    (flagName defaultString desc : String) : Result :=
  match ft.kind with
  | .string =>
    if pointerToField.typ = (GoType.builtin "string" .string).PtrTo then
      ⟨.nil, .str defaultString,
        flags ++ [.StringVar pointerToField.loc flagName defaultString desc]⟩
    else ⟨assertPanic pointerToField (GoType.builtin "string" .string).PtrTo, val, flags⟩
  | .bool =>
    match defaultBool W defaultString with
    | (_, some err) => ⟨.error (.IncorrectDefaultValue "" none "" (.external err)), val, flags⟩
    | (d, none) =>
      if pointerToField.typ = (GoType.builtin "bool" .bool).PtrTo then
        ⟨.nil, .bool d, flags ++ [.BoolVar pointerToField.loc flagName d desc]⟩
      else ⟨assertPanic pointerToField (GoType.builtin "bool" .bool).PtrTo, val, flags⟩
  | .int =>
    match defaultInt W defaultString with
    | (_, some err) => ⟨.error (.IncorrectDefaultValue "" none "" (.external err)), val, flags⟩
    | (d, none) =>
      if pointerToField.typ = (GoType.builtin "int" .int).PtrTo then
        ⟨.nil, .int d, flags ++ [.IntVar pointerToField.loc flagName d desc]⟩
      else ⟨assertPanic pointerToField (GoType.builtin "int" .int).PtrTo, val, flags⟩
  | .int64 =>
    match defaultInt64 W defaultString with
    | (_, some err) => ⟨.error (.IncorrectDefaultValue "" none "" (.external err)), val, flags⟩
    | (d, none) =>
      if pointerToField.typ = (GoType.builtin "int64" .int64).PtrTo then
        ⟨.nil, .int d, flags ++ [.Int64Var pointerToField.loc flagName d desc]⟩
      else ⟨assertPanic pointerToField (GoType.builtin "int64" .int64).PtrTo, val, flags⟩
  | .uint =>
    match defaultUint W defaultString with
    | (_, some err) => ⟨.error (.IncorrectDefaultValue "" none "" (.external err)), val, flags⟩
    | (d, none) =>
      if pointerToField.typ = (GoType.builtin "uint" .uint).PtrTo then
        ⟨.nil, .uint d, flags ++ [.UintVar pointerToField.loc flagName d desc]⟩
      else ⟨assertPanic pointerToField (GoType.builtin "uint" .uint).PtrTo, val, flags⟩
  | .uint64 =>
    match defaultUint64 W defaultString with
    | (_, some err) => ⟨.error (.IncorrectDefaultValue "" none "" (.external err)), val, flags⟩
    | (d, none) =>
      if pointerToField.typ = (GoType.builtin "uint64" .uint64).PtrTo then
        ⟨.nil, .uint d, flags ++ [.Uint64Var pointerToField.loc flagName d desc]⟩
      else ⟨assertPanic pointerToField (GoType.builtin "uint64" .uint64).PtrTo, val, flags⟩
  | .float64 =>
    match defaultFloat64 W defaultString with
    | (_, some err) => ⟨.error (.IncorrectDefaultValue "" none "" (.external err)), val, flags⟩
    | (d, none) =>
      if pointerToField.typ = (GoType.builtin "float64" .float64).PtrTo then
        ⟨.nil, .float d, flags ++ [.Float64Var pointerToField.loc flagName d desc]⟩
      else ⟨assertPanic pointerToField (GoType.builtin "float64" .float64).PtrTo, val, flags⟩
  | _ => ⟨.error unsupportedTypeErr, val, flags⟩

/-- What `pointerToFieldValue.Elem()` is when it is a valid `reflect.Value`: its type, its
content, the path `rel` from the field to it, and whether it is addressable. -/
structure ElemValue where
  typ : GoType
  val : Val
  rel : List Step
  canAddr : Bool

/-- The `reflect.Value` that `getPointerToField` returns: its type, its read-only flag (set
when the field is not exported) and what its `Elem()` is (`none`: the zero
`reflect.Value`, for a nil pointer). -/
structure PointerValue where
  typ : GoType
  flagRO : Bool
  elem : Option ElemValue

/-- Method `CanSet()` of `pointerToFieldValue.Elem()`: addressable and not read-only. -/
def PointerValue.elemCanSet (p : PointerValue) : Bool :=
  match p.elem with
  | none => false
  | some e => e.canAddr && !p.flagRO

/-- Source `getPointerToField`, on `field := v.Field(i)` given by the field's descriptor
`f`, type `ft` and content `fv`.  Returns the pointer and the content of the field after the
call, or the message of the panic of `field.Set` on a field that is not exported. -/
def getPointerToField (f : StructField) (ft : GoType) (fv : Val) :
    Except String (PointerValue × Val) :=
  let ro := decide (f.PkgPath ≠ "")
  match ft.kind, fv with
  | .interface, .iface (some (dt, dv)) =>
    -- field.Type().Kind() == reflect.Interface && !field.IsNil()
    match dt, dv with
    | .ptr _ et, .ptr (some pv) =>
      -- elem.Kind() == reflect.Ptr: return elem
      .ok (⟨dt, ro, some ⟨et, pv, [.dyn, .deref], true⟩⟩, fv)
    | .ptr _ _, _ => .ok (⟨dt, ro, none⟩, fv)
    | _, _ =>
      -- return field: its Elem() is the dynamic value, which is not addressable
      .ok (⟨ft, ro, some ⟨dt, dv, [.dyn], false⟩⟩, fv)
  | _, _ =>
    match ft with
    | .ptr _ et =>
      match fv with
      | .ptr (some pv) => .ok (⟨ft, ro, some ⟨et, pv, [.deref], true⟩⟩, fv)
      | _ =>
        -- field.IsNil(): field.Set(reflect.New(field.Type().Elem()))
        if ro then
          .error "reflect: reflect.Value.Set using value obtained using unexported field"
        else .ok (⟨ft, ro, some ⟨et, zero et, [.deref], true⟩⟩, .ptr (some (zero et)))
    | _ =>
      -- field.Type().Kind() != reflect.Ptr: return field.Addr()
      .ok (⟨ft.PtrTo, ro, some ⟨ft, fv, [], true⟩⟩, fv)

/-- The recursive call `fieldsAsFlags(pointerToField, settings, flagName, flags)` as the
loop body sees it: address, type and content of the structure pointed to, name prefix,
flag set. -/
abbrev Walk := Loc → GoType → Val → String → FlagSet → Result

/-- The flag name of `fieldsAsFlags`: `settings.getName(f)`, with `prefix + "."` in front
when the prefix is not empty. -/
def flagNameOf (W : Env) (settings : TagsSettings) (pfx : String) (f : StructField) : String :=
  let flagName := settings.getName W f
  if pfx ≠ "" then pfx ++ "." ++ flagName else flagName

/-- The usage text handed to `flags.Var`: the description, with the type in backquotes in
front when the description contains no backquote (rune 96). -/
def usageOf (valueType : GoType) (desc : String) : String :=
  if !desc.toList.contains (Char.ofNat 96) then "`" ++ valueType.toStr ++ "` " ++ desc
  else desc

/-- Body of the loop of `fieldsAsFlags` after the skip test, for a field `f` at index `i` of
the structure at `loc`: `p` is `pointerToFieldValue`, `e` its `Elem()`, `fv` the content of
the field, `recur` the recursive call.  The result holds the content of the field after the
iteration. -/
def registerField (recur : Walk) (W : Env) (settings : TagsSettings) (pfx : String)
    (loc : Loc) (f : StructField) (i : Nat) (p : PointerValue) (e : ElemValue) (fv : Val)
    (flags : FlagSet) : Result :=
  let valueType := e.typ
  let pointerToField : Pointer := ⟨p.typ, loc ++ .field i :: e.rel⟩
  let flagName := flagNameOf W settings pfx f
  let desc := f.Get settings.Description
  let defaultString := defaultStringFlag f settings
  let errorSetDefault := fun (err : GoError) =>
    GoError.IncorrectDefaultValue f.Name (some valueType) defaultString err
  match asValue pointerToField p.typ with
  | some value =>
    let r := if defaultString ≠ "" then value.Set W e.val defaultString else (e.val, none)
    match r.2 with
    | some err => ⟨.error (errorSetDefault (.external err)), fv.write e.rel r.1, flags⟩
    | none =>
      match FlagSet.Var W flags value r.1 flagName (usageOf valueType desc) with
      | (some msg, flags1) => ⟨.panic msg, fv.write e.rel r.1, flags1⟩
      | (none, flags1) => ⟨.nil, fv.write e.rel r.1, flags1⟩
  | none =>
    if valueType.kind = .struct then
      let flagName := if f.Anonymous then pfx else flagName
      let r := recur pointerToField.loc valueType e.val flagName flags
      match r.out with
      | .error err => ⟨.error (.inField f.Name valueType err), fv.write e.rel r.val, r.flags⟩
      | o => ⟨o, fv.write e.rel r.val, r.flags⟩
    else if valueType = timeDurationType then
      match defaultDuration W defaultString with
      | (_, some err) => ⟨.error (errorSetDefault (.external err)), fv, flags⟩
      | (d, none) =>
        if pointerToField.typ = timeDurationType.PtrTo then
          ⟨.nil, fv.write e.rel (.int d),
            flags ++ [.DurationVar pointerToField.loc flagName d desc]⟩
        else ⟨assertPanic pointerToField timeDurationType.PtrTo, fv, flags⟩
    else
      let r := byKind W valueType flags pointerToField e.val flagName defaultString desc
      match r.out with
      | .error err =>
        if errorsIs err unsupportedTypeErr then
          ⟨.error (.unsupportedField f.Name valueType), fv.write e.rel r.val, r.flags⟩
        else
          match errorsAsIncorrectDefaultValue err with
          | some (.IncorrectDefaultValue _ _ _ reason) =>
            ⟨.error (errorSetDefault reason), fv.write e.rel r.val, r.flags⟩
          | _ => ⟨.error err, fv.write e.rel r.val, r.flags⟩
      | o => ⟨o, fv.write e.rel r.val, r.flags⟩

/-- One iteration of the loop of `fieldsAsFlags`, for the field `f` of type `ft` at index
`i` with content `fv`.  Outcome `nil` means that the loop goes on with the next field. -/
def visitField (recur : Walk) (W : Env) (settings : TagsSettings) (pfx : String) (loc : Loc)
    (f : StructField) (ft : GoType) (i : Nat) (fv : Val) (flags : FlagSet) : Result :=
  match getPointerToField f ft fv with
  | .error msg => ⟨.panic msg, fv, flags⟩
  | .ok (pointerToFieldValue, fv1) =>
    match pointerToFieldValue.elem with
    | none => ⟨.nil, fv1, flags⟩
    | some e =>
      if !pointerToFieldValue.elemCanSet || f.Get settings.Ignored = "true" then
        ⟨.nil, fv1, flags⟩
      else registerField recur W settings pfx loc f i pointerToFieldValue e fv1 flags

/-- The loop `for i := 0; i < t.NumField(); i++` of `fieldsAsFlags` from index `i` on, over
the remaining fields `fs`; `vs` are the contents of all fields of the structure. -/
def walkFields (visit : StructField → GoType → Nat → Val → FlagSet → Result) :
    List (StructField × GoType) → Nat → List Val → FlagSet → Outcome × List Val × FlagSet
  | [], _, vs, flags => (.nil, vs, flags)
  | p :: rest, i, vs, flags =>
    let r := visit p.1 p.2 i (Val.Field vs p.2 i) flags
    match r.out with
    | .nil => walkFields visit rest (i + 1) (vs.set i r.val) r.flags
    | o => (o, vs.set i r.val, r.flags)

/-- Source `fieldsAsFlags`.  The argument `s` is a pointer to the variable at `loc` with type
`t` and content `v`; `fuel` bounds the depth of the recursion. -/
def fieldsAsFlags (W : Env) (settings : TagsSettings) :
    Nat → Loc → GoType → Val → String → FlagSet → Result
  | 0, _, _, v, _, flags => ⟨.outOfFuel, v, flags⟩
  | fuel + 1, loc, t, v, pfx, flags =>
    match t with
    | .struct _ _ fields =>
      let r := walkFields (visitField (fieldsAsFlags W settings fuel) W settings pfx loc)
        fields 0 v.fields flags
      ⟨r.1, .struct r.2.1, r.2.2⟩
    | _ => ⟨.panic ("reflect: NumField of non-struct type " ++ t.toStr), v, flags⟩

/-- Source `MakeFlagsWithCustomTags`, for `s` a pointer to a variable of type `t` with
content `v`; the flag set starts empty. -/
def MakeFlagsWithCustomTags (W : Env) (fuel : Nat) (t : GoType) (v : Val)
    (settings : TagsSettings) : Result :=
  fieldsAsFlags W settings fuel [] t v "" []

/-- Source `MakeFlags`. -/
def MakeFlags (W : Env) (fuel : Nat) (t : GoType) (v : Val) : Result :=
  MakeFlagsWithCustomTags W fuel t v DefaultTagsNaming

/-- Source `MakeFlagsEnvconfig`. -/
def MakeFlagsEnvconfig (W : Env) (fuel : Nat) (t : GoType) (v : Val) : Result :=
  MakeFlagsWithCustomTags W fuel t v EnvconfigTagsNaming

/-- The kinds listed by the `switch` of `byKind`. -/
def supportedKind : Kind → Bool
  | .string | .bool | .int | .int64 | .uint | .uint64 | .float64 => true
  | _ => false

/-- The error of the default parser that `byKind` applies to the default string of a field
of the given kind (`none` when the parser succeeds or the kind has no parser). -/
def kindParserError (W : Env) : Kind → String → Option String
  | .bool, d => (defaultBool W d).2
  | .int, d => (defaultInt W d).2
  | .int64, d => (defaultInt64 W d).2
  | .uint, d => (defaultUint W d).2
  | .uint64, d => (defaultUint64 W d).2
  | .float64, d => (defaultFloat64 W d).2
  | _, _ => none

/-- The default value argument of an `XxxVar` registration, as a content. -/
def Flag.value : Flag → Option Val
  | .Var _ _ _ => none
  | .StringVar _ _ d _ => some (.str d)
  | .BoolVar _ _ d _ => some (.bool d)
  | .IntVar _ _ d _ | .Int64Var _ _ d _ | .DurationVar _ _ d _ => some (.int d)
  | .UintVar _ _ d _ | .Uint64Var _ _ d _ => some (.uint d)
  | .Float64Var _ _ d _ => some (.float d)

/-- The seven predeclared types of the kinds listed by the `switch` of `byKind`. -/
def builtinTypes : List GoType :=
  [GoType.builtin "string" .string, GoType.builtin "bool" .bool, GoType.builtin "int" .int,
   GoType.builtin "int64" .int64, GoType.builtin "uint" .uint, GoType.builtin "uint64" .uint64,
   GoType.builtin "float64" .float64]

/-- The error of the standard parser of a kind on a literal (`none`: the literal is valid;
every string is a valid string literal). -/
def literalError (W : Env) : Kind → String → Option String
  | .bool, lit => (W.ParseBool lit).2
  | .int, lit => (W.ParseInt lit 0 0).2
  | .int64, lit => (W.ParseInt lit 0 64).2
  | .uint, lit => (W.ParseUint lit 0 0).2
  | .uint64, lit => (W.ParseUint lit 0 64).2
  | .float64, lit => (W.ParseFloat lit 64).2
  | _, _ => none

/-- The value of the standard parser of a kind on a literal, converted to the type of the
kind, as the content of a variable; for a string the literal itself. -/
def parsedLiteral (W : Env) : Kind → String → Val
  | .string, lit => .str lit
  | .bool, lit => .bool (W.ParseBool lit).1
  | .int, lit => .int (toInt W.intSize (W.ParseInt lit 0 0).1)
  | .int64, lit => .int (W.ParseInt lit 0 64).1
  | .uint, lit => .uint (toUint W.intSize (W.ParseUint lit 0 0).1)
  | .uint64, lit => .uint (W.ParseUint lit 0 64).1
  | .float64, lit => .float (W.ParseFloat lit 64).1
  | _, _ => .other ""

/-! ## An example environment and example structures -/

namespace Sample

/-- Decimal digits to a number; `none` on an empty list or a character that is no digit. -/
def parseDigits : List Char → Option Nat
  | [] => none
  | cs =>
    cs.foldl
      (fun acc c => acc.bind fun n => if c.isDigit then some (n * 10 + (c.toNat - 48)) else none)
      (some 0)

/-- An environment with small parsers: ASCII lower-casing, the literals of
`strconv.ParseBool`, unsigned decimal integers, the float `0`, durations `<digits>ns`; `Set`
and the unmarshalers store the text and reject the text `bad`. -/
def env : Env :=
  { ToLower := fun s => String.mk (s.toList.map Char.toLower)
    Quote := fun s => "\"" ++ s ++ "\""
    ParseBool := fun s =>
      if s = "1" ∨ s = "t" ∨ s = "T" ∨ s = "TRUE" ∨ s = "true" ∨ s = "True" then (true, none)
      else if s = "0" ∨ s = "f" ∨ s = "F" ∨ s = "FALSE" ∨ s = "false" ∨ s = "False" then
        (false, none)
      else (false, some "strconv.ParseBool: invalid syntax")
    ParseInt := fun s _ _ =>
      match parseDigits s.toList with
      | some n => (n, none)
      | none => (0, some "strconv.ParseInt: invalid syntax")
    ParseUint := fun s _ _ =>
      match parseDigits s.toList with
      | some n => (n, none)
      | none => (0, some "strconv.ParseUint: invalid syntax")
    ParseFloat := fun s _ =>
      if s = "0" then (0, none) else (0, some "strconv.ParseFloat: invalid syntax")
    ParseDuration := fun s =>
      match s.toList.reverse with
      | 's' :: 'n' :: ds =>
        match parseDigits ds.reverse with
        | some n => (n, none)
        | none => (0, some "time: invalid duration")
      | _ => (0, some "time: invalid duration")
    Set := fun _ v s => if s = "bad" then (v, some "bad value") else (.str s, none)
    UnmarshalText := fun _ v s =>
      if s = "bad" then (v, some "cannot parse") else (.struct [.str s], none)
    UnmarshalBinary := fun _ v s =>
      if s = "bad" then (v, some "cannot parse") else (.struct [.str s], none)
    ValueString := fun _ v =>
      match v with
      | .str s => s
      | _ => ""
    MarshalText := fun _ v =>
      match v with
      | .struct [.str "10000-01-01T00:00:00Z"] =>
        ("", some "Time.MarshalText: year outside of range [0,9999]")
      | .struct [.str s] => (s, none)
      | _ => ("", none)
    MarshalBinary := fun _ v =>
      match v with
      | .struct [.str s] => (s, none)
      | _ => ("", none) }

/-- The type `string`. -/
def stringT : GoType := GoType.builtin "string" .string

/-- The type `int`. -/
def intT : GoType := GoType.builtin "int" .int

/-- The type `int32`. -/
def int32T : GoType := GoType.builtin "int32" .int32

/-- The type `interface {}`. -/
def anyT : GoType := .basic "interface \x7b\x7d" .interface []

/-- A stand-in for `time.Time`: a structure with one field that is not exported, which
has the text and the binary marshalers. -/
def timeT : GoType :=
  .struct "time.Time"
    [⟨"String", false⟩, ⟨"MarshalText", false⟩, ⟨"UnmarshalText", true⟩,
     ⟨"MarshalBinary", false⟩, ⟨"UnmarshalBinary", true⟩]
    [(⟨"wall", "time", [], false⟩, stringT)]

/-- A stand-in for `url.URL`: a structure with an exported field, which has the binary
marshalers. -/
def urlT : GoType :=
  .struct "url.URL"
    [⟨"String", true⟩, ⟨"MarshalBinary", true⟩, ⟨"UnmarshalBinary", true⟩]
    [(⟨"Scheme", "", [], false⟩, stringT)]

/-- A structure type with all three capabilities. -/
def levelT : GoType :=
  .struct "main.Level"
    [⟨"String", false⟩, ⟨"Set", true⟩, ⟨"MarshalText", false⟩, ⟨"UnmarshalText", true⟩,
     ⟨"MarshalBinary", false⟩, ⟨"UnmarshalBinary", true⟩]
    [(⟨"Name", "", [], false⟩, stringT)]

/-- The structure `SubConfig` of `TestLateBinding`. -/
def subConfigT : GoType := .struct "flagconfig.SubConfig" [] [(⟨"Field", "", [], false⟩, intT)]

end Sample

/-! ## Notions used to state the later claims -/

/-- A description contains a segment delimited by backquotes: it has two backquotes at
least. -/
def hasBacktickSegment (desc : String) : Bool :=
  decide (2 ≤ desc.toList.count (Char.ofNat 96))

/-- The usage text as the specification words it: the description unchanged when it
contains a backquote-delimited segment, otherwise the type in backquotes and a space in
front of it. -/
def specUsage (valueType : GoType) (desc : String) : String :=
  if hasBacktickSegment desc then desc else "`" ++ valueType.toStr ++ "` " ++ desc


/-- The values of a type of predeclared kind `k` that is not an interface type, in the
representation `Val`. -/
def Val.ofKind : BasicKind → Val → Bool
  | .bool, .bool _ => true
  | .int, .int _ | .int8, .int _ | .int16, .int _ | .int32, .int _ | .int64, .int _ => true
  | .uint, .uint _ | .uint8, .uint _ | .uint16, .uint _ | .uint32, .uint _
  | .uint64, .uint _ | .uintptr, .uint _ => true
  | .float32, .float _ | .float64, .float _ => true
  | .string, .str _ => true
  | .complex64, .other _ | .complex128, .other _ | .array, .other _ | .chan, .other _
  | .func, .other _ | .map, .other _ | .slice, .other _ | .unsafePointer, .other _ => true
  | _, _ => false

mutual
/-- Typing of values: `v` is a value of the Go type `t`.  A structure value has one content
per declared field, a pointer is nil or points to a value of the element type, an interface
is nil or holds a value of its dynamic type. -/
def Val.hasType : GoType → Val → Bool
  | .struct _ _ fs, .struct vs => Val.hasTypeFields fs vs
  | .ptr _ _, .ptr none => true
  | .ptr _ et, .ptr (some pv) => Val.hasType et pv
  | .basic _ k _, .iface none => decide (k = .interface)
  | .basic _ k _, .iface (some (dt, dv)) => decide (k = .interface) && Val.hasType dt dv
  | .basic _ k _, v => Val.ofKind k v
  | _, _ => false
/-- Typing of the contents of the fields of a structure. -/
def Val.hasTypeFields : List (StructField × GoType) → List Val → Bool
  | [], [] => true
  | p :: rest, x :: xs => Val.hasType p.2 x && Val.hasTypeFields rest xs
  | _, _ => false
end

/-- The registrations `fl2` are those of `fl` followed by registrations bound to addresses
inside the variable at `loc`, at each of which the content `v` of that variable holds a
value. -/
def boundWithin (loc : Loc) (v : Val) (fl fl2 : FlagSet) : Prop :=
  ∃ new : FlagSet, fl2 = fl ++ new ∧
    ∀ g ∈ new, ∃ rel : Loc, g.loc = loc ++ rel ∧ (v.read rel).isSome = true

/-- A call of `fieldsAsFlags`: the fuel and the arguments. -/
structure Call where
  fuel : Nat
  loc : Loc
  typ : GoType
  val : Val
  pfx : String
  flags : FlagSet

/-- The result of a call. -/
def Call.run (W : Env) (settings : TagsSettings) (c : Call) : Result :=
  fieldsAsFlags W settings c.fuel c.loc c.typ c.val c.pfx c.flags

/-- One struct level of a nested walk: a call walks a structure `s` whose fields are `pre`,
then `f` of type `ft`, then `post`; the fields `pre` have been walked, which left the content
`v1` and the registrations `fl1`; `p` and `fv1` are what `getPointerToField` returns for
`f`, and `e` is `p.Elem()`, the structure the walk descends into. -/
structure Frame where
  s : String
  m : List Method
  pre : List (StructField × GoType)
  f : StructField
  ft : GoType
  post : List (StructField × GoType)
  v1 : Val
  fl1 : FlagSet
  p : PointerValue
  fv1 : Val
  e : ElemValue

/-- The recursive call `fieldsAsFlags(pointerToField, settings, flagName, flags)` that the
call `c` makes for the field of the frame. -/
def Frame.inner (W : Env) (settings : TagsSettings) (fr : Frame) (c : Call) : Call :=
  ⟨c.fuel - 1, c.loc ++ .field fr.pre.length :: fr.e.rel, fr.e.typ, fr.e.val,
    if fr.f.Anonymous then c.pfx else flagNameOf W settings c.pfx fr.f, fr.fl1⟩

/-- The frame describes the call `c`: `c` walks the structure of the frame, reaches the
field `f` after the fields `pre` without error, visits it, and descends into it (the field
has no settable capability and its value is of struct kind). -/
def Frame.describes (W : Env) (settings : TagsSettings) (fr : Frame) (c : Call) : Prop :=
  0 < c.fuel ∧
  c.typ = .struct fr.s fr.m (fr.pre ++ (fr.f, fr.ft) :: fr.post) ∧
  fieldsAsFlags W settings c.fuel c.loc (.struct fr.s fr.m fr.pre) c.val c.pfx c.flags
    = ⟨.nil, fr.v1, fr.fl1⟩ ∧
  getPointerToField fr.f fr.ft (Val.Field c.val.fields fr.ft fr.pre.length)
    = .ok (fr.p, fr.fv1) ∧
  fr.p.elem = some fr.e ∧ fr.p.elemCanSet = true ∧ fr.f.Get settings.Ignored ≠ "true" ∧
  asValue ⟨fr.p.typ, c.loc ++ .field fr.pre.length :: fr.e.rel⟩ fr.p.typ = none ∧
  fr.e.typ.kind = .struct

/-- The frames, outermost first, describe the chain of calls that starts with `c`: each
call is the recursive call of the one before. -/
def nestedIn (W : Env) (settings : TagsSettings) : List Frame → Call → Prop
  | [], _ => True
  | fr :: rest, c => fr.describes W settings c ∧ nestedIn W settings rest (fr.inner W settings c)

/-- The last call of the chain: the walk of the structure below all the frames. -/
def innermost (W : Env) (settings : TagsSettings) : List Frame → Call → Call
  | [], c => c
  | fr :: rest, c => innermost W settings rest (fr.inner W settings c)

/-- An error wrapped once per frame, outermost frame first; a layer names the field of the
frame and the type of the structure walked for it. -/
def wrapLayers : List Frame → GoError → GoError
  | [], err => err
  | fr :: rest, err => .inField fr.f.Name fr.e.typ (wrapLayers rest err)

/-- The error after `k` calls of `Unwrap`. -/
def unwrapN : Nat → GoError → Option GoError
  | 0, err => some err
  | k + 1, err => err.Unwrap.bind (unwrapN k)

namespace Sample

/-- Example `type Leaf struct { Width int }` with the tag `default:"x"` on `Width`. -/
def leafT : GoType :=
  .struct "main.Leaf" [] [(⟨"Width", "", [("default", "x")], false⟩, intT)]

/-- Example `type Mid struct { Inner Leaf }`. -/
def midT : GoType := .struct "main.Mid" [] [(⟨"Inner", "", [], false⟩, leafT)]

/-- Example `type Nested struct { Outer Mid }`. -/
def nestedT : GoType := .struct "main.Nested" [] [(⟨"Outer", "", [], false⟩, midT)]

end Sample

mutual
/-- Nesting depth of a type: the number of struct levels on the longest path through
fields and pointers. -/
def GoType.depth : GoType → Nat
  | .basic _ _ _ => 0
  | .struct _ _ fs => GoType.depthFields fs + 1
  | .ptr _ e => GoType.depth e
/-- Largest nesting depth of the types of a list of fields. -/
def GoType.depthFields : List (StructField × GoType) → Nat
  | [] => 0
  | p :: rest => max (GoType.depth p.2) (GoType.depthFields rest)
end

mutual
/-- Nesting depth of a value: the number of struct levels on the longest path through
fields, pointers and interface values, the dynamic types of the interface values counted
with their own depth. -/
def Val.depth : Val → Nat
  | .struct vs => Val.depthList vs + 1
  | .ptr (some pv) => Val.depth pv
  | .iface (some (dt, dv)) => max dt.depth (Val.depth dv)
  | _ => 0
/-- Largest nesting depth of a list of values. -/
def Val.depthList : List Val → Nat
  | [] => 0
  | x :: rest => max (Val.depth x) (Val.depthList rest)
end

/-- The registrations `fl2` are those of `fl` followed by registrations bound to pairwise
different addresses inside the variable at `loc`. -/
def distinctWithin (loc : Loc) (fl fl2 : FlagSet) : Prop :=
  ∃ new : FlagSet, fl2 = fl ++ new ∧ (new.map Flag.loc).Nodup ∧
    ∀ g ∈ new, ∃ rel : Loc, g.loc = loc ++ rel

/-- What identifies a registration: the address it is bound to and its name. -/
def Flag.binding (g : Flag) : Loc × String := (g.loc, g.name)

/-- The leaf fields that one field contributes, as the specification classifies fields: a
skipped field (storage not settable, or ignored) contributes none; a field that is
settable-value, of the duration type or of a supported primitive kind is a leaf, with the
address of its storage and its composed name; a field of struct kind without settable
capability contributes the leaves of its members (`members`); any other field none. -/
def leavesOfField (members : Loc → GoType → Val → String → List (Loc × String)) (W : Env)
    (settings : TagsSettings) (pfx : String) (loc : Loc) (f : StructField) (ft : GoType)
    (i : Nat) (fv : Val) : List (Loc × String) :=
  match getPointerToField f ft fv with
  | .error _ => []
  | .ok (p, _) =>
    match p.elem with
    | none => []
    | some e =>
      if p.elemCanSet = false ∨ f.Get settings.Ignored = "true" then []
      else if (asValue ⟨p.typ, loc ++ .field i :: e.rel⟩ p.typ).isSome = true
          ∨ e.typ = timeDurationType ∨ supportedKind e.typ.kind = true then
        [(loc ++ .field i :: e.rel, flagNameOf W settings pfx f)]
      else if e.typ.kind = .struct then
        members (loc ++ .field i :: e.rel) e.typ e.val
          (if f.Anonymous then pfx else flagNameOf W settings pfx f)
      else []

/-- The leaves of the fields `fs`, the first of which has index `i`, in declaration
order. -/
def leavesOfFields (leaves : StructField → GoType → Nat → Val → List (Loc × String)) :
    List (StructField × GoType) → Nat → List Val → List (Loc × String)
  | [], _, _ => []
  | q :: rest, i, vs =>
    leaves q.1 q.2 i (Val.Field vs q.2 i) ++ leavesOfFields leaves rest (i + 1) vs

/-- The leaf fields of the structure at `loc` with type `t` and content `v`, in depth-first
declaration order, down to `fuel` struct levels. -/
def leafFields (W : Env) (settings : TagsSettings) :
    Nat → Loc → GoType → Val → String → List (Loc × String)
  | 0, _, _, _, _ => []
  | fuel + 1, loc, t, v, pfx =>
    match t with
    | .struct _ _ fs =>
      leavesOfFields (leavesOfField (leafFields W settings fuel) W settings pfx loc) fs 0
        v.fields
    | _ => []
/-! ## The loop: general facts -/

theorem walkFields_append_nil (visit : StructField → GoType → Nat → Val → FlagSet → Result)
    (xs ys : List (StructField × GoType)) :
    ∀ (i : Nat) (vs : List Val) (fl : FlagSet) (vs1 : List Val) (fl1 : FlagSet),
      walkFields visit xs i vs fl = (.nil, vs1, fl1) →
      walkFields visit (xs ++ ys) i vs fl = walkFields visit ys (i + xs.length) vs1 fl1 := by
  induction xs with
  | nil =>
    intro i vs fl vs1 fl1 h
    simp only [walkFields, Prod.mk.injEq, true_and] at h
    obtain ⟨h1, h2⟩ := h
    subst h1 h2
    simp
  | cons p rest ih =>
    intro i vs fl vs1 fl1 h
    simp only [List.cons_append, walkFields] at h ⊢
    cases hout : (visit p.1 p.2 i (Val.Field vs p.2 i) fl).out <;>
      simp only [hout, List.append_eq] at h ⊢
    · rw [ih _ _ _ _ _ h]
      simp only [List.length_cons]
      congr 1
      omega
    all_goals simp at h

theorem walkFields_append_abort (visit : StructField → GoType → Nat → Val → FlagSet → Result)
    (xs ys : List (StructField × GoType)) :
    ∀ (i : Nat) (vs : List Val) (fl : FlagSet) (o : Outcome) (vs1 : List Val) (fl1 : FlagSet),
      walkFields visit xs i vs fl = (o, vs1, fl1) → o ≠ .nil →
      walkFields visit (xs ++ ys) i vs fl = (o, vs1, fl1) := by
  induction xs with
  | nil =>
    intro i vs fl o vs1 fl1 h ho
    simp only [walkFields, Prod.mk.injEq] at h
    exact absurd h.1.symm ho
  | cons p rest ih =>
    intro i vs fl o vs1 fl1 h ho
    simp only [List.cons_append, walkFields] at h ⊢
    cases hout : (visit p.1 p.2 i (Val.Field vs p.2 i) fl).out <;>
      simp only [hout, List.append_eq] at h ⊢
    · exact ih _ _ _ _ _ _ h ho
    all_goals exact h

theorem walkFields_length (visit : StructField → GoType → Nat → Val → FlagSet → Result)
    (xs : List (StructField × GoType)) :
    ∀ (i : Nat) (vs : List Val) (fl : FlagSet),
      (walkFields visit xs i vs fl).2.1.length = vs.length := by
  induction xs with
  | nil => intro i vs fl; rfl
  | cons p rest ih =>
    intro i vs fl
    simp only [walkFields]
    split
    · rw [ih]; simp
    · simp

theorem walkFields_getD_outside (visit : StructField → GoType → Nat → Val → FlagSet → Result)
    (xs : List (StructField × GoType)) :
    ∀ (i : Nat) (vs : List Val) (fl : FlagSet) (j : Nat) (d : Val),
      (j < i ∨ i + xs.length ≤ j) →
      (walkFields visit xs i vs fl).2.1.getD j d = vs.getD j d := by
  induction xs with
  | nil => intro i vs fl j d _; rfl
  | cons p rest ih =>
    intro i vs fl j d hj
    have hij : i ≠ j := by
      rcases hj with h | h
      · omega
      · simp only [List.length_cons] at h; omega
    simp only [walkFields]
    split
    · rw [ih]
      · simp [List.getD_eq_getElem?_getD, List.getElem?_set_ne hij]
      · rcases hj with h | h
        · left; omega
        · right; simp only [List.length_cons] at h; omega
    · simp [List.getD_eq_getElem?_getD, List.getElem?_set_ne hij]

theorem fieldsAsFlags_struct (W : Env) (S : TagsSettings) (n : Nat) (loc : Loc) (s : String)
    (m : List Method) (fs : List (StructField × GoType)) (v : Val) (pfx : String)
    (fl : FlagSet) :
    fieldsAsFlags W S (n + 1) loc (.struct s m fs) v pfx fl =
      ⟨(walkFields (visitField (fieldsAsFlags W S n) W S pfx loc) fs 0 v.fields fl).1,
       .struct (walkFields (visitField (fieldsAsFlags W S n) W S pfx loc) fs 0 v.fields fl).2.1,
       (walkFields (visitField (fieldsAsFlags W S n) W S pfx loc) fs 0 v.fields fl).2.2⟩ :=
  rfl

theorem walkFields_of_fieldsAsFlags {W : Env} {S : TagsSettings} {n : Nat} {loc : Loc}
    {s : String} {m : List Method} {fs : List (StructField × GoType)} {v : Val} {pfx : String}
    {fl : FlagSet} {o : Outcome} {v1 : Val} {fl1 : FlagSet}
    (h : fieldsAsFlags W S (n + 1) loc (.struct s m fs) v pfx fl = ⟨o, v1, fl1⟩) :
    walkFields (visitField (fieldsAsFlags W S n) W S pfx loc) fs 0 v.fields fl
      = (o, v1.fields, fl1) ∧ v1 = .struct v1.fields := by
  rw [fieldsAsFlags_struct] at h
  simp only [Result.mk.injEq] at h
  obtain ⟨h1, h2, h3⟩ := h
  subst h1 h2 h3
  exact ⟨rfl, rfl⟩

/-- The walk of a structure whose last field is `f`, when the fields before `f` are walked
without error, ends as the iteration on `f` ends. -/
theorem fieldsAsFlags_snoc {W : Env} {S : TagsSettings} {n : Nat} {loc : Loc} {s : String}
    {m : List Method} {pre : List (StructField × GoType)} {v : Val} {pfx : String}
    {fl0 : FlagSet} {v1 : Val} {fl1 : FlagSet} (f : StructField) (ft : GoType)
    (hpre : fieldsAsFlags W S (n + 1) loc (.struct s m pre) v pfx fl0 = ⟨.nil, v1, fl1⟩) :
    fieldsAsFlags W S (n + 1) loc (.struct s m (pre ++ [(f, ft)])) v pfx fl0 =
      ⟨(visitField (fieldsAsFlags W S n) W S pfx loc f ft pre.length
          (Val.Field v.fields ft pre.length) fl1).out,
       .struct (v1.fields.set pre.length
         (visitField (fieldsAsFlags W S n) W S pfx loc f ft pre.length
           (Val.Field v.fields ft pre.length) fl1).val),
       (visitField (fieldsAsFlags W S n) W S pfx loc f ft pre.length
          (Val.Field v.fields ft pre.length) fl1).flags⟩ := by
  obtain ⟨hw, _⟩ := walkFields_of_fieldsAsFlags hpre
  have hfield : Val.Field v1.fields ft pre.length = Val.Field v.fields ft pre.length := by
    have := walkFields_getD_outside (visitField (fieldsAsFlags W S n) W S pfx loc) pre 0
      v.fields fl0 pre.length (zero ft) (Or.inr (by omega))
    rw [hw] at this
    exact this
  rw [fieldsAsFlags_struct, walkFields_append_nil _ _ _ _ _ _ _ _ hw]
  simp only [Nat.zero_add, walkFields, hfield]
  cases hout : (visitField (fieldsAsFlags W S n) W S pfx loc f ft pre.length
      (Val.Field v.fields ft pre.length) fl1).out <;> simp [hout]

/-- Fields after a field at which the walk stops are not visited: appending them to the
structure changes nothing. -/
theorem fieldsAsFlags_abort {W : Env} {S : TagsSettings} {n : Nat} {loc : Loc} {s : String}
    {m : List Method} {xs : List (StructField × GoType)} {v : Val} {pfx : String}
    {fl0 : FlagSet} {o : Outcome} {v1 : Val} {fl1 : FlagSet} (ys : List (StructField × GoType))
    (h : fieldsAsFlags W S (n + 1) loc (.struct s m xs) v pfx fl0 = ⟨o, v1, fl1⟩)
    (ho : o ≠ .nil) :
    fieldsAsFlags W S (n + 1) loc (.struct s m (xs ++ ys)) v pfx fl0 = ⟨o, v1, fl1⟩ := by
  obtain ⟨hw, hv⟩ := walkFields_of_fieldsAsFlags h
  rw [fieldsAsFlags_struct, walkFields_append_abort _ _ _ _ _ _ _ _ _ hw ho]
  simp only
  rw [← hv]

/-! ## One iteration: general facts -/

theorem getPointerToField_write_self {f : StructField} {ft : GoType} {fv : Val}
    {p : PointerValue} {fv1 : Val} {e : ElemValue}
    (hget : getPointerToField f ft fv = .ok (p, fv1)) (he : p.elem = some e) :
    fv1.write e.rel e.val = fv1 := by
  unfold getPointerToField at hget
  split at hget
  · split at hget
    all_goals
      simp only [Except.ok.injEq, Prod.mk.injEq] at hget
      obtain ⟨hp, hv⟩ := hget
      subst hp hv
      simp only [Option.some.injEq] at he
      try subst he
      try simp [Val.write]
    all_goals simp at he
  · split at hget
    · split at hget
      · simp only [Except.ok.injEq, Prod.mk.injEq] at hget
        obtain ⟨hp, hv⟩ := hget
        subst hp hv
        simp only [Option.some.injEq] at he
        subst he
        simp [Val.write]
      · dsimp only at hget
        split at hget
        · simp at hget
        · simp only [Except.ok.injEq, Prod.mk.injEq] at hget
          obtain ⟨hp, hv⟩ := hget
          subst hp hv
          simp only [Option.some.injEq] at he
          subst he
          simp [Val.write]
    · simp only [Except.ok.injEq, Prod.mk.injEq] at hget
      obtain ⟨hp, hv⟩ := hget
      subst hp hv
      simp only [Option.some.injEq] at he
      subst he
      simp [Val.write]

/-- A field whose storage can be set and whose ignore tag is not "true" goes through the
body of the loop. -/
theorem visitField_visited {recur : Walk} {W : Env} {S : TagsSettings} {pfx : String}
    {loc : Loc} {f : StructField} {ft : GoType} {i : Nat} {fv : Val} {fl : FlagSet}
    {p : PointerValue} {fv1 : Val} {e : ElemValue}
    (hget : getPointerToField f ft fv = .ok (p, fv1)) (he : p.elem = some e)
    (hcs : p.elemCanSet = true) (hign : f.Get S.Ignored ≠ "true") :
    visitField recur W S pfx loc f ft i fv fl = registerField recur W S pfx loc f i p e fv1 fl := by
  simp [visitField, hget, he, hcs, hign]

/-- A field whose storage cannot be set, or whose ignore tag is "true", is skipped. -/
theorem visitField_skipped {recur : Walk} {W : Env} {S : TagsSettings} {pfx : String}
    {loc : Loc} {f : StructField} {ft : GoType} {i : Nat} {fv : Val} {fl : FlagSet}
    {p : PointerValue} {fv1 : Val}
    (hget : getPointerToField f ft fv = .ok (p, fv1))
    (hskip : p.elemCanSet = false ∨ f.Get S.Ignored = "true") :
    visitField recur W S pfx loc f ft i fv fl = ⟨.nil, fv1, fl⟩ := by
  simp only [visitField, hget]
  cases he : p.elem with
  | none => rfl
  | some e =>
    rcases hskip with h | h
    · simp [h]
    · simp [h]

/-- The result of the walk on `pre ++ [f]` for a visited field, through the body of the
loop. -/
theorem fieldsAsFlags_visited {W : Env} {S : TagsSettings} {n : Nat} {loc : Loc} {s : String}
    {m : List Method} {pre : List (StructField × GoType)} {v : Val} {pfx : String}
    {fl0 : FlagSet} {v1 : Val} {fl1 : FlagSet} {f : StructField} {ft : GoType}
    {p : PointerValue} {fv1 : Val} {e : ElemValue}
    (hpre : fieldsAsFlags W S (n + 1) loc (.struct s m pre) v pfx fl0 = ⟨.nil, v1, fl1⟩)
    (hget : getPointerToField f ft (Val.Field v.fields ft pre.length) = .ok (p, fv1))
    (he : p.elem = some e) (hcs : p.elemCanSet = true) (hign : f.Get S.Ignored ≠ "true") :
    fieldsAsFlags W S (n + 1) loc (.struct s m (pre ++ [(f, ft)])) v pfx fl0
      = ⟨(registerField (fieldsAsFlags W S n) W S pfx loc f pre.length p e fv1 fl1).out,
         .struct (v1.fields.set pre.length
           (registerField (fieldsAsFlags W S n) W S pfx loc f pre.length p e fv1 fl1).val),
         (registerField (fieldsAsFlags W S n) W S pfx loc f pre.length p e fv1 fl1).flags⟩ := by
  rw [fieldsAsFlags_snoc f ft hpre, visitField_visited hget he hcs hign]

/-- The call `flags.Var`: it panics with the message of `value.String()` and records
nothing, or records the flag. -/
theorem FlagSet.Var_cases (W : Env) (fl : FlagSet) (value : FlagValue) (pointee : Val)
    (name usage : String) :
    (∃ msg : String, value.toStr W pointee = .error msg ∧
      FlagSet.Var W fl value pointee name usage = (some msg, fl)) ∨
    (∃ data : String, value.toStr W pointee = .ok data ∧
      FlagSet.Var W fl value pointee name usage = (none, fl ++ [.Var value name usage])) := by
  unfold FlagSet.Var
  cases h : value.toStr W pointee with
  | error msg => exact Or.inl ⟨msg, rfl, rfl⟩
  | ok data => exact Or.inr ⟨data, rfl, rfl⟩

/-- The body of the loop on a field with a settable capability. -/
theorem registerField_settable {recur : Walk} {W : Env} {S : TagsSettings} {pfx : String}
    {loc : Loc} {f : StructField} {i : Nat} {p : PointerValue} {e : ElemValue} {fv : Val}
    {fl : FlagSet} {value : FlagValue}
    (hval : asValue ⟨p.typ, loc ++ .field i :: e.rel⟩ p.typ = some value) :
    registerField recur W S pfx loc f i p e fv fl =
      match (if defaultStringFlag f S ≠ "" then value.Set W e.val (defaultStringFlag f S)
             else (e.val, none)).2 with
      | some err =>
        ⟨.error (.IncorrectDefaultValue f.Name (some e.typ) (defaultStringFlag f S)
            (.external err)),
          fv.write e.rel (if defaultStringFlag f S ≠ "" then
            value.Set W e.val (defaultStringFlag f S) else (e.val, none)).1, fl⟩
      | none =>
        match FlagSet.Var W fl value
            (if defaultStringFlag f S ≠ "" then
              value.Set W e.val (defaultStringFlag f S) else (e.val, none)).1
            (flagNameOf W S pfx f) (usageOf e.typ (f.Get S.Description)) with
        | (some msg, fl1) =>
          ⟨.panic msg,
            fv.write e.rel (if defaultStringFlag f S ≠ "" then
              value.Set W e.val (defaultStringFlag f S) else (e.val, none)).1, fl1⟩
        | (none, fl1) =>
          ⟨.nil,
            fv.write e.rel (if defaultStringFlag f S ≠ "" then
              value.Set W e.val (defaultStringFlag f S) else (e.val, none)).1, fl1⟩ := by
  simp only [registerField, hval]

/-- The three ways the body of the loop ends on a field with a settable capability: `Set`
fails on the default, or `flags.Var` panics in `value.String()`, or the flag is recorded. -/
theorem registerField_settable_cases (recur : Walk) (W : Env) (S : TagsSettings)
    (pfx : String) (loc : Loc) (f : StructField) (i : Nat) (p : PointerValue) (e : ElemValue)
    (fv : Val) (fl : FlagSet) (value : FlagValue)
    (hval : asValue ⟨p.typ, loc ++ .field i :: e.rel⟩ p.typ = some value) :
    (∃ err : String,
      (if defaultStringFlag f S ≠ "" then value.Set W e.val (defaultStringFlag f S)
        else (e.val, none)).2 = some err ∧
      registerField recur W S pfx loc f i p e fv fl =
        ⟨.error (.IncorrectDefaultValue f.Name (some e.typ) (defaultStringFlag f S)
            (.external err)),
          fv.write e.rel (if defaultStringFlag f S ≠ "" then
            value.Set W e.val (defaultStringFlag f S) else (e.val, none)).1, fl⟩) ∨
    ((if defaultStringFlag f S ≠ "" then value.Set W e.val (defaultStringFlag f S)
        else (e.val, none)).2 = none ∧
      ∃ msg : String,
        value.toStr W (if defaultStringFlag f S ≠ "" then
          value.Set W e.val (defaultStringFlag f S) else (e.val, none)).1 = .error msg ∧
        registerField recur W S pfx loc f i p e fv fl =
          ⟨.panic msg,
            fv.write e.rel (if defaultStringFlag f S ≠ "" then
              value.Set W e.val (defaultStringFlag f S) else (e.val, none)).1, fl⟩) ∨
    ((if defaultStringFlag f S ≠ "" then value.Set W e.val (defaultStringFlag f S)
        else (e.val, none)).2 = none ∧
      ∃ data : String,
        value.toStr W (if defaultStringFlag f S ≠ "" then
          value.Set W e.val (defaultStringFlag f S) else (e.val, none)).1 = .ok data ∧
        registerField recur W S pfx loc f i p e fv fl =
          ⟨.nil,
            fv.write e.rel (if defaultStringFlag f S ≠ "" then
              value.Set W e.val (defaultStringFlag f S) else (e.val, none)).1,
            fl ++ [.Var value (flagNameOf W S pfx f)
              (usageOf e.typ (f.Get S.Description))]⟩) := by
  rw [registerField_settable hval]
  cases hr : (if defaultStringFlag f S ≠ "" then value.Set W e.val (defaultStringFlag f S)
      else (e.val, none)).2 with
  | some err => exact Or.inl ⟨err, rfl, rfl⟩
  | none =>
    right
    rcases FlagSet.Var_cases W fl value
      (if defaultStringFlag f S ≠ "" then value.Set W e.val (defaultStringFlag f S)
        else (e.val, none)).1 (flagNameOf W S pfx f) (usageOf e.typ (f.Get S.Description)) with
      ⟨msg, h1, h2⟩ | ⟨data, h1, h2⟩
    · exact Or.inl ⟨rfl, msg, h1, by simp only [h2]⟩
    · exact Or.inr ⟨rfl, data, h1, by simp only [h2]⟩

/-- The body of the loop on a structure without settable capability: the recursive call. -/
theorem registerField_struct {recur : Walk} {W : Env} {S : TagsSettings} {pfx : String}
    {loc : Loc} {f : StructField} {i : Nat} {p : PointerValue} {e : ElemValue} {fv : Val}
    {fl : FlagSet}
    (hval : asValue ⟨p.typ, loc ++ .field i :: e.rel⟩ p.typ = none)
    (hk : e.typ.kind = .struct) :
    registerField recur W S pfx loc f i p e fv fl =
      match (recur (loc ++ .field i :: e.rel) e.typ e.val
          (if f.Anonymous then pfx else flagNameOf W S pfx f) fl).out with
      | .error err =>
        ⟨.error (.inField f.Name e.typ err),
          fv.write e.rel (recur (loc ++ .field i :: e.rel) e.typ e.val
            (if f.Anonymous then pfx else flagNameOf W S pfx f) fl).val,
          (recur (loc ++ .field i :: e.rel) e.typ e.val
            (if f.Anonymous then pfx else flagNameOf W S pfx f) fl).flags⟩
      | o =>
        ⟨o,
          fv.write e.rel (recur (loc ++ .field i :: e.rel) e.typ e.val
            (if f.Anonymous then pfx else flagNameOf W S pfx f) fl).val,
          (recur (loc ++ .field i :: e.rel) e.typ e.val
            (if f.Anonymous then pfx else flagNameOf W S pfx f) fl).flags⟩ := by
  simp only [registerField, hval, hk, if_true]

/-- The body of the loop on a `time.Duration` without settable capability. -/
theorem registerField_duration {recur : Walk} {W : Env} {S : TagsSettings} {pfx : String}
    {loc : Loc} {f : StructField} {i : Nat} {p : PointerValue} {e : ElemValue} {fv : Val}
    {fl : FlagSet}
    (hval : asValue ⟨p.typ, loc ++ .field i :: e.rel⟩ p.typ = none)
    (hd : e.typ = timeDurationType) :
    registerField recur W S pfx loc f i p e fv fl =
      match defaultDuration W (defaultStringFlag f S) with
      | (_, some err) =>
        ⟨.error (.IncorrectDefaultValue f.Name (some e.typ) (defaultStringFlag f S)
          (.external err)), fv, fl⟩
      | (d, none) =>
        if p.typ = timeDurationType.PtrTo then
          ⟨.nil, fv.write e.rel (.int d),
            fl ++ [.DurationVar (loc ++ .field i :: e.rel) (flagNameOf W S pfx f) d
              (f.Get S.Description)]⟩
        else ⟨assertPanic ⟨p.typ, loc ++ .field i :: e.rel⟩ timeDurationType.PtrTo, fv, fl⟩ := by
  have hk : ¬ (timeDurationType.kind = Kind.struct) := by decide
  simp only [registerField, hval, hd, hk, if_false, if_true]

/-- The body of the loop on any other field: kind dispatch. -/
theorem registerField_byKind {recur : Walk} {W : Env} {S : TagsSettings} {pfx : String}
    {loc : Loc} {f : StructField} {i : Nat} {p : PointerValue} {e : ElemValue} {fv : Val}
    {fl : FlagSet}
    (hval : asValue ⟨p.typ, loc ++ .field i :: e.rel⟩ p.typ = none)
    (hk : e.typ.kind ≠ .struct) (hd : e.typ ≠ timeDurationType) :
    registerField recur W S pfx loc f i p e fv fl =
      match (byKind W e.typ fl ⟨p.typ, loc ++ .field i :: e.rel⟩ e.val (flagNameOf W S pfx f)
          (defaultStringFlag f S) (f.Get S.Description)).out with
      | .error err =>
        if errorsIs err unsupportedTypeErr then
          ⟨.error (.unsupportedField f.Name e.typ),
            fv.write e.rel (byKind W e.typ fl ⟨p.typ, loc ++ .field i :: e.rel⟩ e.val
              (flagNameOf W S pfx f) (defaultStringFlag f S) (f.Get S.Description)).val,
            (byKind W e.typ fl ⟨p.typ, loc ++ .field i :: e.rel⟩ e.val
              (flagNameOf W S pfx f) (defaultStringFlag f S) (f.Get S.Description)).flags⟩
        else
          match errorsAsIncorrectDefaultValue err with
          | some (.IncorrectDefaultValue _ _ _ reason) =>
            ⟨.error (.IncorrectDefaultValue f.Name (some e.typ) (defaultStringFlag f S) reason),
              fv.write e.rel (byKind W e.typ fl ⟨p.typ, loc ++ .field i :: e.rel⟩ e.val
                (flagNameOf W S pfx f) (defaultStringFlag f S) (f.Get S.Description)).val,
              (byKind W e.typ fl ⟨p.typ, loc ++ .field i :: e.rel⟩ e.val
                (flagNameOf W S pfx f) (defaultStringFlag f S) (f.Get S.Description)).flags⟩
          | _ =>
            ⟨.error err,
              fv.write e.rel (byKind W e.typ fl ⟨p.typ, loc ++ .field i :: e.rel⟩ e.val
                (flagNameOf W S pfx f) (defaultStringFlag f S) (f.Get S.Description)).val,
              (byKind W e.typ fl ⟨p.typ, loc ++ .field i :: e.rel⟩ e.val
                (flagNameOf W S pfx f) (defaultStringFlag f S) (f.Get S.Description)).flags⟩
      | o =>
        ⟨o,
          fv.write e.rel (byKind W e.typ fl ⟨p.typ, loc ++ .field i :: e.rel⟩ e.val
            (flagNameOf W S pfx f) (defaultStringFlag f S) (f.Get S.Description)).val,
          (byKind W e.typ fl ⟨p.typ, loc ++ .field i :: e.rel⟩ e.val
            (flagNameOf W S pfx f) (defaultStringFlag f S) (f.Get S.Description)).flags⟩ := by
  simp only [registerField, hval, hk, hd, if_false]

/-- Kind dispatch when the default parser of the kind fails. -/
theorem byKind_parser_error {W : Env} {ft : GoType} {fl : FlagSet} {ptr : Pointer} {val : Val}
    {flagName d desc msg : String} (h : kindParserError W ft.kind d = some msg) :
    byKind W ft fl ptr val flagName d desc
      = ⟨.error (.IncorrectDefaultValue "" none "" (.external msg)), val, fl⟩ := by
  unfold byKind
  cases hk : ft.kind <;> simp only [hk, kindParserError] at h ⊢ <;>
    first
    | (exact absurd h (by simp))
    | (split
       · rename_i x err heq
         rw [heq] at h
         simp only [Option.some.injEq] at h
         subst h
         rfl
       · rename_i x heq
         rw [heq] at h
         simp at h)

/-- Kind dispatch on a kind outside the seven of the `switch`. -/
theorem byKind_unsupported {W : Env} {ft : GoType} {fl : FlagSet} {ptr : Pointer} {val : Val}
    {flagName d desc : String} (h : supportedKind ft.kind = false) :
    byKind W ft fl ptr val flagName d desc = ⟨.error unsupportedTypeErr, val, fl⟩ := by
  unfold byKind
  cases hk : ft.kind <;> simp only [hk, supportedKind] at h ⊢ <;> exact absurd h (by simp)

/-- The value built by `asValue` is bound to the pointer it is given. -/
theorem asValue_pointer {ptr : Pointer} {t : GoType} {value : FlagValue}
    (h : asValue ptr t = some value) : value.pointer = ptr := by
  unfold asValue at h
  split at h
  · simp only [Option.some.injEq] at h; subst h; rfl
  · split at h
    · simp only [Option.some.injEq] at h; subst h; rfl
    · split at h
      · simp only [Option.some.injEq] at h; subst h; rfl
      · simp at h

/-- Kind dispatch on one of the seven kinds of the `switch` does not return
`unsupportedTypeErr`. -/
theorem byKind_supported {W : Env} {ft : GoType} {fl : FlagSet} {ptr : Pointer} {val : Val}
    {flagName d desc : String} (h : supportedKind ft.kind = true) :
    (byKind W ft fl ptr val flagName d desc).out ≠ .error unsupportedTypeErr := by
  unfold byKind
  cases hk : ft.kind <;> simp only [hk, supportedKind] at h ⊢ <;>
    first
    | (split
       · simp [unsupportedTypeErr]
       · split <;> simp [assertPanic])
    | (split <;> simp [assertPanic, unsupportedTypeErr])
    | (simp at h)

theorem defaultStringFlag_eq (f : StructField) (S : TagsSettings) :
    defaultStringFlag f S = f.Get S.Default := by
  unfold defaultStringFlag
  by_cases h : f.Get S.Default = ""
  · simp [h]
  · simp [h]

/-- Kind dispatch on a field of a predeclared type: with an empty default string the zero
value, with a valid literal its parsed value, is registered and stored. -/
theorem byKind_builtin {W : Env} {ft : GoType} (hft : ft ∈ builtinTypes) (fl : FlagSet)
    (l : Loc) (val : Val) (flagName d desc : String)
    (hd : d = "" ∨ literalError W ft.kind d = none) :
    ∃ flag : Flag,
      byKind W ft fl ⟨ft.PtrTo, l⟩ val flagName d desc
        = ⟨.nil, if d = "" then zero ft else parsedLiteral W ft.kind d, fl ++ [flag]⟩ ∧
      flag.value = some (if d = "" then zero ft else parsedLiteral W ft.kind d) ∧
      flag.name = flagName ∧ flag.loc = l ∧ flag.usage = desc := by
  simp only [builtinTypes, List.mem_cons, List.mem_singleton, List.not_mem_nil, or_false] at hft
  rcases hft with h | h | h | h | h | h | h <;> subst h
  · by_cases h0 : d = ""
    · subst h0
      exact ⟨.StringVar l flagName "" desc, by simp [byKind, GoType.builtin, GoType.kind,
        BasicKind.toKind, zero], rfl, rfl, rfl, rfl⟩
    · exact ⟨.StringVar l flagName d desc, by simp [byKind, GoType.builtin, GoType.kind,
        BasicKind.toKind, h0, parsedLiteral], by simp [Flag.value, h0, parsedLiteral,
        GoType.builtin, GoType.kind, BasicKind.toKind], rfl, rfl, rfl⟩
  · by_cases h0 : d = ""
    · subst h0
      exact ⟨.BoolVar l flagName false desc, by simp [byKind, GoType.builtin, GoType.kind,
        BasicKind.toKind, zero, defaultBool], rfl, rfl, rfl, rfl⟩
    · have hp : (W.ParseBool d).2 = none := by
        rcases hd with h | h
        · exact absurd h h0
        · exact h
      refine ⟨.BoolVar l flagName (W.ParseBool d).1 desc, ?_, by simp [Flag.value, h0,
        parsedLiteral, GoType.builtin, GoType.kind, BasicKind.toKind], rfl, rfl, rfl⟩
      simp only [byKind, GoType.builtin, GoType.kind, BasicKind.toKind, defaultBool, h0,
        if_false, parsedLiteral]
      split
      · rename_i x err heq
        rw [heq] at hp
        simp at hp
      · rename_i x heq
        have : x = (W.ParseBool d).1 := by rw [heq]
        subst this
        simp
  · by_cases h0 : d = ""
    · subst h0
      exact ⟨.IntVar l flagName 0 desc, by simp [byKind, GoType.builtin, GoType.kind,
        BasicKind.toKind, zero, defaultInt], rfl, rfl, rfl, rfl⟩
    · have hp : (W.ParseInt d 0 0).2 = none := by
        rcases hd with h | h
        · exact absurd h h0
        · exact h
      refine ⟨.IntVar l flagName (toInt W.intSize (W.ParseInt d 0 0).1) desc, ?_,
        by simp [Flag.value, h0, parsedLiteral, GoType.builtin, GoType.kind,
          BasicKind.toKind], rfl, rfl, rfl⟩
      simp [byKind, GoType.builtin, GoType.kind, BasicKind.toKind, defaultInt, h0,
        parsedLiteral, hp]
  · by_cases h0 : d = ""
    · subst h0
      exact ⟨.Int64Var l flagName 0 desc, by simp [byKind, GoType.builtin, GoType.kind,
        BasicKind.toKind, zero, defaultInt64], rfl, rfl, rfl, rfl⟩
    · have hp : (W.ParseInt d 0 64).2 = none := by
        rcases hd with h | h
        · exact absurd h h0
        · exact h
      refine ⟨.Int64Var l flagName (W.ParseInt d 0 64).1 desc, ?_,
        by simp [Flag.value, h0, parsedLiteral, GoType.builtin, GoType.kind,
          BasicKind.toKind], rfl, rfl, rfl⟩
      simp [byKind, GoType.builtin, GoType.kind, BasicKind.toKind, defaultInt64, h0,
        parsedLiteral, hp]
  · by_cases h0 : d = ""
    · subst h0
      exact ⟨.UintVar l flagName 0 desc, by simp [byKind, GoType.builtin, GoType.kind,
        BasicKind.toKind, zero, defaultUint], rfl, rfl, rfl, rfl⟩
    · have hp : (W.ParseUint d 0 0).2 = none := by
        rcases hd with h | h
        · exact absurd h h0
        · exact h
      refine ⟨.UintVar l flagName (toUint W.intSize (W.ParseUint d 0 0).1) desc, ?_,
        by simp [Flag.value, h0, parsedLiteral, GoType.builtin, GoType.kind,
          BasicKind.toKind], rfl, rfl, rfl⟩
      simp [byKind, GoType.builtin, GoType.kind, BasicKind.toKind, defaultUint, h0,
        parsedLiteral, hp]
  · by_cases h0 : d = ""
    · subst h0
      exact ⟨.Uint64Var l flagName 0 desc, by simp [byKind, GoType.builtin, GoType.kind,
        BasicKind.toKind, zero, defaultUint64], rfl, rfl, rfl, rfl⟩
    · have hp : (W.ParseUint d 0 64).2 = none := by
        rcases hd with h | h
        · exact absurd h h0
        · exact h
      refine ⟨.Uint64Var l flagName (W.ParseUint d 0 64).1 desc, ?_,
        by simp [Flag.value, h0, parsedLiteral, GoType.builtin, GoType.kind,
          BasicKind.toKind], rfl, rfl, rfl⟩
      simp [byKind, GoType.builtin, GoType.kind, BasicKind.toKind, defaultUint64, h0,
        parsedLiteral, hp]
  · by_cases h0 : d = ""
    · subst h0
      exact ⟨.Float64Var l flagName 0 desc, by simp [byKind, GoType.builtin, GoType.kind,
        BasicKind.toKind, zero, defaultFloat64], rfl, rfl, rfl, rfl⟩
    · have hp : (W.ParseFloat d 64).2 = none := by
        rcases hd with h | h
        · exact absurd h h0
        · exact h
      refine ⟨.Float64Var l flagName (W.ParseFloat d 64).1 desc, ?_,
        by simp [Flag.value, h0, parsedLiteral, GoType.builtin, GoType.kind,
          BasicKind.toKind], rfl, rfl, rfl⟩
      simp only [byKind, GoType.builtin, GoType.kind, BasicKind.toKind, defaultFloat64, h0,
        if_false, parsedLiteral]
      split
      · rename_i x err heq
        rw [heq] at hp
        simp at hp
      · rename_i x heq
        have : x = (W.ParseFloat d 64).1 := by rw [heq]
        subst this
        simp

theorem getPointerToField_builtin {f : StructField} {ft : GoType} (hft : ft ∈ builtinTypes)
    (hexp : f.PkgPath = "") (fv : Val) :
    getPointerToField f ft fv = .ok (⟨ft.PtrTo, false, some ⟨ft, fv, [], true⟩⟩, fv) := by
  simp only [builtinTypes, List.mem_cons, List.mem_singleton, List.not_mem_nil, or_false] at hft
  rcases hft with h | h | h | h | h | h | h <;> subst h <;>
    simp [getPointerToField, GoType.builtin, GoType.kind, BasicKind.toKind, hexp]

theorem asValue_builtin {ft : GoType} (hft : ft ∈ builtinTypes) (ptr : Pointer) :
    asValue ptr ft.PtrTo = none ∧ ft.kind ≠ .struct ∧ ft ≠ timeDurationType := by
  simp only [builtinTypes, List.mem_cons, List.mem_singleton, List.not_mem_nil, or_false] at hft
  rcases hft with h | h | h | h | h | h | h <;> subst h <;>
    refine ⟨?_, by decide, by decide⟩ <;>
    simp only [asValue] <;> rfl

/-- Kind dispatch either registers one flag under the given name, bound to the given
pointer, or registers nothing, leaves the content as it is and does not return nil. -/
theorem byKind_cases (W : Env) (ft : GoType) (fl : FlagSet) (ptr : Pointer) (val : Val)
    (flagName d desc : String) :
    (∃ (flag : Flag) (dv : Val),
      byKind W ft fl ptr val flagName d desc = ⟨.nil, dv, fl ++ [flag]⟩ ∧
      flag.name = flagName ∧ flag.loc = ptr.loc ∧ flag.usage = desc ∧
      flag.value = some dv) ∨
    ((byKind W ft fl ptr val flagName d desc).out ≠ .nil ∧
      (byKind W ft fl ptr val flagName d desc).flags = fl ∧
      (byKind W ft fl ptr val flagName d desc).val = val) := by
  unfold byKind
  cases hk : ft.kind <;> simp only <;>
    first
    | (right; simp [unsupportedTypeErr]; done)
    | (split
       · right; simp; done
       · split
         · left; exact ⟨_, _, rfl, rfl, rfl, rfl, rfl⟩
         · right; simp [assertPanic])
    | (split
       · left; exact ⟨_, _, rfl, rfl, rfl, rfl, rfl⟩
       · right; simp [assertPanic])

/-- The body of the loop on a field that is not walked as a structure: it either registers
exactly one flag, under the composed name, and returns nil, or registers nothing and does
not return nil. -/
theorem registerField_leaf (recur : Walk) (W : Env) (S : TagsSettings) (pfx : String)
    (loc : Loc) (f : StructField) (i : Nat) (p : PointerValue) (e : ElemValue) (fv : Val)
    (fl : FlagSet)
    (hleaf : asValue ⟨p.typ, loc ++ .field i :: e.rel⟩ p.typ ≠ none ∨ e.typ.kind ≠ .struct) :
    ((registerField recur W S pfx loc f i p e fv fl).out = .nil ∧
      ∃ flag : Flag, (registerField recur W S pfx loc f i p e fv fl).flags = fl ++ [flag] ∧
        flag.name = flagNameOf W S pfx f ∧ flag.loc = loc ++ .field i :: e.rel) ∨
    ((registerField recur W S pfx loc f i p e fv fl).out ≠ .nil ∧
      (registerField recur W S pfx loc f i p e fv fl).flags = fl) := by
  cases hval : asValue ⟨p.typ, loc ++ .field i :: e.rel⟩ p.typ with
  | some value =>
    rcases registerField_settable_cases recur W S pfx loc f i p e fv fl value hval with
      ⟨err, _, h⟩ | ⟨_, msg, _, h⟩ | ⟨_, data, _, h⟩
    · rw [h]; right; exact ⟨by simp, rfl⟩
    · rw [h]; right; exact ⟨by simp, rfl⟩
    · rw [h]; left; exact ⟨rfl, _, rfl, rfl, by simp [Flag.loc, asValue_pointer hval]⟩
  | none =>
    have hk : e.typ.kind ≠ .struct := by
      rcases hleaf with h | h
      · exact absurd hval h
      · exact h
    by_cases hd : e.typ = timeDurationType
    · rw [registerField_duration hval hd]
      split
      · right; exact ⟨by simp, rfl⟩
      · split
        · left; exact ⟨rfl, _, rfl, rfl, rfl⟩
        · right; exact ⟨by simp [assertPanic], rfl⟩
    · rw [registerField_byKind hval hk hd]
      rcases byKind_cases W e.typ fl ⟨p.typ, loc ++ .field i :: e.rel⟩ e.val
        (flagNameOf W S pfx f) (defaultStringFlag f S) (f.Get S.Description) with
        ⟨flag, dv, hb, h1, h2, _, _⟩ | ⟨h1, h2, _⟩
      · rw [hb]
        left
        exact ⟨rfl, flag, rfl, h1, h2⟩
      · right
        cases ho : (byKind W e.typ fl ⟨p.typ, loc ++ .field i :: e.rel⟩ e.val
          (flagNameOf W S pfx f) (defaultStringFlag f S) (f.Get S.Description)).out with
        | nil => exact absurd ho h1
        | error err =>
          simp only
          split
          · exact ⟨by simp, h2⟩
          · split
            · exact ⟨by simp, h2⟩
            · exact ⟨by simp, h2⟩
        | panic msg => exact ⟨by simp, h2⟩
        | outOfFuel => exact ⟨by simp, h2⟩

/-! ## Registrations are only appended -/

theorem registerField_flags_mono {recur : Walk}
    (hrec : ∀ (loc : Loc) (t : GoType) (v : Val) (pfx : String) (fl : FlagSet),
      fl <+: (recur loc t v pfx fl).flags)
    (W : Env) (S : TagsSettings) (pfx : String) (loc : Loc) (f : StructField) (i : Nat)
    (p : PointerValue) (e : ElemValue) (fv : Val) (fl : FlagSet) :
    fl <+: (registerField recur W S pfx loc f i p e fv fl).flags := by
  by_cases hleaf : asValue ⟨p.typ, loc ++ .field i :: e.rel⟩ p.typ ≠ none ∨ e.typ.kind ≠ .struct
  · rcases registerField_leaf recur W S pfx loc f i p e fv fl hleaf with
      ⟨_, flag, h, _⟩ | ⟨_, h⟩
    · rw [h]; exact List.prefix_append _ _
    · rw [h]
  · simp only [ne_eq, not_or, not_not] at hleaf
    obtain ⟨hval, hk⟩ := hleaf
    rw [registerField_struct hval hk]
    split <;> exact hrec _ _ _ _ _

theorem visitField_flags_mono {recur : Walk}
    (hrec : ∀ (loc : Loc) (t : GoType) (v : Val) (pfx : String) (fl : FlagSet),
      fl <+: (recur loc t v pfx fl).flags)
    (W : Env) (S : TagsSettings) (pfx : String) (loc : Loc) (f : StructField) (ft : GoType)
    (i : Nat) (fv : Val) (fl : FlagSet) :
    fl <+: (visitField recur W S pfx loc f ft i fv fl).flags := by
  unfold visitField
  split
  · exact List.prefix_refl _
  · split
    · exact List.prefix_refl _
    · split
      · exact List.prefix_refl _
      · exact registerField_flags_mono hrec _ _ _ _ _ _ _ _ _ _

theorem walkFields_flags_mono {visit : StructField → GoType → Nat → Val → FlagSet → Result}
    (hv : ∀ (f : StructField) (ft : GoType) (i : Nat) (fv : Val) (fl : FlagSet),
      fl <+: (visit f ft i fv fl).flags)
    (fs : List (StructField × GoType)) :
    ∀ (i : Nat) (vs : List Val) (fl : FlagSet), fl <+: (walkFields visit fs i vs fl).2.2 := by
  induction fs with
  | nil => intro i vs fl; exact List.prefix_refl _
  | cons q rest ih =>
    intro i vs fl
    simp only [walkFields]
    cases hout : (visit q.1 q.2 i (Val.Field vs q.2 i) fl).out <;> simp only [hout]
    · exact (hv _ _ _ _ _).trans (ih _ _ _)
    all_goals exact hv _ _ _ _ _

/-- The walk never removes a registration: the flag set it is given is an initial segment
of the flag set it leaves. -/
theorem fieldsAsFlags_flags_mono (W : Env) (S : TagsSettings) :
    ∀ (n : Nat) (loc : Loc) (t : GoType) (v : Val) (pfx : String) (fl : FlagSet),
      fl <+: (fieldsAsFlags W S n loc t v pfx fl).flags := by
  intro n
  induction n with
  | zero => intro loc t v pfx fl; exact List.prefix_refl _
  | succ n ih =>
    intro loc t v pfx fl
    cases t with
    | struct s m fs =>
      rw [fieldsAsFlags_struct]
      exact walkFields_flags_mono (fun f ft i fv fl => visitField_flags_mono ih _ _ _ _ _ _ _ _ _)
        fs 0 v.fields fl
    | basic s k m => exact List.prefix_refl _
    | ptr nm e => exact List.prefix_refl _

/-- Walking further fields keeps the registrations made so far and the contents of the
fields already walked. -/
theorem fieldsAsFlags_extend {W : Env} {S : TagsSettings} {n : Nat} {loc : Loc} {s : String}
    {m : List Method} {xs : List (StructField × GoType)} {v : Val} {pfx : String}
    {fl0 : FlagSet} {v2 : Val} {fl2 : FlagSet} (ys : List (StructField × GoType))
    (h : fieldsAsFlags W S (n + 1) loc (.struct s m xs) v pfx fl0 = ⟨.nil, v2, fl2⟩) :
    fl2 <+: (fieldsAsFlags W S (n + 1) loc (.struct s m (xs ++ ys)) v pfx fl0).flags ∧
    (fieldsAsFlags W S (n + 1) loc (.struct s m (xs ++ ys)) v pfx fl0).val.fields.length
      = v2.fields.length ∧
    ∀ (j : Nat) (d : Val), j < xs.length →
      (fieldsAsFlags W S (n + 1) loc (.struct s m (xs ++ ys)) v pfx fl0).val.fields.getD j d
        = v2.fields.getD j d := by
  obtain ⟨hw, _⟩ := walkFields_of_fieldsAsFlags h
  rw [fieldsAsFlags_struct, walkFields_append_nil _ _ _ _ _ _ _ _ hw]
  refine ⟨?_, ?_, ?_⟩
  · exact walkFields_flags_mono
      (fun f ft i fv fl => visitField_flags_mono (fieldsAsFlags_flags_mono W S n) _ _ _ _ _ _ _ _ _)
      ys _ _ _
  · simp only [Val.fields]
    exact walkFields_length _ _ _ _ _
  · intro j d hj
    simp only [Val.fields]
    exact walkFields_getD_outside _ ys _ _ _ j d (Or.inl (by omega))

/-- The walk of `pre ++ f :: post` when the walk of `pre ++ [f]` does not return nil. -/
theorem fieldsAsFlags_abort_at {W : Env} {S : TagsSettings} {n : Nat} {loc : Loc} {s : String}
    {m : List Method} {pre : List (StructField × GoType)} {q : StructField × GoType}
    {v : Val} {pfx : String} {fl0 : FlagSet} (post : List (StructField × GoType))
    (ho : (fieldsAsFlags W S (n + 1) loc (.struct s m (pre ++ [q])) v pfx fl0).out ≠ .nil) :
    fieldsAsFlags W S (n + 1) loc (.struct s m (pre ++ q :: post)) v pfx fl0
      = fieldsAsFlags W S (n + 1) loc (.struct s m (pre ++ [q])) v pfx fl0 := by
  have h : fieldsAsFlags W S (n + 1) loc (.struct s m (pre ++ [q])) v pfx fl0
      = ⟨(fieldsAsFlags W S (n + 1) loc (.struct s m (pre ++ [q])) v pfx fl0).out,
         (fieldsAsFlags W S (n + 1) loc (.struct s m (pre ++ [q])) v pfx fl0).val,
         (fieldsAsFlags W S (n + 1) loc (.struct s m (pre ++ [q])) v pfx fl0).flags⟩ := rfl
  have h2 := fieldsAsFlags_abort post h ho
  rw [List.append_assoc, List.singleton_append] at h2
  rw [h2]

theorem Val.fields_struct (vs : List Val) : (Val.struct vs).fields = vs := rfl

theorem Val.read_field {vs : List Val} {i : Nat} {x : Val} (hlen : i < vs.length)
    (hx : vs.getD i default = x) : (Val.struct vs).read [.field i] = some x := by
  rw [List.getD_eq_getElem?_getD, List.getElem?_eq_getElem hlen] at hx
  simp only [Option.getD_some] at hx
  simp only [Val.read, List.get?_eq_getElem?, List.getElem?_eq_getElem hlen, hx]
  rfl

theorem fieldsAsFlags_val_struct (W : Env) (S : TagsSettings) (n : Nat) (loc : Loc)
    (s : String) (m : List Method) (fs : List (StructField × GoType)) (v : Val) (pfx : String)
    (fl : FlagSet) :
    (fieldsAsFlags W S (n + 1) loc (.struct s m fs) v pfx fl).val
      = .struct (fieldsAsFlags W S (n + 1) loc (.struct s m fs) v pfx fl).val.fields := by
  rw [fieldsAsFlags_struct]
  rfl

/-! ## Fields that are not exported -/

/-- A field that is not exported and is not a nil pointer is skipped: the iteration changes
neither the field nor the flag set and the loop goes on. -/
theorem unexported_field_skipped (recur : Walk) (W : Env) (S : TagsSettings) (pfx : String)
    (loc : Loc) (f : StructField) (ft : GoType) (i : Nat) (fv : Val) (fl : FlagSet)
    (hexp : f.PkgPath ≠ "")
    (hptr : ∀ (nm : Option String) (et : GoType), ft = .ptr nm et → ∃ pv, fv = .ptr (some pv)) :
    visitField recur W S pfx loc f ft i fv fl = ⟨.nil, fv, fl⟩ := by
  have key : ∃ p, getPointerToField f ft fv = .ok (p, fv) ∧ p.flagRO = true := by
    unfold getPointerToField
    simp only [hexp, ne_eq, not_false_eq_true, decide_True]
    split
    · split <;> exact ⟨_, rfl, rfl⟩
    · split
      · rename_i x1 x2 x3 x4 nm et x5
        obtain ⟨pv, hpv⟩ := hptr nm et rfl
        subst hpv
        exact ⟨_, rfl, rfl⟩
      · exact ⟨_, rfl, rfl⟩
  obtain ⟨p, hget, hro⟩ := key
  apply visitField_skipped hget
  left
  unfold PointerValue.elemCanSet
  cases p.elem <;> simp [hro]

/-! ## The tests of `flags_test.go` on the embedding (registration part) -/

/-- Test `TestFieldsAsFlags_Defaults`: both flags carry their defaults, which the fields
hold. -/
theorem test_defaults :
    MakeFlags Sample.env 1
        (.struct "Config" []
          [(⟨"Width", "", [("default", "25")], false⟩, Sample.intT),
           (⟨"Height", "", [("default", "21")], false⟩, Sample.intT)])
        (.struct [.int 0, .int 0])
      = ⟨.nil, .struct [.int 25, .int 21],
          [.IntVar [.field 0] "width" 25 "", .IntVar [.field 1] "height" 21 ""]⟩ := by
  rfl

/-- Test `TestTextMarshallerSupported`: a `time.Time` field gets the flag `time`. -/
theorem test_text_marshaller :
    MakeFlags Sample.env 1
        (.struct "Config" [] [(⟨"Time", "", [], false⟩, Sample.timeT)])
        (.struct [.struct [.str ""]])
      = ⟨.nil, .struct [.struct [.str ""]],
          [.Var (.textWrapper ⟨Sample.timeT.PtrTo, [.field 0]⟩) "time" "`time.Time` "]⟩ := by
  rfl

/-- Test `TestBinaryMarshallerSupported`: the nil `*url.URL` is allocated and gets the flag
`url`. -/
theorem test_binary_marshaller :
    MakeFlags Sample.env 1
        (.struct "Config" [] [(⟨"URL", "", [], false⟩, Sample.urlT.PtrTo)])
        (.struct [.ptr none])
      = ⟨.nil, .struct [.ptr (some (.struct [.str ""]))],
          [.Var (.binaryWrapper ⟨Sample.urlT.PtrTo, [.field 0, .deref]⟩) "url"
            "`url.URL` "]⟩ := by
  rfl

/-- Test `TestNameOverriding`: the flag is named by the tag `name`. -/
theorem test_name_overriding :
    MakeFlags Sample.env 1
        (.struct "Config" [] [(⟨"Name", "", [("name", "alter")], false⟩, Sample.stringT)])
        (.struct [.str ""])
      = ⟨.nil, .struct [.str ""], [.StringVar [.field 0] "alter" "" ""]⟩ := by
  rfl

/-- Test `TestIgnoreField`: no panic, no error, no flag. -/
theorem test_ignore_field :
    MakeFlags Sample.env 1
        (.struct "Config" []
          [(⟨"Tag", "", [("ignored", "true")], false⟩, Sample.stringT),
           (⟨"private", "flagconfig", [], false⟩, Sample.stringT)])
        (.struct [.str "", .str ""])
      = ⟨.nil, .struct [.str "", .str ""], []⟩ := by
  rfl

/-- Test `TestLateBinding`, case `struct`: the flag is `sub.field`, bound to the pointee of
the interface value. -/
theorem test_late_binding_struct :
    MakeFlags Sample.env 2
        (.struct "Config" [] [(⟨"Sub", "", [], false⟩, Sample.anyT)])
        (.struct [.iface (some (Sample.subConfigT.PtrTo, .ptr (some (.struct [.int 0]))))])
      = ⟨.nil,
          .struct [.iface (some (Sample.subConfigT.PtrTo, .ptr (some (.struct [.int 0]))))],
          [.IntVar [.field 0, .dyn, .deref, .field 0] "sub.field" 0 ""]⟩ := by
  rfl

/-- Test `TestLateBinding`, case `int`: the flag is `sub`, bound to the pointee. -/
theorem test_late_binding_int :
    MakeFlags Sample.env 1
        (.struct "Config" [] [(⟨"Sub", "", [], false⟩, Sample.anyT)])
        (.struct [.iface (some (Sample.intT.PtrTo, .ptr (some (.int 5))))])
      = ⟨.nil, .struct [.iface (some (Sample.intT.PtrTo, .ptr (some (.int 0))))],
          [.IntVar [.field 0, .dyn, .deref] "sub" 0 ""]⟩ := by
  rfl

/-! ## Interface fields -/

/-- A pointer to an interface type has none of the three capabilities. -/
theorem asValue_ptr_interface (ptr : Pointer) (str : String) (ms : List Method) :
    asValue ptr (GoType.basic str .interface ms).PtrTo = none := by
  simp [asValue, GoType.Implements, GoType.PtrTo, GoType.methodSet, flagsValueInterfaceType,
    encodingTextInterfaceType, encodingBinaryInterfaceType]

/-! ## The usage text -/

theorem usageOf_mem (t : GoType) (desc : String) (h : Char.ofNat 96 ∈ desc.toList) :
    usageOf t desc = desc := by
  have h2 : desc.toList.contains (Char.ofNat 96) = true := List.elem_eq_true_of_mem h
  unfold usageOf
  rw [h2]
  rfl

theorem usageOf_not_mem (t : GoType) (desc : String) (h : Char.ofNat 96 ∉ desc.toList) :
    usageOf t desc = "`" ++ t.toStr ++ "` " ++ desc := by
  have h2 : desc.toList.contains (Char.ofNat 96) = false := by
    rw [← Bool.not_eq_true]
    intro h3
    exact h (List.mem_of_elem_eq_true h3)
  unfold usageOf
  rw [h2]
  rfl

/-! ## Leaves of a predeclared type, through any pointer -/

/-- The walk on `pre ++ [f]` when the storage of the visited field `f` has a predeclared
type and is reached through an unnamed pointer to it: the default is registered and stored
in the storage. -/
theorem fieldsAsFlags_builtin_at {W : Env} {S : TagsSettings} {n : Nat} {loc : Loc}
    {s : String} {m : List Method} {pre : List (StructField × GoType)} {v : Val}
    {pfx : String} {fl0 : FlagSet} {v1 : Val} {fl1 : FlagSet} {f : StructField} {ft : GoType}
    {p : PointerValue} {fv1 : Val} {e : ElemValue}
    (hpre : fieldsAsFlags W S (n + 1) loc (.struct s m pre) v pfx fl0 = ⟨.nil, v1, fl1⟩)
    (hget : getPointerToField f ft (Val.Field v.fields ft pre.length) = .ok (p, fv1))
    (he : p.elem = some e) (hcs : p.elemCanSet = true) (hign : f.Get S.Ignored ≠ "true")
    (hpt : p.typ = e.typ.PtrTo) (hft : e.typ ∈ builtinTypes)
    (hok : defaultStringFlag f S = "" ∨
      literalError W e.typ.kind (defaultStringFlag f S) = none) :
    ∃ flag : Flag,
      fieldsAsFlags W S (n + 1) loc (.struct s m (pre ++ [(f, ft)])) v pfx fl0
        = ⟨.nil,
            .struct (v1.fields.set pre.length (fv1.write e.rel
              (if defaultStringFlag f S = "" then zero e.typ
               else parsedLiteral W e.typ.kind (defaultStringFlag f S)))),
            fl1 ++ [flag]⟩ ∧
      flag.value = some (if defaultStringFlag f S = "" then zero e.typ
        else parsedLiteral W e.typ.kind (defaultStringFlag f S)) ∧
      flag.name = flagNameOf W S pfx f ∧ flag.loc = loc ++ .field pre.length :: e.rel := by
  obtain ⟨hval, hk, hdur⟩ := asValue_builtin hft ⟨p.typ, loc ++ .field pre.length :: e.rel⟩
  rw [← hpt] at hval
  have hR := fieldsAsFlags_visited hpre hget he hcs hign
  rw [registerField_byKind hval hk hdur] at hR
  obtain ⟨flag, hb, h1, h2, h3, _⟩ := byKind_builtin hft fl1
    (loc ++ .field pre.length :: e.rel) e.val (flagNameOf W S pfx f) (defaultStringFlag f S)
    (f.Get S.Description) hok
  rw [← hpt] at hb
  rw [hb] at hR
  exact ⟨flag, hR, h1, h2, h3⟩

/-- The content of a field after `getPointerToField`: unchanged, except that a nil pointer
has become a pointer to a zero value. -/
theorem getPointerToField_content {f : StructField} {ft : GoType} {fv : Val}
    {p : PointerValue} {fv1 : Val} (hget : getPointerToField f ft fv = .ok (p, fv1)) :
    fv1 = fv ∨
    (∃ (nm : Option String) (et : GoType), ft = .ptr nm et ∧ (∀ pv, fv ≠ .ptr (some pv)) ∧
      fv1 = .ptr (some (zero et))) := by
  unfold getPointerToField at hget
  split at hget
  · split at hget
    all_goals
      simp only [Except.ok.injEq, Prod.mk.injEq] at hget
      exact Or.inl hget.2.symm
  · split at hget
    · split at hget
      · simp only [Except.ok.injEq, Prod.mk.injEq] at hget
        exact Or.inl hget.2.symm
      · dsimp only at hget
        split at hget
        · simp at hget
        · simp only [Except.ok.injEq, Prod.mk.injEq] at hget
          rename_i hnn _
          exact Or.inr ⟨_, _, rfl, fun pv h => hnn pv h, hget.2.symm⟩
    · simp only [Except.ok.injEq, Prod.mk.injEq] at hget
      exact Or.inl hget.2.symm

theorem getPointerToField_duration {f : StructField} (hexp : f.PkgPath = "") (fv : Val) :
    getPointerToField f timeDurationType fv
      = .ok (⟨timeDurationType.PtrTo, false, some ⟨timeDurationType, fv, [], true⟩⟩, fv) := by
  simp [getPointerToField, timeDurationType, GoType.kind, BasicKind.toKind, hexp, GoType.PtrTo]

theorem asValue_duration (ptr : Pointer) : asValue ptr timeDurationType.PtrTo = none := by
  simp only [asValue]
  rfl


/-! ## Typed values and the storage a registration is bound to -/

mutual
theorem zero_hasType : ∀ t : GoType, Val.hasType t (zero t) = true
  | .basic _ k _ => by cases k <;> simp [zero, Val.hasType, Val.ofKind]
  | .struct _ _ fs => by
    simp only [zero, Val.hasType]
    exact zeroFields_hasType fs
  | .ptr _ _ => by simp [zero, Val.hasType]
theorem zeroFields_hasType :
    ∀ fs : List (StructField × GoType), Val.hasTypeFields fs (zeroFields fs) = true
  | [] => by simp [zeroFields, Val.hasTypeFields]
  | p :: rest => by
    simp only [zeroFields, Val.hasTypeFields, Bool.and_eq_true]
    exact ⟨zero_hasType p.2, zeroFields_hasType rest⟩
end

theorem Val.hasType_struct {s : String} {m : List Method} {fs : List (StructField × GoType)}
    {v : Val} (h : Val.hasType (.struct s m fs) v = true) :
    Val.hasTypeFields fs v.fields = true := by
  cases v <;> simp_all [Val.hasType, Val.fields]

theorem Val.hasTypeFields_length :
    ∀ (fs : List (StructField × GoType)) (vs : List Val),
      Val.hasTypeFields fs vs = true → vs.length = fs.length
  | [], [], _ => rfl
  | [], _ :: _, h => by simp [Val.hasTypeFields] at h
  | _ :: _, [], h => by simp [Val.hasTypeFields] at h
  | _ :: rest, _ :: xs, h => by
    simp only [Val.hasTypeFields, Bool.and_eq_true] at h
    simp [Val.hasTypeFields_length rest xs h.2]

/-- The content of a field of a typed structure is typed, also where the value has no
content for the field. -/
theorem Val.Field_hasType (ft : GoType) (vs : List Val) (i : Nat)
    (h : ∀ x, vs[i]? = some x → Val.hasType ft x = true) :
    Val.hasType ft (Val.Field vs ft i) = true := by
  unfold Val.Field
  rw [List.getD_eq_getElem?_getD]
  cases hx : vs[i]? with
  | none => simpa using zero_hasType ft
  | some x => simpa using h x hx

/-- The value `pointerToFieldValue.Elem()` of a typed field is typed, and it is the content
at its address inside the field: what is stored there is what is read there. -/
theorem getPointerToField_elem {f : StructField} {ft : GoType} {fv : Val}
    {p : PointerValue} {fv1 : Val} {e : ElemValue}
    (hget : getPointerToField f ft fv = .ok (p, fv1)) (he : p.elem = some e) :
    (Val.hasType ft fv = true → Val.hasType e.typ e.val = true) ∧
    ∀ x : Val, (fv1.write e.rel x).read e.rel = some x := by
  unfold getPointerToField at hget
  dsimp only at hget
  split at hget
  · split at hget
    · simp only [Except.ok.injEq, Prod.mk.injEq] at hget
      obtain ⟨rfl, rfl⟩ := hget
      simp only [Option.some.injEq] at he
      subst he
      refine ⟨fun h => ?_, fun x => by simp [Val.write, Val.read]⟩
      cases ft <;> simp_all [Val.hasType]
    · simp only [Except.ok.injEq, Prod.mk.injEq] at hget
      obtain ⟨rfl, rfl⟩ := hget
      simp at he
    · simp only [Except.ok.injEq, Prod.mk.injEq] at hget
      obtain ⟨rfl, rfl⟩ := hget
      simp only [Option.some.injEq] at he
      subst he
      refine ⟨fun h => ?_, fun x => by simp [Val.write, Val.read]⟩
      cases ft <;> simp_all [Val.hasType]
  · split at hget
    · split at hget
      · simp only [Except.ok.injEq, Prod.mk.injEq] at hget
        obtain ⟨rfl, rfl⟩ := hget
        simp only [Option.some.injEq] at he
        subst he
        exact ⟨fun h => by simpa [Val.hasType] using h, fun x => by simp [Val.write, Val.read]⟩
      · split at hget
        · simp at hget
        · simp only [Except.ok.injEq, Prod.mk.injEq] at hget
          obtain ⟨rfl, rfl⟩ := hget
          simp only [Option.some.injEq] at he
          subst he
          exact ⟨fun _ => zero_hasType _, fun x => by simp [Val.write, Val.read]⟩
    · simp only [Except.ok.injEq, Prod.mk.injEq] at hget
      obtain ⟨rfl, rfl⟩ := hget
      simp only [Option.some.injEq] at he
      subst he
      exact ⟨fun h => h, fun x => by simp [Val.write, Val.read]⟩

theorem Val.read_append : ∀ (a : Loc) (v : Val) (b : Loc),
    v.read (a ++ b) = (v.read a).bind fun w => w.read b
  | [], v, b => by simp [Val.read]
  | st :: a, v, b => by
    cases st with
    | field i =>
      cases v <;> simp [Val.read]
      rename_i vs
      cases vs[i]? <;> simp [Val.read_append a]
    | deref =>
      cases v <;> simp [Val.read]
      rename_i o
      cases o <;> simp [Val.read, Val.read_append a]
    | dyn =>
      cases v <;> simp [Val.read]
      rename_i o
      rcases o with _ | ⟨dt, dv⟩ <;> simp [Val.read, Val.read_append a]

/-- A field that is not walked as a structure: one registration, bound to the address of
`Elem()` and stored through it, or an abort without any registration. -/
theorem registerField_leaf_val (recur : Walk) (W : Env) (S : TagsSettings) (pfx : String)
    (loc : Loc) (f : StructField) (i : Nat) (p : PointerValue) (e : ElemValue) (fv : Val)
    (fl : FlagSet)
    (hleaf : asValue ⟨p.typ, loc ++ .field i :: e.rel⟩ p.typ ≠ none ∨ e.typ.kind ≠ .struct) :
    (∃ (flag : Flag) (x : Val),
      registerField recur W S pfx loc f i p e fv fl = ⟨.nil, fv.write e.rel x, fl ++ [flag]⟩ ∧
        flag.name = flagNameOf W S pfx f ∧ flag.loc = loc ++ .field i :: e.rel) ∨
    ((registerField recur W S pfx loc f i p e fv fl).out ≠ .nil ∧
      (registerField recur W S pfx loc f i p e fv fl).flags = fl) := by
  cases hval : asValue ⟨p.typ, loc ++ .field i :: e.rel⟩ p.typ with
  | some value =>
    rcases registerField_settable_cases recur W S pfx loc f i p e fv fl value hval with
      ⟨err, _, h⟩ | ⟨_, msg, _, h⟩ | ⟨_, data, _, h⟩
    · rw [h]; right; exact ⟨by simp, rfl⟩
    · rw [h]; right; exact ⟨by simp, rfl⟩
    · rw [h]; left; exact ⟨_, _, rfl, rfl, by simp [Flag.loc, asValue_pointer hval]⟩
  | none =>
    have hk : e.typ.kind ≠ .struct := by
      rcases hleaf with h | h
      · exact absurd hval h
      · exact h
    by_cases hd : e.typ = timeDurationType
    · rw [registerField_duration hval hd]
      split
      · right; exact ⟨by simp, rfl⟩
      · split
        · left; exact ⟨_, _, rfl, rfl, rfl⟩
        · right; exact ⟨by simp [assertPanic], rfl⟩
    · rw [registerField_byKind hval hk hd]
      rcases byKind_cases W e.typ fl ⟨p.typ, loc ++ .field i :: e.rel⟩ e.val
        (flagNameOf W S pfx f) (defaultStringFlag f S) (f.Get S.Description) with
        ⟨flag, dv, hb, h1, h2, _, _⟩ | ⟨h1, h2, _⟩
      · rw [hb]
        left
        exact ⟨flag, dv, rfl, h1, h2⟩
      · right
        cases ho : (byKind W e.typ fl ⟨p.typ, loc ++ .field i :: e.rel⟩ e.val
          (flagNameOf W S pfx f) (defaultStringFlag f S) (f.Get S.Description)).out with
        | nil => exact absurd ho h1
        | error err =>
          simp only
          split
          · exact ⟨by simp, h2⟩
          · split
            · exact ⟨by simp, h2⟩
            · exact ⟨by simp, h2⟩
        | panic msg => exact ⟨by simp, h2⟩
        | outOfFuel => exact ⟨by simp, h2⟩

theorem boundWithin_refl (loc : Loc) (v : Val) (fl : FlagSet) : boundWithin loc v fl fl :=
  ⟨[], by simp, by simp⟩

/-- The registrations of one visited field are bound inside `Elem()`, the variable at address
`e.rel` inside the field, and the content of the field holds a value at each of them. -/
theorem registerField_bound {recur : Walk}
    (hrec : ∀ (loc : Loc) (t : GoType) (v : Val) (pfx : String) (fl : FlagSet),
      Val.hasType t v = true → boundWithin loc (recur loc t v pfx fl).val fl
        (recur loc t v pfx fl).flags)
    (W : Env) (S : TagsSettings) (pfx : String) (loc : Loc) (f : StructField) (i : Nat)
    (p : PointerValue) (e : ElemValue) (fv : Val) (fl : FlagSet)
    (hty : Val.hasType e.typ e.val = true)
    (hrw : ∀ x : Val, (fv.write e.rel x).read e.rel = some x) :
    ∃ new : FlagSet, (registerField recur W S pfx loc f i p e fv fl).flags = fl ++ new ∧
      ∀ g ∈ new, ∃ rel : Loc, g.loc = loc ++ .field i :: e.rel ++ rel ∧
        ((registerField recur W S pfx loc f i p e fv fl).val.read (e.rel ++ rel)).isSome
          = true := by
  by_cases hleaf : asValue ⟨p.typ, loc ++ .field i :: e.rel⟩ p.typ ≠ none ∨ e.typ.kind ≠ .struct
  · rcases registerField_leaf_val recur W S pfx loc f i p e fv fl hleaf with
      ⟨flag, x, h, _, hl⟩ | ⟨_, h⟩
    · rw [h]
      refine ⟨[flag], rfl, ?_⟩
      intro g hg
      simp only [List.mem_singleton] at hg
      subst hg
      exact ⟨[], by simp [hl], by simp [hrw x]⟩
    · rw [h]; exact ⟨[], by simp, by simp⟩
  · simp only [ne_eq, not_or, not_not] at hleaf
    obtain ⟨hval, hk⟩ := hleaf
    obtain ⟨new, hnew, hall⟩ := hrec (loc ++ .field i :: e.rel) e.typ e.val
      (if f.Anonymous then pfx else flagNameOf W S pfx f) fl hty
    have key : ∀ g ∈ new, ∃ rel : Loc, g.loc = loc ++ .field i :: e.rel ++ rel ∧
        ((fv.write e.rel (recur (loc ++ .field i :: e.rel) e.typ e.val
          (if f.Anonymous then pfx else flagNameOf W S pfx f) fl).val).read
            (e.rel ++ rel)).isSome = true := by
      intro g hg
      obtain ⟨rel, h1, h2⟩ := hall g hg
      exact ⟨rel, h1, by rw [Val.read_append, hrw]; simpa using h2⟩
    rw [registerField_struct hval hk]
    split <;> exact ⟨new, hnew, key⟩

theorem visitField_bound {recur : Walk}
    (hrec : ∀ (loc : Loc) (t : GoType) (v : Val) (pfx : String) (fl : FlagSet),
      Val.hasType t v = true → boundWithin loc (recur loc t v pfx fl).val fl
        (recur loc t v pfx fl).flags)
    (W : Env) (S : TagsSettings) (pfx : String) (loc : Loc) (f : StructField) (ft : GoType)
    (i : Nat) (fv : Val) (fl : FlagSet) (hty : Val.hasType ft fv = true) :
    boundWithin (loc ++ [.field i]) (visitField recur W S pfx loc f ft i fv fl).val fl
      (visitField recur W S pfx loc f ft i fv fl).flags := by
  cases hget : getPointerToField f ft fv with
  | error msg => simp only [visitField, hget]; exact boundWithin_refl _ _ _
  | ok r =>
    obtain ⟨p, fv1⟩ := r
    by_cases hskip : p.elemCanSet = false ∨ f.Get S.Ignored = "true"
    · rw [visitField_skipped hget hskip]; exact boundWithin_refl _ _ _
    · simp only [not_or, Bool.not_eq_false] at hskip
      cases he : p.elem with
      | none => simp [PointerValue.elemCanSet, he] at hskip
      | some e =>
        rw [visitField_visited hget he hskip.1 hskip.2]
        obtain ⟨new, hnew, hall⟩ := registerField_bound hrec W S pfx loc f i p e fv1 fl
          ((getPointerToField_elem hget he).1 hty) (getPointerToField_elem hget he).2
        refine ⟨new, hnew, fun g hg => ?_⟩
        obtain ⟨rel, h1, h2⟩ := hall g hg
        exact ⟨e.rel ++ rel, by simp [h1], h2⟩

theorem walkFields_bound {recur : Walk}
    (hrec : ∀ (loc : Loc) (t : GoType) (v : Val) (pfx : String) (fl : FlagSet),
      Val.hasType t v = true → boundWithin loc (recur loc t v pfx fl).val fl
        (recur loc t v pfx fl).flags)
    (W : Env) (S : TagsSettings) (pfx : String) (loc : Loc) :
    ∀ (fs : List (StructField × GoType)) (i : Nat) (vs : List Val) (fl : FlagSet),
      Val.hasTypeFields fs (vs.drop i) = true →
      boundWithin loc (.struct (walkFields (visitField recur W S pfx loc) fs i vs fl).2.1) fl
        (walkFields (visitField recur W S pfx loc) fs i vs fl).2.2
  | [], i, vs, fl, _ => by simpa [walkFields] using boundWithin_refl _ _ _
  | q :: rest, i, vs, fl, hty => by
    have hi : i < vs.length := by
      by_contra hcon
      rw [List.drop_of_length_le (by omega)] at hty
      simp [Val.hasTypeFields] at hty
    have hdrop : vs.drop i = vs[i] :: vs.drop (i + 1) := List.drop_eq_getElem_cons hi
    rw [hdrop] at hty
    simp only [Val.hasTypeFields, Bool.and_eq_true] at hty
    have hfld : Val.Field vs q.2 i = vs[i] := by
      simp [Val.Field, List.getD_eq_getElem?_getD, List.getElem?_eq_getElem hi]
    obtain ⟨new1, hn1, hall1⟩ := visitField_bound hrec W S pfx loc q.1 q.2 i
      (Val.Field vs q.2 i) fl (by rw [hfld]; exact hty.1)
    have hset : ∀ x : Val, ((Val.struct (vs.set i x)).read [.field i]) = some x := by
      intro x
      simp [Val.read, hi]
    unfold walkFields
    dsimp only
    split
    · rename_i hout
      have hty2 : Val.hasTypeFields rest
          ((vs.set i (visitField recur W S pfx loc q.1 q.2 i (Val.Field vs q.2 i) fl).val).drop
            (i + 1)) = true := by
        rw [List.drop_set_of_lt _ _ (by omega)]
        exact hty.2
      obtain ⟨new2, hn2, hall2⟩ := walkFields_bound hrec W S pfx loc rest (i + 1)
        (vs.set i (visitField recur W S pfx loc q.1 q.2 i (Val.Field vs q.2 i) fl).val)
        (visitField recur W S pfx loc q.1 q.2 i (Val.Field vs q.2 i) fl).flags hty2
      refine ⟨new1 ++ new2, by rw [hn2, hn1, List.append_assoc], ?_⟩
      intro g hg
      rcases List.mem_append.1 hg with hg | hg
      · obtain ⟨rel, h1, h2⟩ := hall1 g hg
        refine ⟨.field i :: rel, by simp [h1], ?_⟩
        have hlen := walkFields_length (visitField recur W S pfx loc) rest (i + 1)
          (vs.set i (visitField recur W S pfx loc q.1 q.2 i (Val.Field vs q.2 i) fl).val)
          (visitField recur W S pfx loc q.1 q.2 i (Val.Field vs q.2 i) fl).flags
        have hout := walkFields_getD_outside (visitField recur W S pfx loc) rest (i + 1)
          (vs.set i (visitField recur W S pfx loc q.1 q.2 i (Val.Field vs q.2 i) fl).val)
          (visitField recur W S pfx loc q.1 q.2 i (Val.Field vs q.2 i) fl).flags i default
          (Or.inl (by omega))
        rw [List.getD_eq_getElem?_getD, List.getD_eq_getElem?_getD] at hout
        simp only [List.length_set] at hlen
        rw [List.getElem?_eq_getElem (by omega), List.getElem?_eq_getElem (by simpa using hi)]
          at hout
        simp only [Option.getD_some, List.getElem_set_self] at hout
        simp only [Val.read, List.get?_eq_getElem?]
        rw [List.getElem?_eq_getElem (by omega), hout]
        simpa using h2
      · exact hall2 g hg
    · refine ⟨new1, hn1, ?_⟩
      intro g hg
      obtain ⟨rel, h1, h2⟩ := hall1 g hg
      refine ⟨.field i :: rel, by simp [h1], ?_⟩
      simp only [Val.read, List.get?_eq_getElem?]
      rw [List.getElem?_eq_getElem (by simpa using hi)]
      simpa using h2

/-- Every registration of a walk over a typed structure is bound to an address inside that
structure, and the structure holds a value at that address when the walk is over. -/
theorem fieldsAsFlags_bound (W : Env) (S : TagsSettings) :
    ∀ (n : Nat) (loc : Loc) (t : GoType) (v : Val) (pfx : String) (fl : FlagSet),
      Val.hasType t v = true →
      boundWithin loc (fieldsAsFlags W S n loc t v pfx fl).val fl
        (fieldsAsFlags W S n loc t v pfx fl).flags
  | 0, loc, t, v, pfx, fl, _ => by simpa [fieldsAsFlags] using boundWithin_refl _ _ _
  | n + 1, loc, t, v, pfx, fl, hty => by
    cases t with
    | struct s m fs =>
      rw [fieldsAsFlags_struct]
      have h := Val.hasType_struct hty
      exact walkFields_bound (fieldsAsFlags_bound W S n) W S pfx loc fs 0 v.fields fl
        (by simpa using h)
    | basic s k ms => simpa [fieldsAsFlags] using boundWithin_refl _ _ _
    | ptr nm et => simpa [fieldsAsFlags] using boundWithin_refl _ _ _

/-! ## Pointer fields after the visit -/

/-- The content of a field after its iteration is the content `getPointerToField` left, or
that with a new value stored in `Elem()`. -/
theorem registerField_val (recur : Walk) (W : Env) (S : TagsSettings) (pfx : String)
    (loc : Loc) (f : StructField) (i : Nat) (p : PointerValue) (e : ElemValue) (fv : Val)
    (fl : FlagSet) :
    (registerField recur W S pfx loc f i p e fv fl).val = fv ∨
    ∃ x : Val, (registerField recur W S pfx loc f i p e fv fl).val = fv.write e.rel x := by
  by_cases hleaf : asValue ⟨p.typ, loc ++ .field i :: e.rel⟩ p.typ ≠ none ∨ e.typ.kind ≠ .struct
  · cases hval : asValue ⟨p.typ, loc ++ .field i :: e.rel⟩ p.typ with
    | some value =>
      rcases registerField_settable_cases recur W S pfx loc f i p e fv fl value hval with
        ⟨err, _, h⟩ | ⟨_, msg, _, h⟩ | ⟨_, data, _, h⟩ <;> rw [h] <;> exact Or.inr ⟨_, rfl⟩
    | none =>
      have hk : e.typ.kind ≠ .struct := by
        rcases hleaf with h | h
        · exact absurd hval h
        · exact h
      by_cases hd : e.typ = timeDurationType
      · rw [registerField_duration hval hd]
        split
        · exact Or.inl rfl
        · split
          · exact Or.inr ⟨_, rfl⟩
          · exact Or.inl rfl
      · rw [registerField_byKind hval hk hd]
        split
        · split
          · exact Or.inr ⟨_, rfl⟩
          · split <;> exact Or.inr ⟨_, rfl⟩
        · exact Or.inr ⟨_, rfl⟩
  · simp only [ne_eq, not_or, not_not] at hleaf
    rw [registerField_struct hleaf.1 hleaf.2]
    split <;> exact Or.inr ⟨_, rfl⟩

/-- An exported field of pointer type holds a non-nil pointer once it has been visited. -/
theorem visitField_ptr_val (recur : Walk) (W : Env) (S : TagsSettings) (pfx : String)
    (loc : Loc) (f : StructField) (nm : Option String) (et : GoType) (i : Nat) (fv : Val)
    (fl : FlagSet) (hexp : f.PkgPath = "") :
    ∃ pv : Val, (visitField recur W S pfx loc f (.ptr nm et) i fv fl).val = .ptr (some pv) := by
  have hget : ∃ pv : Val, getPointerToField f (.ptr nm et) fv
      = .ok (⟨.ptr nm et, false, some ⟨et, pv, [.deref], true⟩⟩, .ptr (some pv)) := by
    unfold getPointerToField
    simp only [GoType.kind, hexp]
    split
    · rename_i pv
      exact ⟨pv, by simp⟩
    · exact ⟨zero et, by simp⟩
  obtain ⟨pv, hget⟩ := hget
  by_cases hign : f.Get S.Ignored = "true"
  · rw [visitField_skipped hget (Or.inr hign)]
    exact ⟨pv, rfl⟩
  · rw [visitField_visited (e := ⟨et, pv, [.deref], true⟩) hget rfl rfl hign]
    rcases registerField_val recur W S pfx loc f i
      ⟨.ptr nm et, false, some ⟨et, pv, [.deref], true⟩⟩ ⟨et, pv, [.deref], true⟩
      (.ptr (some pv)) fl with h | ⟨x, h⟩
    · exact ⟨pv, h⟩
    · exact ⟨pv.write [] x, by rw [h]; simp [Val.write]⟩

/-- The walk keeps the number of fields of the value. -/
theorem fieldsAsFlags_fields_length (W : Env) (S : TagsSettings) (n : Nat) (loc : Loc)
    (s : String) (m : List Method) (fs : List (StructField × GoType)) (v : Val) (pfx : String)
    (fl : FlagSet) :
    (fieldsAsFlags W S (n + 1) loc (.struct s m fs) v pfx fl).val.fields.length
      = v.fields.length := by
  rw [fieldsAsFlags_struct]
  simp only [Val.fields]
  exact walkFields_length _ _ _ _ _

/-- The content of a field after the walk is its content after its own iteration, when
the walk reaches the field. -/
theorem fieldsAsFlags_field_at {W : Env} {S : TagsSettings} {n : Nat} {loc : Loc} {s : String}
    {m : List Method} {pre : List (StructField × GoType)} {v : Val} {pfx : String}
    {fl0 : FlagSet} {v1 : Val} {fl1 : FlagSet} (f : StructField) (ft : GoType)
    (post : List (StructField × GoType))
    (hpre : fieldsAsFlags W S (n + 1) loc (.struct s m pre) v pfx fl0 = ⟨.nil, v1, fl1⟩)
    (hlen : pre.length < v.fields.length) :
    (fieldsAsFlags W S (n + 1) loc (.struct s m (pre ++ (f, ft) :: post)) v pfx fl0).val.fields[
        pre.length]?
      = some (visitField (fieldsAsFlags W S n) W S pfx loc f ft pre.length
          (Val.Field v.fields ft pre.length) fl1).val := by
  have hl1 : v1.fields.length = v.fields.length := by
    have h := fieldsAsFlags_fields_length W S n loc s m pre v pfx fl0
    rw [hpre] at h
    exact h
  have hq := fieldsAsFlags_snoc f ft hpre
  have hqv : (fieldsAsFlags W S (n + 1) loc (.struct s m (pre ++ [(f, ft)])) v pfx fl0).val.fields[
      pre.length]? = some (visitField (fieldsAsFlags W S n) W S pfx loc f ft pre.length
          (Val.Field v.fields ft pre.length) fl1).val := by
    rw [hq]
    simp only [Val.fields_struct]
    rw [List.getElem?_set_self (by omega)]
  by_cases ho : (fieldsAsFlags W S (n + 1) loc (.struct s m (pre ++ [(f, ft)])) v pfx fl0).out
      = .nil
  · have hx := fieldsAsFlags_extend post
      (show fieldsAsFlags W S (n + 1) loc (.struct s m (pre ++ [(f, ft)])) v pfx fl0 = ⟨.nil,
        (fieldsAsFlags W S (n + 1) loc (.struct s m (pre ++ [(f, ft)])) v pfx fl0).val,
        (fieldsAsFlags W S (n + 1) loc (.struct s m (pre ++ [(f, ft)])) v pfx fl0).flags⟩ from by
        rw [← ho])
    rw [List.append_assoc, List.singleton_append] at hx
    obtain ⟨_, h2, h3⟩ := hx
    have h4 := h3 pre.length default (by simp)
    have hl2 := fieldsAsFlags_fields_length W S n loc s m (pre ++ [(f, ft)]) v pfx fl0
    rw [List.getD_eq_getElem?_getD, List.getD_eq_getElem?_getD, hqv,
      List.getElem?_eq_getElem (by omega)] at h4
    rw [List.getElem?_eq_getElem (by omega)]
    simpa using h4
  · rw [fieldsAsFlags_abort_at post ho]
    exact hqv

/-! ## Nesting depth and the fuel of the walk -/

mutual
theorem zero_depth : ∀ t : GoType, (zero t).depth ≤ t.depth
  | .basic _ k _ => by cases k <;> simp [zero, Val.depth]
  | .struct _ _ fs => by
    simp only [zero, Val.depth, GoType.depth, Nat.add_le_add_iff_right]
    exact zeroFields_depth fs
  | .ptr _ _ => by simp [zero, Val.depth]
theorem zeroFields_depth :
    ∀ fs : List (StructField × GoType), Val.depthList (zeroFields fs) ≤ GoType.depthFields fs
  | [] => by simp [zeroFields, Val.depthList]
  | p :: rest => by
    simp only [zeroFields, Val.depthList, GoType.depthFields]
    exact max_le_max (zero_depth p.2) (zeroFields_depth rest)
end

theorem GoType.depth_le_depthFields :
    ∀ (fs : List (StructField × GoType)) (q : StructField × GoType),
      q ∈ fs → q.2.depth ≤ GoType.depthFields fs
  | [], _, h => by simp at h
  | p :: rest, q, h => by
    simp only [GoType.depthFields]
    rcases List.mem_cons.1 h with h | h
    · subst h; exact le_max_left _ _
    · exact le_trans (GoType.depth_le_depthFields rest q h) (le_max_right _ _)

theorem Val.depth_le_depthList :
    ∀ (vs : List Val) (x : Val), x ∈ vs → x.depth ≤ Val.depthList vs
  | [], _, h => by simp at h
  | y :: rest, x, h => by
    simp only [Val.depthList]
    rcases List.mem_cons.1 h with h | h
    · subst h; exact le_max_left _ _
    · exact le_trans (Val.depth_le_depthList rest x h) (le_max_right _ _)

/-- The content of a field is nested less deeply than the structure value, or is the zero
value of the field's type. -/
theorem Val.Field_depth (v : Val) (ft : GoType) (i : Nat) (B : Nat)
    (hv : v.depth ≤ B + 1) (ht : ft.depth ≤ B) : (Val.Field v.fields ft i).depth ≤ B := by
  unfold Val.Field
  rw [List.getD_eq_getElem?_getD]
  cases hx : v.fields[i]? with
  | none => simpa using le_trans (zero_depth ft) ht
  | some x =>
    simp only [Option.getD_some]
    have hmem : x ∈ v.fields := List.mem_iff_getElem?.2 ⟨i, hx⟩
    cases v with
    | struct vs =>
      simp only [Val.fields] at hmem
      simp only [Val.depth, Nat.add_le_add_iff_right] at hv
      exact le_trans (Val.depth_le_depthList vs x hmem) hv
    | _ => simp [Val.fields] at hmem

/-- What the walk descends into is nested no deeper than the field: `Elem()` has the depth
of the field's type or content at most. -/
theorem getPointerToField_depth {f : StructField} {ft : GoType} {fv : Val}
    {p : PointerValue} {fv1 : Val} {e : ElemValue} {B : Nat}
    (hget : getPointerToField f ft fv = .ok (p, fv1)) (he : p.elem = some e)
    (ht : ft.depth ≤ B) (hv : fv.depth ≤ B) : e.typ.depth ≤ B ∧ e.val.depth ≤ B := by
  unfold getPointerToField at hget
  dsimp only at hget
  split at hget
  · split at hget
    · simp only [Except.ok.injEq, Prod.mk.injEq] at hget
      obtain ⟨rfl, rfl⟩ := hget
      simp only [Option.some.injEq] at he
      subst he
      simp only [Val.depth, GoType.depth, max_le_iff] at hv
      exact ⟨hv.1, hv.2⟩
    · simp only [Except.ok.injEq, Prod.mk.injEq] at hget
      obtain ⟨rfl, rfl⟩ := hget
      simp at he
    · simp only [Except.ok.injEq, Prod.mk.injEq] at hget
      obtain ⟨rfl, rfl⟩ := hget
      simp only [Option.some.injEq] at he
      subst he
      simp only [Val.depth, max_le_iff] at hv
      exact ⟨hv.1, hv.2⟩
  · split at hget
    · split at hget
      · simp only [Except.ok.injEq, Prod.mk.injEq] at hget
        obtain ⟨rfl, rfl⟩ := hget
        simp only [Option.some.injEq] at he
        subst he
        exact ⟨by simpa [GoType.depth] using ht, by simpa [Val.depth] using hv⟩
      · split at hget
        · simp at hget
        · simp only [Except.ok.injEq, Prod.mk.injEq] at hget
          obtain ⟨rfl, rfl⟩ := hget
          simp only [Option.some.injEq] at he
          subst he
          simp only [GoType.depth] at ht
          exact ⟨ht, le_trans (zero_depth _) ht⟩
    · simp only [Except.ok.injEq, Prod.mk.injEq] at hget
      obtain ⟨rfl, rfl⟩ := hget
      simp only [Option.some.injEq] at he
      subst he
      exact ⟨ht, hv⟩

theorem byKind_fuel (W : Env) (ft : GoType) (fl : FlagSet) (ptr : Pointer) (val : Val)
    (flagName d desc : String) :
    (byKind W ft fl ptr val flagName d desc).out ≠ .outOfFuel := by
  rcases byKind_cases W ft fl ptr val flagName d desc with ⟨flag, dv, h, _⟩ | ⟨h, _⟩
  · rw [h]; simp
  · unfold byKind
    cases hk : ft.kind <;> simp only <;> (repeat' split) <;> simp [assertPanic]

/-- The body of the loop uses the recursive call only through its result on the structure
it descends into. -/
theorem registerField_congr {recur1 recur2 : Walk} (W : Env) (S : TagsSettings)
    (pfx : String) (loc : Loc) (f : StructField) (i : Nat) (p : PointerValue) (e : ElemValue)
    (fv : Val) (fl : FlagSet)
    (h : e.typ.kind = .struct →
      recur1 (loc ++ .field i :: e.rel) e.typ e.val
          (if f.Anonymous then pfx else flagNameOf W S pfx f) fl
        = recur2 (loc ++ .field i :: e.rel) e.typ e.val
          (if f.Anonymous then pfx else flagNameOf W S pfx f) fl) :
    registerField recur1 W S pfx loc f i p e fv fl
      = registerField recur2 W S pfx loc f i p e fv fl := by
  cases hval : asValue ⟨p.typ, loc ++ .field i :: e.rel⟩ p.typ with
  | some value => rw [registerField_settable hval, registerField_settable hval]
  | none =>
    by_cases hk : e.typ.kind = .struct
    · rw [registerField_struct hval hk, registerField_struct hval hk, h hk]
    · by_cases hd : e.typ = timeDurationType
      · rw [registerField_duration hval hd, registerField_duration hval hd]
      · rw [registerField_byKind hval hk hd, registerField_byKind hval hk hd]

/-- The body of the loop runs out of fuel only when the recursive call does. -/
theorem registerField_fuel {recur : Walk} (W : Env) (S : TagsSettings)
    (pfx : String) (loc : Loc) (f : StructField) (i : Nat) (p : PointerValue) (e : ElemValue)
    (fv : Val) (fl : FlagSet)
    (h : e.typ.kind = .struct →
      (recur (loc ++ .field i :: e.rel) e.typ e.val
          (if f.Anonymous then pfx else flagNameOf W S pfx f) fl).out ≠ .outOfFuel) :
    (registerField recur W S pfx loc f i p e fv fl).out ≠ .outOfFuel := by
  cases hval : asValue ⟨p.typ, loc ++ .field i :: e.rel⟩ p.typ with
  | some value =>
    rcases registerField_settable_cases recur W S pfx loc f i p e fv fl value hval with
      ⟨err, _, h⟩ | ⟨_, msg, _, h⟩ | ⟨_, data, _, h⟩ <;> rw [h] <;> simp
  | none =>
    by_cases hk : e.typ.kind = .struct
    · rw [registerField_struct hval hk]
      split
      · simp
      · rename_i o hne
        exact h hk
    · by_cases hd : e.typ = timeDurationType
      · rw [registerField_duration hval hd]
        split
        · simp
        · split <;> simp [assertPanic]
      · rw [registerField_byKind hval hk hd]
        have hb := byKind_fuel W e.typ fl ⟨p.typ, loc ++ .field i :: e.rel⟩ e.val
          (flagNameOf W S pfx f) (defaultStringFlag f S) (f.Get S.Description)
        split
        · split
          · simp
          · split <;> simp
        · exact hb

theorem visitField_congr {recur1 recur2 : Walk} {B : Nat}
    (hrec : ∀ (loc : Loc) (t : GoType) (v : Val) (pfx : String) (fl : FlagSet),
      t.depth ≤ B → v.depth ≤ B →
      recur1 loc t v pfx fl = recur2 loc t v pfx fl ∧ (recur2 loc t v pfx fl).out ≠ .outOfFuel)
    (W : Env) (S : TagsSettings) (pfx : String) (loc : Loc) (f : StructField) (ft : GoType)
    (i : Nat) (fv : Val) (fl : FlagSet) (ht : ft.depth ≤ B) (hv : fv.depth ≤ B) :
    visitField recur1 W S pfx loc f ft i fv fl = visitField recur2 W S pfx loc f ft i fv fl ∧
    (visitField recur2 W S pfx loc f ft i fv fl).out ≠ .outOfFuel := by
  cases hget : getPointerToField f ft fv with
  | error msg => simp [visitField, hget]
  | ok r =>
    obtain ⟨p, fv1⟩ := r
    by_cases hskip : p.elemCanSet = false ∨ f.Get S.Ignored = "true"
    · rw [visitField_skipped hget hskip, visitField_skipped hget hskip]
      simp
    · simp only [not_or, Bool.not_eq_false] at hskip
      cases he : p.elem with
      | none => simp [PointerValue.elemCanSet, he] at hskip
      | some e =>
        rw [visitField_visited hget he hskip.1 hskip.2,
          visitField_visited hget he hskip.1 hskip.2]
        have hd := getPointerToField_depth hget he ht hv
        exact ⟨registerField_congr W S pfx loc f i p e fv1 fl
            (fun _ => (hrec _ _ _ _ _ hd.1 hd.2).1),
          registerField_fuel W S pfx loc f i p e fv1 fl
            (fun _ => (hrec _ _ _ _ _ hd.1 hd.2).2)⟩

theorem walkFields_congr (visit1 visit2 : StructField → GoType → Nat → Val → FlagSet → Result) :
    ∀ (fs : List (StructField × GoType)) (i : Nat) (vs : List Val) (fl : FlagSet),
      (∀ q ∈ fs, ∀ (j : Nat) (fl2 : FlagSet), i ≤ j →
        visit1 q.1 q.2 j (Val.Field vs q.2 j) fl2 = visit2 q.1 q.2 j (Val.Field vs q.2 j) fl2 ∧
        (visit2 q.1 q.2 j (Val.Field vs q.2 j) fl2).out ≠ .outOfFuel) →
      walkFields visit1 fs i vs fl = walkFields visit2 fs i vs fl ∧
      (walkFields visit2 fs i vs fl).1 ≠ .outOfFuel
  | [], i, vs, fl, _ => by simp [walkFields]
  | q :: rest, i, vs, fl, h => by
    obtain ⟨h1, h2⟩ := h q (List.mem_cons_self _ _) i fl (le_refl _)
    have ih := walkFields_congr visit1 visit2 rest (i + 1)
      (vs.set i (visit2 q.1 q.2 i (Val.Field vs q.2 i) fl).val)
      (visit2 q.1 q.2 i (Val.Field vs q.2 i) fl).flags
      (by
        intro q2 hq2 j fl2 hj
        have hf : Val.Field (vs.set i (visit2 q.1 q.2 i (Val.Field vs q.2 i) fl).val) q2.2 j
            = Val.Field vs q2.2 j := by
          unfold Val.Field
          simp only [List.getD_eq_getElem?_getD]
          rw [List.getElem?_set_ne (by omega)]
        rw [hf]
        exact h q2 (List.mem_cons_of_mem _ hq2) j fl2 (by omega))
    unfold walkFields
    dsimp only
    rw [h1]
    split
    · exact ih
    · rename_i o hne
      refine ⟨rfl, ?_⟩
      simp only
      exact h2

/-- Fuel above the nesting depth of the type and of the value is enough: the walk does not
run out of fuel, and more fuel does not change its result. -/
theorem fieldsAsFlags_enough_fuel (W : Env) (S : TagsSettings) :
    ∀ (n : Nat) (loc : Loc) (t : GoType) (v : Val) (pfx : String) (fl : FlagSet),
      t.depth ≤ n → v.depth ≤ n → ∀ k : Nat,
      fieldsAsFlags W S (n + 1 + k) loc t v pfx fl = fieldsAsFlags W S (n + 1) loc t v pfx fl ∧
      (fieldsAsFlags W S (n + 1) loc t v pfx fl).out ≠ .outOfFuel
  | n, loc, .basic s b ms, v, pfx, fl, _, _, k => by
    rw [show n + 1 + k = (n + k) + 1 from by omega]
    simp [fieldsAsFlags]
  | n, loc, .ptr nm et, v, pfx, fl, _, _, k => by
    rw [show n + 1 + k = (n + k) + 1 from by omega]
    simp [fieldsAsFlags]
  | 0, loc, .struct s m fs, v, pfx, fl, ht, _, k => by
    simp [GoType.depth] at ht
  | n + 1, loc, .struct s m fs, v, pfx, fl, ht, hv, k => by
    rw [show n + 1 + 1 + k = (n + 1 + k) + 1 from by omega]
    rw [fieldsAsFlags_struct, fieldsAsFlags_struct]
    simp only [GoType.depth, Nat.add_le_add_iff_right] at ht
    have hw := walkFields_congr
      (visitField (fieldsAsFlags W S (n + 1 + k)) W S pfx loc)
      (visitField (fieldsAsFlags W S (n + 1)) W S pfx loc) fs 0 v.fields fl
      (by
        intro q hq j fl2 _
        exact visitField_congr
          (fun loc2 t2 v2 pfx2 fl3 h1 h2 =>
            fieldsAsFlags_enough_fuel W S n loc2 t2 v2 pfx2 fl3 h1 h2 k)
          W S pfx loc q.1 q.2 j (Val.Field v.fields q.2 j) fl2
          (le_trans (GoType.depth_le_depthFields fs q hq) ht)
          (Val.Field_depth v q.2 j n hv (le_trans (GoType.depth_le_depthFields fs q hq) ht)))
    rw [hw.1]
    exact ⟨rfl, hw.2⟩

/-! ## No address is registered twice -/

theorem distinctWithin_refl (loc : Loc) (fl : FlagSet) : distinctWithin loc fl fl :=
  ⟨[], by simp, by simp, by simp⟩

theorem registerField_distinct {recur : Walk}
    (hrec : ∀ (loc : Loc) (t : GoType) (v : Val) (pfx : String) (fl : FlagSet),
      distinctWithin loc fl (recur loc t v pfx fl).flags)
    (W : Env) (S : TagsSettings) (pfx : String) (loc : Loc) (f : StructField) (i : Nat)
    (p : PointerValue) (e : ElemValue) (fv : Val) (fl : FlagSet) :
    distinctWithin (loc ++ [.field i]) fl
      (registerField recur W S pfx loc f i p e fv fl).flags := by
  by_cases hleaf : asValue ⟨p.typ, loc ++ .field i :: e.rel⟩ p.typ ≠ none ∨ e.typ.kind ≠ .struct
  · rcases registerField_leaf recur W S pfx loc f i p e fv fl hleaf with
      ⟨_, flag, h, _, hl⟩ | ⟨_, h⟩
    · rw [h]
      refine ⟨[flag], rfl, by simp, ?_⟩
      intro g hg
      simp only [List.mem_singleton] at hg
      subst hg
      exact ⟨e.rel, by simp [hl]⟩
    · rw [h]; exact distinctWithin_refl _ _
  · simp only [ne_eq, not_or, not_not] at hleaf
    obtain ⟨hval, hk⟩ := hleaf
    obtain ⟨new, hnew, hnd, hall⟩ := hrec (loc ++ .field i :: e.rel) e.typ e.val
      (if f.Anonymous then pfx else flagNameOf W S pfx f) fl
    have key : ∀ g ∈ new, ∃ rel : Loc, g.loc = (loc ++ [.field i]) ++ rel := by
      intro g hg
      obtain ⟨rel, h1⟩ := hall g hg
      exact ⟨e.rel ++ rel, by simp [h1]⟩
    rw [registerField_struct hval hk]
    split <;> exact ⟨new, hnew, hnd, key⟩

theorem visitField_distinct {recur : Walk}
    (hrec : ∀ (loc : Loc) (t : GoType) (v : Val) (pfx : String) (fl : FlagSet),
      distinctWithin loc fl (recur loc t v pfx fl).flags)
    (W : Env) (S : TagsSettings) (pfx : String) (loc : Loc) (f : StructField) (ft : GoType)
    (i : Nat) (fv : Val) (fl : FlagSet) :
    distinctWithin (loc ++ [.field i]) fl (visitField recur W S pfx loc f ft i fv fl).flags := by
  unfold visitField
  split
  · exact distinctWithin_refl _ _
  · split
    · exact distinctWithin_refl _ _
    · split
      · exact distinctWithin_refl _ _
      · exact registerField_distinct hrec W S pfx loc f i _ _ _ fl

theorem walkFields_distinct {recur : Walk}
    (hrec : ∀ (loc : Loc) (t : GoType) (v : Val) (pfx : String) (fl : FlagSet),
      distinctWithin loc fl (recur loc t v pfx fl).flags)
    (W : Env) (S : TagsSettings) (pfx : String) (loc : Loc) :
    ∀ (fs : List (StructField × GoType)) (i : Nat) (vs : List Val) (fl : FlagSet),
      ∃ new : FlagSet,
        (walkFields (visitField recur W S pfx loc) fs i vs fl).2.2 = fl ++ new ∧
        (new.map Flag.loc).Nodup ∧
        ∀ g ∈ new, ∃ (j : Nat) (rel : Loc), i ≤ j ∧ g.loc = loc ++ .field j :: rel
  | [], i, vs, fl => ⟨[], by simp [walkFields], by simp, by simp⟩
  | q :: rest, i, vs, fl => by
    obtain ⟨new1, hn1, hd1, hall1⟩ := visitField_distinct hrec W S pfx loc q.1 q.2 i
      (Val.Field vs q.2 i) fl
    have hall1b : ∀ g ∈ new1, ∃ (j : Nat) (rel : Loc), i ≤ j ∧ g.loc = loc ++ .field j :: rel := by
      intro g hg
      obtain ⟨rel, h⟩ := hall1 g hg
      exact ⟨i, rel, le_refl _, by simp [h]⟩
    unfold walkFields
    dsimp only
    split
    · obtain ⟨new2, hn2, hd2, hall2⟩ := walkFields_distinct hrec W S pfx loc rest (i + 1)
        (vs.set i (visitField recur W S pfx loc q.1 q.2 i (Val.Field vs q.2 i) fl).val)
        (visitField recur W S pfx loc q.1 q.2 i (Val.Field vs q.2 i) fl).flags
      refine ⟨new1 ++ new2, by rw [hn2, hn1, List.append_assoc], ?_, ?_⟩
      · rw [List.map_append, List.nodup_append]
        refine ⟨hd1, hd2, ?_⟩
        intro l h1 h2
        obtain ⟨g1, hg1, rfl⟩ := List.mem_map.1 h1
        obtain ⟨g2, hg2, heq⟩ := List.mem_map.1 h2
        obtain ⟨rel1, h3⟩ := hall1 g1 hg1
        obtain ⟨j, rel2, hj, h4⟩ := hall2 g2 hg2
        rw [h3, h4] at heq
        simp only [List.append_assoc, List.singleton_append, List.append_cancel_left_eq,
          List.cons.injEq, Step.field.injEq] at heq
        omega
      · intro g hg
        rcases List.mem_append.1 hg with hg | hg
        · exact hall1b g hg
        · obtain ⟨j, rel, hj, h⟩ := hall2 g hg
          exact ⟨j, rel, by omega, h⟩
    · exact ⟨new1, hn1, hd1, hall1b⟩

/-- The registrations of a walk are bound to pairwise different addresses inside the walked
structure: no field is registered twice. -/
theorem fieldsAsFlags_distinct (W : Env) (S : TagsSettings) :
    ∀ (n : Nat) (loc : Loc) (t : GoType) (v : Val) (pfx : String) (fl : FlagSet),
      distinctWithin loc fl (fieldsAsFlags W S n loc t v pfx fl).flags
  | 0, loc, t, v, pfx, fl => by simpa [fieldsAsFlags] using distinctWithin_refl _ _
  | n + 1, loc, t, v, pfx, fl => by
    cases t with
    | struct s m fs =>
      rw [fieldsAsFlags_struct]
      obtain ⟨new, h1, h2, h3⟩ := walkFields_distinct (fieldsAsFlags_distinct W S n) W S pfx
        loc fs 0 v.fields fl
      refine ⟨new, h1, h2, fun g hg => ?_⟩
      obtain ⟨j, rel, _, h⟩ := h3 g hg
      exact ⟨.field j :: rel, h⟩
    | basic s k ms => simpa [fieldsAsFlags] using distinctWithin_refl _ _
    | ptr nm et => simpa [fieldsAsFlags] using distinctWithin_refl _ _

/-! ## Registrations and leaf fields -/

theorem leavesOfFields_set (leaves : StructField → GoType → Nat → Val → List (Loc × String)) :
    ∀ (fs : List (StructField × GoType)) (i j : Nat) (vs : List Val) (x : Val), j < i →
      leavesOfFields leaves fs i (vs.set j x) = leavesOfFields leaves fs i vs
  | [], _, _, _, _, _ => rfl
  | q :: rest, i, j, vs, x, h => by
    have hf : Val.Field (vs.set j x) q.2 i = Val.Field vs q.2 i := by
      unfold Val.Field
      simp only [List.getD_eq_getElem?_getD]
      rw [List.getElem?_set_ne (by omega)]
    simp only [leavesOfFields, hf]
    rw [leavesOfFields_set leaves rest (i + 1) j vs x (by omega)]

theorem timeDurationType_kind : timeDurationType.kind = .int64 := rfl

/-- One iteration that returns nil has registered the leaves of the field, in order. -/
theorem visitField_leaves {recur : Walk}
    {members : Loc → GoType → Val → String → List (Loc × String)}
    (hrec : ∀ (loc : Loc) (t : GoType) (v : Val) (pfx : String) (fl : FlagSet),
      (recur loc t v pfx fl).out = .nil →
      (recur loc t v pfx fl).flags.map Flag.binding
        = fl.map Flag.binding ++ members loc t v pfx)
    (W : Env) (S : TagsSettings) (pfx : String) (loc : Loc) (f : StructField) (ft : GoType)
    (i : Nat) (fv : Val) (fl : FlagSet)
    (hnil : (visitField recur W S pfx loc f ft i fv fl).out = .nil) :
    (visitField recur W S pfx loc f ft i fv fl).flags.map Flag.binding
      = fl.map Flag.binding ++ leavesOfField members W S pfx loc f ft i fv := by
  cases hget : getPointerToField f ft fv with
  | error msg => simp [visitField, hget] at hnil
  | ok r =>
    obtain ⟨p, fv1⟩ := r
    by_cases hskip : p.elemCanSet = false ∨ f.Get S.Ignored = "true"
    · rw [visitField_skipped hget hskip]
      simp only [leavesOfField, hget]
      cases p.elem <;> simp [hskip]
    · have hskip2 := hskip
      simp only [not_or, Bool.not_eq_false] at hskip2
      cases he : p.elem with
      | none => simp [PointerValue.elemCanSet, he] at hskip2
      | some e =>
        rw [visitField_visited hget he hskip2.1 hskip2.2] at hnil ⊢
        simp only [leavesOfField, hget, he, hskip, if_false]
        by_cases hleaf : asValue ⟨p.typ, loc ++ .field i :: e.rel⟩ p.typ ≠ none
            ∨ e.typ.kind ≠ .struct
        · rcases registerField_leaf recur W S pfx loc f i p e fv1 fl hleaf with
            ⟨_, flag, h, hn, hl⟩ | ⟨h, _⟩
          · have hcond : (asValue ⟨p.typ, loc ++ .field i :: e.rel⟩ p.typ).isSome = true
                ∨ e.typ = timeDurationType ∨ supportedKind e.typ.kind = true := by
              cases hval : asValue ⟨p.typ, loc ++ .field i :: e.rel⟩ p.typ with
              | some value => exact Or.inl rfl
              | none =>
                right
                have hk : e.typ.kind ≠ .struct := by
                  rcases hleaf with h | h
                  · exact absurd hval h
                  · exact h
                by_cases hd : e.typ = timeDurationType
                · exact Or.inl hd
                · right
                  by_contra hs
                  simp only [Bool.not_eq_true] at hs
                  rw [registerField_byKind hval hk hd, byKind_unsupported hs] at hnil
                  simp [errorsIs, unsupportedTypeErr] at hnil
            rw [if_pos hcond, h]
            simp [Flag.binding, hn, hl]
          · exact absurd hnil h
        · simp only [ne_eq, not_or, not_not] at hleaf
          obtain ⟨hval, hk⟩ := hleaf
          have hcond : ¬ ((asValue ⟨p.typ, loc ++ .field i :: e.rel⟩ p.typ).isSome = true
                ∨ e.typ = timeDurationType ∨ supportedKind e.typ.kind = true) := by
            rw [hval, hk]
            simp only [Option.isSome_none, Bool.false_eq_true, supportedKind, false_or, or_false]
            intro hd
            rw [hd, timeDurationType_kind] at hk
            exact absurd hk (by decide)
          rw [if_neg hcond, if_pos hk]
          rw [registerField_struct hval hk] at hnil ⊢
          have hr := hrec (loc ++ .field i :: e.rel) e.typ e.val
            (if f.Anonymous then pfx else flagNameOf W S pfx f) fl
          generalize recur (loc ++ .field i :: e.rel) e.typ e.val
            (if f.Anonymous then pfx else flagNameOf W S pfx f) fl = R at hnil hr ⊢
          obtain ⟨o, val, fls⟩ := R
          cases o with
          | nil => simpa using hr rfl
          | error err => simp at hnil
          | panic msg => simp at hnil
          | outOfFuel => simp at hnil

theorem walkFields_leaves {visit : StructField → GoType → Nat → Val → FlagSet → Result}
    {leaves : StructField → GoType → Nat → Val → List (Loc × String)}
    (hvis : ∀ (f : StructField) (ft : GoType) (i : Nat) (fv : Val) (fl : FlagSet),
      (visit f ft i fv fl).out = .nil →
      (visit f ft i fv fl).flags.map Flag.binding = fl.map Flag.binding ++ leaves f ft i fv) :
    ∀ (fs : List (StructField × GoType)) (i : Nat) (vs : List Val) (fl : FlagSet),
      (walkFields visit fs i vs fl).1 = .nil →
      (walkFields visit fs i vs fl).2.2.map Flag.binding
        = fl.map Flag.binding ++ leavesOfFields leaves fs i vs
  | [], i, vs, fl, _ => by simp [walkFields, leavesOfFields]
  | q :: rest, i, vs, fl, h => by
    unfold walkFields at h ⊢
    dsimp only at h ⊢
    cases hout : (visit q.1 q.2 i (Val.Field vs q.2 i) fl).out with
    | nil =>
      simp only [hout] at h ⊢
      rw [walkFields_leaves hvis rest (i + 1) _ _ h, hvis _ _ _ _ _ hout,
        leavesOfFields_set leaves rest (i + 1) i vs _ (by omega)]
      simp [leavesOfFields]
    | error err => simp [hout] at h
    | panic msg => simp [hout] at h
    | outOfFuel => simp [hout] at h

/-- A walk that returns nil has registered the leaf fields of the structure, one
registration per leaf, in depth-first declaration order, after the registrations it
started with. -/
theorem fieldsAsFlags_leaves (W : Env) (S : TagsSettings) :
    ∀ (n : Nat) (loc : Loc) (t : GoType) (v : Val) (pfx : String) (fl : FlagSet),
      (fieldsAsFlags W S n loc t v pfx fl).out = .nil →
      (fieldsAsFlags W S n loc t v pfx fl).flags.map Flag.binding
        = fl.map Flag.binding ++ leafFields W S n loc t v pfx
  | 0, loc, t, v, pfx, fl, h => by simp [fieldsAsFlags] at h
  | n + 1, loc, t, v, pfx, fl, h => by
    cases t with
    | struct s m fs =>
      rw [fieldsAsFlags_struct] at h ⊢
      simp only [leafFields]
      exact walkFields_leaves
        (fun f ft i fv fl2 => visitField_leaves (fieldsAsFlags_leaves W S n) W S pfx loc f ft i
          fv fl2) fs 0 v.fields fl h
    | basic s k ms => simp [fieldsAsFlags] at h
    | ptr nm et => simp [fieldsAsFlags] at h

/-! ## Late binding and defined types -/

/-- Kind dispatch on a pointee of a defined type, reached through an interface field: with
`type Level int` and a field `Sub interface{}` holding a `*Level`, `byKind` asserts that the
pointer is a `*int` and the walk panics. -/
theorem late_bound_named_type_panics (W : Env) (n : Nat) :
    (MakeFlags W (n + 1)
        (.struct "Config" [] [(⟨"Sub", "", [], false⟩, Sample.anyT)])
        (.struct [.iface (some ((GoType.basic "main.Level" .int []).PtrTo,
          .ptr (some (.int 0))))])).out
      = .panic "interface conversion: interface \x7b\x7d is *main.Level, not *int" := by
  rfl

/-! ## Claims -/

/-- C5: `asValue` picks the adapter by fixed precedence.  A type with the native settable
capability gives the pointer itself, whatever else it has; otherwise a type with the text
pair gives the text wrapper, also when it has the binary pair; otherwise a type with the
binary pair gives the binary wrapper; the result is nil exactly when the type has none of
the three. -/
theorem asValue_precedence (ptr : Pointer) (t : GoType) :
    (t.Implements flagsValueInterfaceType = true → asValue ptr t = some (.native ptr)) ∧
    (t.Implements flagsValueInterfaceType = false →
      t.Implements encodingTextInterfaceType = true → asValue ptr t = some (.textWrapper ptr)) ∧
    (t.Implements flagsValueInterfaceType = false →
      t.Implements encodingTextInterfaceType = false →
      t.Implements encodingBinaryInterfaceType = true →
      asValue ptr t = some (.binaryWrapper ptr)) ∧
    (asValue ptr t = none ↔
      (t.Implements flagsValueInterfaceType = false ∧
       t.Implements encodingTextInterfaceType = false ∧
       t.Implements encodingBinaryInterfaceType = false)) := by
  unfold asValue
  refine ⟨?_, ?_, ?_, ?_⟩
  · intro h; simp [h]
  · intro h1 h2; simp [h1, h2]
  · intro h1 h2 h3; simp [h1, h2, h3]
  · cases h1 : t.Implements flagsValueInterfaceType <;>
      cases h2 : t.Implements encodingTextInterfaceType <;>
      cases h3 : t.Implements encodingBinaryInterfaceType <;> simp

/-- Witness of C5: `*main.Level` has all three capabilities and is used natively,
`*time.Time` has the text and the binary pair and gets the text wrapper, `*url.URL` gets the
binary wrapper. -/
theorem asValue_precedence_witness :
    asValue ⟨Sample.levelT.PtrTo, []⟩ Sample.levelT.PtrTo
      = some (.native ⟨Sample.levelT.PtrTo, []⟩) ∧
    asValue ⟨Sample.timeT.PtrTo, []⟩ Sample.timeT.PtrTo
      = some (.textWrapper ⟨Sample.timeT.PtrTo, []⟩) ∧
    asValue ⟨Sample.urlT.PtrTo, []⟩ Sample.urlT.PtrTo
      = some (.binaryWrapper ⟨Sample.urlT.PtrTo, []⟩) :=
  ⟨(asValue_precedence _ _).1 (by decide),
   (asValue_precedence _ _).2.1 (by decide) (by decide),
   (asValue_precedence _ _).2.2.1 (by decide) (by decide) (by decide)⟩

/-- C6: `getName` returns the value of the name-override tag whenever the key is present in
the field's tag, also when that value is the empty string, and the lower-cased identifier
when the key is absent; the key is present exactly when some pair of the tag has it. -/
theorem getName_override (W : Env) (S : TagsSettings) (field : StructField) :
    (∀ override, field.Lookup S.NameOverride = some override →
      S.getName W field = override) ∧
    (field.Lookup S.NameOverride = none → S.getName W field = W.ToLower field.Name) ∧
    (field.Lookup S.NameOverride = none ↔ S.NameOverride ∉ field.Tag.map Prod.fst) := by
  refine ⟨?_, ?_, ?_⟩
  · intro o h; simp [TagsSettings.getName, h]
  · intro h; simp [TagsSettings.getName, h]
  · simp only [StructField.Lookup, Option.map_eq_none', List.find?_eq_none, decide_eq_true_eq,
      List.mem_map, Prod.exists, exists_and_right, exists_eq_right, not_exists]
    constructor
    · intro h x hx
      exact h (S.NameOverride, x) hx rfl
    · intro h kv hkv heq
      exact h kv.2 (by rw [← heq]; exact hkv)

/-- Witness of C6: an empty override is returned as it is, and without the key the
identifier is lower-cased. -/
theorem getName_override_witness :
    DefaultTagsNaming.getName Sample.env ⟨"Name", "", [("name", "")], false⟩ = "" ∧
    DefaultTagsNaming.getName Sample.env ⟨"Name", "", [("desc", "x")], false⟩ = "name" :=
  ⟨(getName_override Sample.env DefaultTagsNaming ⟨"Name", "", [("name", "")], false⟩).1 ""
      (by decide),
   (getName_override Sample.env DefaultTagsNaming ⟨"Name", "", [("desc", "x")], false⟩).2.1
      (by decide)⟩

/-- C7: for a field whose storage can be set (hence exported), the walk skips the field on
account of its ignore tag exactly when the value of the tag is the string "true".  Then the
iteration adds no registration, makes no recursive call and returns no error.  With any
other value the body of the loop runs; the values "True", "TRUE", "1", "false" and an absent
tag are such values. -/
theorem ignore_tag_exact (W : Env) (S : TagsSettings) (n : Nat) (loc : Loc) (s : String)
    (m : List Method) (pre : List (StructField × GoType)) (v : Val) (pfx : String)
    (fl0 : FlagSet) (v1 : Val) (fl1 : FlagSet) (f : StructField) (ft : GoType)
    (p : PointerValue) (fv1 : Val) (e : ElemValue)
    (hpre : fieldsAsFlags W S (n + 1) loc (.struct s m pre) v pfx fl0 = ⟨.nil, v1, fl1⟩)
    (hget : getPointerToField f ft (Val.Field v.fields ft pre.length) = .ok (p, fv1))
    (he : p.elem = some e) (hcs : p.elemCanSet = true) :
    (f.Get S.Ignored = "true" →
      fieldsAsFlags W S (n + 1) loc (.struct s m (pre ++ [(f, ft)])) v pfx fl0
        = ⟨.nil, .struct (v1.fields.set pre.length fv1), fl1⟩) ∧
    (f.Get S.Ignored ≠ "true" →
      fieldsAsFlags W S (n + 1) loc (.struct s m (pre ++ [(f, ft)])) v pfx fl0
        = ⟨(registerField (fieldsAsFlags W S n) W S pfx loc f pre.length p e fv1 fl1).out,
           .struct (v1.fields.set pre.length
             (registerField (fieldsAsFlags W S n) W S pfx loc f pre.length p e fv1 fl1).val),
           (registerField (fieldsAsFlags W S n) W S pfx loc f pre.length p e fv1 fl1).flags⟩) ∧
    (∀ x ∈ ["True", "TRUE", "1", "false"], f.Lookup S.Ignored = some x →
      f.Get S.Ignored ≠ "true") ∧
    (f.Lookup S.Ignored = none → f.Get S.Ignored ≠ "true") := by
  refine ⟨?_, ?_, ?_, ?_⟩
  · intro hign
    rw [fieldsAsFlags_snoc f ft hpre, visitField_skipped hget (Or.inr hign)]
  · intro hign
    rw [fieldsAsFlags_snoc f ft hpre, visitField_visited hget he hcs hign]
  · intro x hx hl
    simp only [StructField.Get, hl, Option.getD_some]
    simp only [List.mem_cons, List.mem_singleton, List.not_mem_nil, or_false] at hx
    rcases hx with h | h | h | h <;> subst h <;> decide
  · intro hl
    simp [StructField.Get, hl]

/-- Witness of C7: in `struct { A int; Tag string }` the field `Tag` is skipped with
`ignored:"true"` and registered with `ignored:"True"`. -/
theorem ignore_tag_exact_witness :
    MakeFlags Sample.env 1
        (.struct "Config" [] ([(⟨"A", "", [], false⟩, Sample.intT)]
          ++ [(⟨"Tag", "", [("ignored", "true")], false⟩, Sample.stringT)]))
        (.struct [.int 7, .str "x"])
      = ⟨.nil, .struct [.int 0, .str "x"], [.IntVar [.field 0] "a" 0 ""]⟩ ∧
    MakeFlags Sample.env 1
        (.struct "Config" [] ([(⟨"A", "", [], false⟩, Sample.intT)]
          ++ [(⟨"Tag", "", [("ignored", "True")], false⟩, Sample.stringT)]))
        (.struct [.int 7, .str "x"])
      = ⟨.nil, .struct [.int 0, .str ""],
          [.IntVar [.field 0] "a" 0 "", .StringVar [.field 1] "tag" "" ""]⟩ :=
  ⟨(ignore_tag_exact Sample.env DefaultTagsNaming 0 [] "Config" []
      [(⟨"A", "", [], false⟩, Sample.intT)] (.struct [.int 7, .str "x"]) "" []
      (.struct [.int 0, .str "x"]) [.IntVar [.field 0] "a" 0 ""]
      ⟨"Tag", "", [("ignored", "true")], false⟩ Sample.stringT
      ⟨Sample.stringT.PtrTo, false, some ⟨Sample.stringT, .str "x", [], true⟩⟩
      (.str "x") ⟨Sample.stringT, .str "x", [], true⟩
      rfl rfl rfl rfl).1 (by decide),
   (ignore_tag_exact Sample.env DefaultTagsNaming 0 [] "Config" []
      [(⟨"A", "", [], false⟩, Sample.intT)] (.struct [.int 7, .str "x"]) "" []
      (.struct [.int 0, .str "x"]) [.IntVar [.field 0] "a" 0 ""]
      ⟨"Tag", "", [("ignored", "True")], false⟩ Sample.stringT
      ⟨Sample.stringT.PtrTo, false, some ⟨Sample.stringT, .str "x", [], true⟩⟩
      (.str "x") ⟨Sample.stringT, .str "x", [], true⟩
      rfl rfl rfl rfl).2.1 (by decide)⟩

/-- C4, counterexample: in `struct { T time.Time }` the field `T` is visited and its pointer
type has the text-marshal capability, but with a time that `MarshalText` rejects (a year
after 9999) `flags.Var` panics in `textWrapper.String`: the walk does not register one flag
for the field, it panics and registers nothing. -/
theorem settable_value_marshal_panics :
    asValue ⟨Sample.timeT.PtrTo, [.field 0]⟩ Sample.timeT.PtrTo
      = some (.textWrapper ⟨Sample.timeT.PtrTo, [.field 0]⟩) ∧
    textWrapper.toStr Sample.env (some ⟨Sample.timeT.PtrTo, [.field 0]⟩)
        (.struct [.str "10000-01-01T00:00:00Z"])
      = .error "Time.MarshalText: year outside of range [0,9999]" ∧
    MakeFlags Sample.env 1
        (.struct "Config" [] [(⟨"T", "", [], false⟩, Sample.timeT)])
        (.struct [.struct [.str "10000-01-01T00:00:00Z"]])
      = ⟨.panic "Time.MarshalText: year outside of range [0,9999]",
          .struct [.struct [.str "10000-01-01T00:00:00Z"]], []⟩ :=
  ⟨rfl, rfl, rfl⟩

/-- C4, amended: the settable-value check comes first.  For a visited field whose pointer
type has a settable capability, also when the field is of structure kind, the walk does
not recurse into the members.  With an empty default string `Set` is not called and the
field keeps its content; with a non-empty one `Set` is called with it, and when `Set` fails
nothing is registered.  When `Set` is not called or succeeds, `flags.Var` calls `String()` on
the adapter: when that succeeds the walk registers exactly one flag, under the composed name
of the field and bound to the adapter; when it panics (the marshaler of a wrapper fails on
the content of the field) the walk panics with that error and nothing is registered. -/
theorem settable_value_first (W : Env) (S : TagsSettings) (n : Nat) (loc : Loc) (s : String)
    (m : List Method) (pre : List (StructField × GoType)) (v : Val) (pfx : String)
    (fl0 : FlagSet) (v1 : Val) (fl1 : FlagSet) (f : StructField) (ft : GoType)
    (p : PointerValue) (fv1 : Val) (e : ElemValue) (value : FlagValue)
    (hpre : fieldsAsFlags W S (n + 1) loc (.struct s m pre) v pfx fl0 = ⟨.nil, v1, fl1⟩)
    (hget : getPointerToField f ft (Val.Field v.fields ft pre.length) = .ok (p, fv1))
    (he : p.elem = some e) (hcs : p.elemCanSet = true) (hign : f.Get S.Ignored ≠ "true")
    (hval : asValue ⟨p.typ, loc ++ .field pre.length :: e.rel⟩ p.typ = some value) :
    (defaultStringFlag f S = "" → ∀ data : String, value.toStr W e.val = .ok data →
      fieldsAsFlags W S (n + 1) loc (.struct s m (pre ++ [(f, ft)])) v pfx fl0
        = ⟨.nil, .struct (v1.fields.set pre.length fv1),
            fl1 ++ [.Var value (flagNameOf W S pfx f) (usageOf e.typ (f.Get S.Description))]⟩) ∧
    (defaultStringFlag f S ≠ "" →
      (value.Set W e.val (defaultStringFlag f S)).2 = none →
      ∀ data : String,
        value.toStr W (value.Set W e.val (defaultStringFlag f S)).1 = .ok data →
      fieldsAsFlags W S (n + 1) loc (.struct s m (pre ++ [(f, ft)])) v pfx fl0
        = ⟨.nil,
            .struct (v1.fields.set pre.length
              (fv1.write e.rel (value.Set W e.val (defaultStringFlag f S)).1)),
            fl1 ++ [.Var value (flagNameOf W S pfx f) (usageOf e.typ (f.Get S.Description))]⟩) ∧
    (defaultStringFlag f S ≠ "" → ∀ err : String,
      (value.Set W e.val (defaultStringFlag f S)).2 = some err →
      fieldsAsFlags W S (n + 1) loc (.struct s m (pre ++ [(f, ft)])) v pfx fl0
        = ⟨.error (.IncorrectDefaultValue f.Name (some e.typ) (defaultStringFlag f S)
              (.external err)),
            .struct (v1.fields.set pre.length
              (fv1.write e.rel (value.Set W e.val (defaultStringFlag f S)).1)),
            fl1⟩) ∧
    (defaultStringFlag f S = "" → ∀ msg : String, value.toStr W e.val = .error msg →
      fieldsAsFlags W S (n + 1) loc (.struct s m (pre ++ [(f, ft)])) v pfx fl0
        = ⟨.panic msg, .struct (v1.fields.set pre.length fv1), fl1⟩) ∧
    (defaultStringFlag f S ≠ "" →
      (value.Set W e.val (defaultStringFlag f S)).2 = none →
      ∀ msg : String,
        value.toStr W (value.Set W e.val (defaultStringFlag f S)).1 = .error msg →
      fieldsAsFlags W S (n + 1) loc (.struct s m (pre ++ [(f, ft)])) v pfx fl0
        = ⟨.panic msg,
            .struct (v1.fields.set pre.length
              (fv1.write e.rel (value.Set W e.val (defaultStringFlag f S)).1)),
            fl1⟩) ∧
    value.pointer = ⟨p.typ, loc ++ .field pre.length :: e.rel⟩ := by
  have hR := fieldsAsFlags_visited hpre hget he hcs hign
  have hself := getPointerToField_write_self hget he
  have hc := registerField_settable_cases (fieldsAsFlags W S n) W S pfx loc f pre.length p e
    fv1 fl1 value hval
  refine ⟨?_, ?_, ?_, ?_, ?_, asValue_pointer hval⟩
  · intro hd data hs
    simp only [hd, ne_eq, not_true_eq_false, if_false, hself, hs] at hc
    rcases hc with ⟨err, h, _⟩ | ⟨_, msg, h, _⟩ | ⟨_, data2, _, h⟩
    · simp at h
    · simp at h
    · rw [hR, h]
  · intro hd hok data hs
    simp only [hd, ne_eq, not_false_eq_true, if_true, hok, hs] at hc
    rcases hc with ⟨err, h, _⟩ | ⟨_, msg, h, _⟩ | ⟨_, data2, _, h⟩
    · simp at h
    · simp at h
    · rw [hR, h]
  · intro hd err herr
    simp only [hd, ne_eq, not_false_eq_true, if_true, herr] at hc
    rcases hc with ⟨err2, h1, h⟩ | ⟨h, _⟩ | ⟨h, _⟩
    · simp only [Option.some.injEq] at h1
      subst h1
      rw [hR, h]
    · simp at h
    · simp at h
  · intro hd msg hs
    simp only [hd, ne_eq, not_true_eq_false, if_false, hself, hs] at hc
    rcases hc with ⟨err, h, _⟩ | ⟨_, msg2, h1, h⟩ | ⟨_, data2, h, _⟩
    · simp at h
    · simp only [Except.error.injEq] at h1
      subst h1
      rw [hR, h]
    · simp at h
  · intro hd hok msg hs
    simp only [hd, ne_eq, not_false_eq_true, if_true, hok, hs] at hc
    rcases hc with ⟨err, h, _⟩ | ⟨_, msg2, h1, h⟩ | ⟨_, data2, h, _⟩
    · simp at h
    · simp only [Except.error.injEq] at h1
      subst h1
      rw [hR, h]
    · simp at h

/-- Witness of C4, amended: a field `U url.URL` with `default:"http"` gets one flag `u`
bound to the binary wrapper and none for the member `Scheme`. -/
theorem settable_value_first_witness :
    MakeFlags Sample.env 1
        (.struct "Config" [] ([] ++ [(⟨"U", "", [("default", "http")], false⟩, Sample.urlT)]))
        (.struct [.struct [.str ""]])
      = ⟨.nil, .struct [.struct [.str "http"]],
          [.Var (.binaryWrapper ⟨Sample.urlT.PtrTo, [.field 0]⟩) "u" "`url.URL` "]⟩ :=
  (settable_value_first Sample.env DefaultTagsNaming 0 [] "Config" [] []
      (.struct [.struct [.str ""]]) "" [] (.struct [.struct [.str ""]]) []
      ⟨"U", "", [("default", "http")], false⟩ Sample.urlT
      ⟨Sample.urlT.PtrTo, false, some ⟨Sample.urlT, .struct [.str ""], [], true⟩⟩
      (.struct [.str ""]) ⟨Sample.urlT, .struct [.str ""], [], true⟩
      (.binaryWrapper ⟨Sample.urlT.PtrTo, [.field 0]⟩)
      rfl rfl rfl rfl (by decide) (by decide)).2.1 (by decide) rfl "http" rfl

/-- C3: when the default string `d` of a visited field cannot be converted (the adapter's
`Set` fails on the non-empty `d` for a settable-value field, or the duration parser fails
for a `time.Duration` field, or the default parser of the kind fails for a bool, integer or
float field), `fieldsAsFlags` returns an `IncorrectDefaultValue` whose `Field` is the
identifier of the field, whose `Type` is the value type, whose `Value` is `d` and whose
`Reason`, also the result of `Unwrap`, is the error of `Set` or of the parser; no flag is
registered for the field: the registrations are those made before it. -/
theorem bad_default_error (W : Env) (S : TagsSettings) (n : Nat) (loc : Loc) (s : String)
    (m : List Method) (pre post : List (StructField × GoType)) (v : Val) (pfx : String)
    (fl0 : FlagSet) (v1 : Val) (fl1 : FlagSet) (f : StructField) (ft : GoType)
    (p : PointerValue) (fv1 : Val) (e : ElemValue) (msg : String)
    (hpre : fieldsAsFlags W S (n + 1) loc (.struct s m pre) v pfx fl0 = ⟨.nil, v1, fl1⟩)
    (hget : getPointerToField f ft (Val.Field v.fields ft pre.length) = .ok (p, fv1))
    (he : p.elem = some e) (hcs : p.elemCanSet = true) (hign : f.Get S.Ignored ≠ "true")
    (hfail :
      (∃ value, asValue ⟨p.typ, loc ++ .field pre.length :: e.rel⟩ p.typ = some value ∧
        defaultStringFlag f S ≠ "" ∧
        (value.Set W e.val (defaultStringFlag f S)).2 = some msg) ∨
      (asValue ⟨p.typ, loc ++ .field pre.length :: e.rel⟩ p.typ = none ∧
        e.typ = timeDurationType ∧
        (defaultDuration W (defaultStringFlag f S)).2 = some msg) ∨
      (asValue ⟨p.typ, loc ++ .field pre.length :: e.rel⟩ p.typ = none ∧
        e.typ.kind ≠ .struct ∧ e.typ ≠ timeDurationType ∧
        kindParserError W e.typ.kind (defaultStringFlag f S) = some msg)) :
    (fieldsAsFlags W S (n + 1) loc (.struct s m (pre ++ (f, ft) :: post)) v pfx fl0).out
      = .error (.IncorrectDefaultValue f.Name (some e.typ) (defaultStringFlag f S)
          (.external msg)) ∧
    (fieldsAsFlags W S (n + 1) loc (.struct s m (pre ++ (f, ft) :: post)) v pfx fl0).flags
      = fl1 ∧
    (GoError.IncorrectDefaultValue f.Name (some e.typ) (defaultStringFlag f S)
      (.external msg)).Unwrap = some (.external msg) := by
  have hR := fieldsAsFlags_visited hpre hget he hcs hign
  have hreg :
      (registerField (fieldsAsFlags W S n) W S pfx loc f pre.length p e fv1 fl1).out
        = .error (.IncorrectDefaultValue f.Name (some e.typ) (defaultStringFlag f S)
            (.external msg)) ∧
      (registerField (fieldsAsFlags W S n) W S pfx loc f pre.length p e fv1 fl1).flags
        = fl1 := by
    rcases hfail with ⟨value, hval, hd, hset⟩ | ⟨hval, hdur, hpar⟩ | ⟨hval, hk, hdur, hpar⟩
    · rw [registerField_settable hval]
      simp only [hd, ne_eq, not_false_eq_true, if_true, hset, and_self]
    · rw [registerField_duration hval hdur]
      split
      · rename_i x err heq
        rw [heq] at hpar
        simp only [Option.some.injEq] at hpar
        subst hpar
        rw [hdur]
        exact ⟨rfl, rfl⟩
      · rename_i x heq
        rw [heq] at hpar
        simp at hpar
    · rw [registerField_byKind hval hk hdur, byKind_parser_error hpar]
      simp [errorsIs, unsupportedTypeErr, errorsAsIncorrectDefaultValue]
  have hout : (fieldsAsFlags W S (n + 1) loc (.struct s m (pre ++ [(f, ft)])) v pfx fl0).out
      = .error (.IncorrectDefaultValue f.Name (some e.typ) (defaultStringFlag f S)
          (.external msg)) := by
    rw [hR]; exact hreg.1
  have hfl : (fieldsAsFlags W S (n + 1) loc (.struct s m (pre ++ [(f, ft)])) v pfx fl0).flags
      = fl1 := by
    rw [hR]; exact hreg.2
  rw [fieldsAsFlags_abort_at post (by rw [hout]; simp)]
  exact ⟨hout, hfl, rfl⟩

/-- Witness of C3: in `struct { A int; Width int; B int }` with `default:"x"` on `Width` the
walk returns the `IncorrectDefaultValue` of `Width` and keeps only the flag of `A`. -/
theorem bad_default_error_witness :
    (MakeFlags Sample.env 1
        (.struct "Config" [] ([(⟨"A", "", [], false⟩, Sample.intT)]
          ++ (⟨"Width", "", [("default", "x")], false⟩, Sample.intT)
            :: [(⟨"B", "", [], false⟩, Sample.intT)]))
        (.struct [.int 7, .int 8, .int 9])).out
      = .error (.IncorrectDefaultValue "Width" (some Sample.intT) "x"
          (.external "strconv.ParseInt: invalid syntax")) ∧
    (MakeFlags Sample.env 1
        (.struct "Config" [] ([(⟨"A", "", [], false⟩, Sample.intT)]
          ++ (⟨"Width", "", [("default", "x")], false⟩, Sample.intT)
            :: [(⟨"B", "", [], false⟩, Sample.intT)]))
        (.struct [.int 7, .int 8, .int 9])).flags
      = [.IntVar [.field 0] "a" 0 ""] :=
  ⟨(bad_default_error Sample.env DefaultTagsNaming 0 [] "Config" []
      [(⟨"A", "", [], false⟩, Sample.intT)] [(⟨"B", "", [], false⟩, Sample.intT)]
      (.struct [.int 7, .int 8, .int 9]) "" []
      (.struct [.int 0, .int 8, .int 9]) [.IntVar [.field 0] "a" 0 ""]
      ⟨"Width", "", [("default", "x")], false⟩ Sample.intT
      ⟨Sample.intT.PtrTo, false, some ⟨Sample.intT, .int 8, [], true⟩⟩
      (.int 8) ⟨Sample.intT, .int 8, [], true⟩ "strconv.ParseInt: invalid syntax"
      rfl rfl rfl rfl (by decide)
      (Or.inr (Or.inr ⟨by decide, by decide, by decide, by decide⟩))).1,
   (bad_default_error Sample.env DefaultTagsNaming 0 [] "Config" []
      [(⟨"A", "", [], false⟩, Sample.intT)] [(⟨"B", "", [], false⟩, Sample.intT)]
      (.struct [.int 7, .int 8, .int 9]) "" []
      (.struct [.int 0, .int 8, .int 9]) [.IntVar [.field 0] "a" 0 ""]
      ⟨"Width", "", [("default", "x")], false⟩ Sample.intT
      ⟨Sample.intT.PtrTo, false, some ⟨Sample.intT, .int 8, [], true⟩⟩
      (.int 8) ⟨Sample.intT, .int 8, [], true⟩ "strconv.ParseInt: invalid syntax"
      rfl rfl rfl rfl (by decide)
      (Or.inr (Or.inr ⟨by decide, by decide, by decide, by decide⟩))).2.1⟩

/-- C9: for a visited field without settable capability whose kind is not structure and is
outside string, bool, int, int64, uint, uint64, float64 (so its type is not the duration
type either), `byKind` returns the distinguished unsupported-type error and registers
nothing, and `fieldsAsFlags` returns an error whose message names the field and its type and
which is not an `IncorrectDefaultValue`; for the seven listed kinds `byKind` never returns
the unsupported-type error. -/
theorem unsupported_kind_error (W : Env) (S : TagsSettings) (n : Nat) (loc : Loc) (s : String)
    (m : List Method) (pre post : List (StructField × GoType)) (v : Val) (pfx : String)
    (fl0 : FlagSet) (v1 : Val) (fl1 : FlagSet) (f : StructField) (ft : GoType)
    (p : PointerValue) (fv1 : Val) (e : ElemValue)
    (hpre : fieldsAsFlags W S (n + 1) loc (.struct s m pre) v pfx fl0 = ⟨.nil, v1, fl1⟩)
    (hget : getPointerToField f ft (Val.Field v.fields ft pre.length) = .ok (p, fv1))
    (he : p.elem = some e) (hcs : p.elemCanSet = true) (hign : f.Get S.Ignored ≠ "true")
    (hval : asValue ⟨p.typ, loc ++ .field pre.length :: e.rel⟩ p.typ = none)
    (hk : e.typ.kind ≠ .struct) (hu : supportedKind e.typ.kind = false) :
    (∀ (fl : FlagSet) (ptr : Pointer) (val : Val) (flagName d desc : String),
      byKind W e.typ fl ptr val flagName d desc = ⟨.error unsupportedTypeErr, val, fl⟩) ∧
    fieldsAsFlags W S (n + 1) loc (.struct s m (pre ++ (f, ft) :: post)) v pfx fl0
      = ⟨.error (.unsupportedField f.Name e.typ), .struct (v1.fields.set pre.length fv1), fl1⟩ ∧
    (GoError.unsupportedField f.Name e.typ).Error W
      = "field " ++ f.Name ++ " has unsupported type " ++ e.typ.toStr
        ++ ", type should implements flag.Value or be bool, (u)int(64), string, float64" ∧
    errorsAsIncorrectDefaultValue (.unsupportedField f.Name e.typ) = none ∧
    (∀ (t : GoType) (fl : FlagSet) (ptr : Pointer) (val : Val) (flagName d desc : String),
      supportedKind t.kind = true →
      (byKind W t fl ptr val flagName d desc).out ≠ .error unsupportedTypeErr) := by
  have hd : e.typ ≠ timeDurationType := by
    intro h
    rw [h] at hu
    exact absurd hu (by decide)
  refine ⟨fun fl ptr val flagName d desc => byKind_unsupported hu, ?_, rfl, rfl,
    fun t fl ptr val flagName d desc h => byKind_supported h⟩
  have hsnoc : fieldsAsFlags W S (n + 1) loc (.struct s m (pre ++ [(f, ft)])) v pfx fl0
      = ⟨.error (.unsupportedField f.Name e.typ), .struct (v1.fields.set pre.length fv1),
          fl1⟩ := by
    rw [fieldsAsFlags_visited hpre hget he hcs hign, registerField_byKind hval hk hd,
      byKind_unsupported hu]
    simp [errorsIs, unsupportedTypeErr, getPointerToField_write_self hget he]
  rw [fieldsAsFlags_abort_at post (by rw [hsnoc]; simp), hsnoc]

/-- Witness of C9: in `struct { A int; Port int32; B int }` the walk fails on `Port` with
the unsupported-type error of that field, after registering `a`. -/
theorem unsupported_kind_error_witness :
    MakeFlags Sample.env 1
        (.struct "Config" [] ([(⟨"A", "", [], false⟩, Sample.intT)]
          ++ (⟨"Port", "", [], false⟩, Sample.int32T)
            :: [(⟨"B", "", [], false⟩, Sample.intT)]))
        (.struct [.int 7, .int 8, .int 9])
      = ⟨.error (.unsupportedField "Port" Sample.int32T), .struct [.int 0, .int 8, .int 9],
          [.IntVar [.field 0] "a" 0 ""]⟩ ∧
    (GoError.unsupportedField "Port" Sample.int32T).Error Sample.env
      = "field Port has unsupported type int32, type should implements flag.Value or be bool, (u)int(64), string, float64" :=
  ⟨(unsupported_kind_error Sample.env DefaultTagsNaming 0 [] "Config" []
      [(⟨"A", "", [], false⟩, Sample.intT)] [(⟨"B", "", [], false⟩, Sample.intT)]
      (.struct [.int 7, .int 8, .int 9]) "" []
      (.struct [.int 0, .int 8, .int 9]) [.IntVar [.field 0] "a" 0 ""]
      ⟨"Port", "", [], false⟩ Sample.int32T
      ⟨Sample.int32T.PtrTo, false, some ⟨Sample.int32T, .int 8, [], true⟩⟩
      (.int 8) ⟨Sample.int32T, .int 8, [], true⟩
      rfl rfl rfl rfl (by decide) (by decide) (by decide) (by decide)).2.1,
   (unsupported_kind_error Sample.env DefaultTagsNaming 0 [] "Config" []
      [(⟨"A", "", [], false⟩, Sample.intT)] [(⟨"B", "", [], false⟩, Sample.intT)]
      (.struct [.int 7, .int 8, .int 9]) "" []
      (.struct [.int 0, .int 8, .int 9]) [.IntVar [.field 0] "a" 0 ""]
      ⟨"Port", "", [], false⟩ Sample.int32T
      ⟨Sample.int32T.PtrTo, false, some ⟨Sample.int32T, .int 8, [], true⟩⟩
      (.int 8) ⟨Sample.int32T, .int 8, [], true⟩
      rfl rfl rfl rfl (by decide) (by decide) (by decide) (by decide)).2.2.1⟩

/-- C2: for an exported, not ignored field of one of the predeclared types string, bool, int,
int64, uint, uint64, float64: when the default tag is absent or empty the flag is registered
with the zero value of the type as its default, and when the tag holds a valid literal the
flag is registered with the parsed literal; in both cases the flag has the composed name and
is bound to the field, the registration stays in the flag set, and the field holds that
default when the walk of the whole structure returns, whatever the later fields are. -/
theorem builtin_default_registered (W : Env) (S : TagsSettings) (n : Nat) (loc : Loc)
    (s : String) (m : List Method) (pre post : List (StructField × GoType)) (v : Val)
    (pfx : String) (fl0 : FlagSet) (v1 : Val) (fl1 : FlagSet) (f : StructField) (ft : GoType)
    (hpre : fieldsAsFlags W S (n + 1) loc (.struct s m pre) v pfx fl0 = ⟨.nil, v1, fl1⟩)
    (hft : ft ∈ builtinTypes) (hexp : f.PkgPath = "") (hign : f.Get S.Ignored ≠ "true")
    (hlen : pre.length < v.fields.length) :
    ((f.Lookup S.Default = none ∨ f.Lookup S.Default = some "") →
      ∃ flag : Flag,
        fieldsAsFlags W S (n + 1) loc (.struct s m (pre ++ [(f, ft)])) v pfx fl0
          = ⟨.nil, .struct (v1.fields.set pre.length (zero ft)), fl1 ++ [flag]⟩ ∧
        flag.value = some (zero ft) ∧ flag.name = flagNameOf W S pfx f ∧
        flag.loc = loc ++ [.field pre.length] ∧
        (fl1 ++ [flag]) <+:
          (fieldsAsFlags W S (n + 1) loc (.struct s m (pre ++ (f, ft) :: post)) v pfx fl0).flags ∧
        (fieldsAsFlags W S (n + 1) loc (.struct s m (pre ++ (f, ft) :: post)) v pfx fl0).val.read
          [.field pre.length] = some (zero ft)) ∧
    (∀ lit : String, f.Lookup S.Default = some lit → lit ≠ "" →
      literalError W ft.kind lit = none →
      ∃ flag : Flag,
        fieldsAsFlags W S (n + 1) loc (.struct s m (pre ++ [(f, ft)])) v pfx fl0
          = ⟨.nil, .struct (v1.fields.set pre.length (parsedLiteral W ft.kind lit)),
              fl1 ++ [flag]⟩ ∧
        flag.value = some (parsedLiteral W ft.kind lit) ∧ flag.name = flagNameOf W S pfx f ∧
        flag.loc = loc ++ [.field pre.length] ∧
        (fl1 ++ [flag]) <+:
          (fieldsAsFlags W S (n + 1) loc (.struct s m (pre ++ (f, ft) :: post)) v pfx fl0).flags ∧
        (fieldsAsFlags W S (n + 1) loc (.struct s m (pre ++ (f, ft) :: post)) v pfx fl0).val.read
          [.field pre.length] = some (parsedLiteral W ft.kind lit)) := by
  have hget := getPointerToField_builtin hft hexp (Val.Field v.fields ft pre.length)
  obtain ⟨hval, hk, hdur⟩ := asValue_builtin hft ⟨ft.PtrTo, loc ++ [.field pre.length]⟩
  have hlen1 : pre.length < v1.fields.length := by
    obtain ⟨hw, _⟩ := walkFields_of_fieldsAsFlags hpre
    have := walkFields_length (visitField (fieldsAsFlags W S n) W S pfx loc) pre 0 v.fields fl0
    rw [hw] at this
    simp only at this
    omega
  have hR := fieldsAsFlags_visited (e := ⟨ft, Val.Field v.fields ft pre.length, [], true⟩)
    hpre hget rfl rfl hign
  rw [registerField_byKind hval hk hdur] at hR
  simp only at hR
  have happ : (pre ++ [(f, ft)]) ++ post = pre ++ (f, ft) :: post := by simp
  have key : ∀ d : String, defaultStringFlag f S = d →
      (d = "" ∨ literalError W ft.kind d = none) →
      ∃ flag : Flag,
        fieldsAsFlags W S (n + 1) loc (.struct s m (pre ++ [(f, ft)])) v pfx fl0
          = ⟨.nil, .struct (v1.fields.set pre.length
              (if d = "" then zero ft else parsedLiteral W ft.kind d)), fl1 ++ [flag]⟩ ∧
        flag.value = some (if d = "" then zero ft else parsedLiteral W ft.kind d) ∧
        flag.name = flagNameOf W S pfx f ∧ flag.loc = loc ++ [.field pre.length] ∧
        (fl1 ++ [flag]) <+:
          (fieldsAsFlags W S (n + 1) loc (.struct s m (pre ++ (f, ft) :: post)) v pfx fl0).flags ∧
        (fieldsAsFlags W S (n + 1) loc (.struct s m (pre ++ (f, ft) :: post)) v pfx fl0).val.read
          [.field pre.length]
          = some (if d = "" then zero ft else parsedLiteral W ft.kind d) := by
    intro d hd hok
    obtain ⟨flag, hb, h1, h2, h3, _⟩ := byKind_builtin hft fl1 (loc ++ [.field pre.length])
      (Val.Field v.fields ft pre.length) (flagNameOf W S pfx f) d (f.Get S.Description) hok
    rw [hd, hb] at hR
    simp only [Val.write] at hR
    obtain ⟨hpref, hlenR, hgetR⟩ := fieldsAsFlags_extend post hR
    rw [happ] at hpref hlenR hgetR
    refine ⟨flag, hR, h1, h2, h3, hpref, ?_⟩
    rw [fieldsAsFlags_val_struct]
    apply Val.read_field
    · rw [hlenR, Val.fields_struct, List.length_set]
      exact hlen1
    · rw [hgetR pre.length default (by simp), Val.fields_struct, List.getD_eq_getElem?_getD,
        List.getElem?_set_self hlen1]
      rfl
  constructor
  · intro h0
    have hd : defaultStringFlag f S = "" := by
      rw [defaultStringFlag_eq]
      rcases h0 with h | h <;> simp [StructField.Get, h]
    simpa using key "" hd (Or.inl rfl)
  · intro lit hl hne hok
    have hd : defaultStringFlag f S = lit := by
      rw [defaultStringFlag_eq]
      simp [StructField.Get, hl]
    simpa [hne] using key lit hd (Or.inr hok)

/-- Witness of C2: the structure of `TestFieldsAsFlags_Defaults` with a third field;
`Height int` with `default:"21"` is registered with default 21 and holds 21 after the
walk. -/
theorem builtin_default_registered_witness :
    ∃ flag : Flag,
      flag.value = some (.int 21) ∧ flag.name = "height" ∧ flag.loc = [.field 1] ∧
      ([.IntVar [.field 0] "width" 25 ""] ++ [flag]) <+:
        (MakeFlags Sample.env 1
          (.struct "Config" [] ([(⟨"Width", "", [("default", "25")], false⟩, Sample.intT)]
            ++ (⟨"Height", "", [("default", "21")], false⟩, Sample.intT)
              :: [(⟨"Depth", "", [], false⟩, Sample.intT)]))
          (.struct [.int 7, .int 8, .int 9])).flags ∧
      (MakeFlags Sample.env 1
          (.struct "Config" [] ([(⟨"Width", "", [("default", "25")], false⟩, Sample.intT)]
            ++ (⟨"Height", "", [("default", "21")], false⟩, Sample.intT)
              :: [(⟨"Depth", "", [], false⟩, Sample.intT)]))
          (.struct [.int 7, .int 8, .int 9])).val.read [.field 1] = some (.int 21) :=
  Exists.imp (fun _ h => h.2)
    ((builtin_default_registered Sample.env DefaultTagsNaming 0 [] "Config" []
      [(⟨"Width", "", [("default", "25")], false⟩, Sample.intT)]
      [(⟨"Depth", "", [], false⟩, Sample.intT)]
      (.struct [.int 7, .int 8, .int 9]) "" [] (.struct [.int 25, .int 8, .int 9])
      [.IntVar [.field 0] "width" 25 ""]
      ⟨"Height", "", [("default", "21")], false⟩ Sample.intT
      rfl (by decide) rfl (by decide) (by decide)).2 "21" rfl (by decide) rfl)

/-- C1: name composition.  The walk with prefix `pfx` composes for a field the name
`getName` when `pfx` is empty and `pfx + "." + getName` otherwise.  A visited field that is
not walked as a structure (a leaf) is registered, whenever its iteration succeeds, as one
flag under that composed name; a structure field that is not embedded is walked with the
composed name as the prefix of its members; an embedded structure field is walked with the
prefix `pfx` unchanged, that is with the prefix its members would have as direct members of
the parent. -/
theorem name_composition (W : Env) (S : TagsSettings) (n : Nat) (loc : Loc) (s : String)
    (m : List Method) (pre : List (StructField × GoType)) (v : Val) (pfx : String)
    (fl0 : FlagSet) (v1 : Val) (fl1 : FlagSet) (f : StructField) (ft : GoType)
    (p : PointerValue) (fv1 : Val) (e : ElemValue)
    (hpre : fieldsAsFlags W S (n + 1) loc (.struct s m pre) v pfx fl0 = ⟨.nil, v1, fl1⟩)
    (hget : getPointerToField f ft (Val.Field v.fields ft pre.length) = .ok (p, fv1))
    (he : p.elem = some e) (hcs : p.elemCanSet = true) (hign : f.Get S.Ignored ≠ "true") :
    (flagNameOf W S pfx f
      = if pfx = "" then S.getName W f else pfx ++ "." ++ S.getName W f) ∧
    ((asValue ⟨p.typ, loc ++ .field pre.length :: e.rel⟩ p.typ ≠ none ∨ e.typ.kind ≠ .struct) →
      ((fieldsAsFlags W S (n + 1) loc (.struct s m (pre ++ [(f, ft)])) v pfx fl0).out = .nil ∧
        ∃ flag : Flag,
          (fieldsAsFlags W S (n + 1) loc (.struct s m (pre ++ [(f, ft)])) v pfx fl0).flags
            = fl1 ++ [flag] ∧
          flag.name = flagNameOf W S pfx f) ∨
      ((fieldsAsFlags W S (n + 1) loc (.struct s m (pre ++ [(f, ft)])) v pfx fl0).out ≠ .nil ∧
        (fieldsAsFlags W S (n + 1) loc (.struct s m (pre ++ [(f, ft)])) v pfx fl0).flags
          = fl1)) ∧
    (asValue ⟨p.typ, loc ++ .field pre.length :: e.rel⟩ p.typ = none → e.typ.kind = .struct →
      f.Anonymous = false →
      (fieldsAsFlags W S (n + 1) loc (.struct s m (pre ++ [(f, ft)])) v pfx fl0).flags
        = (fieldsAsFlags W S n (loc ++ .field pre.length :: e.rel) e.typ e.val
            (flagNameOf W S pfx f) fl1).flags) ∧
    (asValue ⟨p.typ, loc ++ .field pre.length :: e.rel⟩ p.typ = none → e.typ.kind = .struct →
      f.Anonymous = true →
      (fieldsAsFlags W S (n + 1) loc (.struct s m (pre ++ [(f, ft)])) v pfx fl0).flags
        = (fieldsAsFlags W S n (loc ++ .field pre.length :: e.rel) e.typ e.val pfx fl1).flags) := by
  have hR := fieldsAsFlags_visited hpre hget he hcs hign
  refine ⟨?_, ?_, ?_, ?_⟩
  · unfold flagNameOf
    by_cases h : pfx = "" <;> simp [h]
  · intro hleaf
    rw [hR]
    rcases registerField_leaf (fieldsAsFlags W S n) W S pfx loc f pre.length p e fv1 fl1
      hleaf with ⟨h1, flag, h2, h3, _⟩ | ⟨h1, h2⟩
    · left; exact ⟨h1, flag, h2, h3⟩
    · right; exact ⟨h1, h2⟩
  · intro hval hk ha
    rw [hR, registerField_struct hval hk]
    simp only [ha]
    split <;> rfl
  · intro hval hk ha
    rw [hR, registerField_struct hval hk]
    simp only [ha, if_true]
    split <;> rfl

/-- Witness of C1: with the prefix `outer`, in `struct { In struct { Field int } }` the
member is registered as `outer.in.field`; with the field embedded it is `outer.field`. -/
theorem name_composition_witness :
    (fieldsAsFlags Sample.env DefaultTagsNaming 2 []
        (.struct "Config" [] ([] ++ [(⟨"In", "", [], false⟩, Sample.subConfigT)]))
        (.struct [.struct [.int 7]]) "outer" []).flags
      = [.IntVar [.field 0, .field 0] "outer.in.field" 0 ""] ∧
    (fieldsAsFlags Sample.env DefaultTagsNaming 2 []
        (.struct "Config" [] ([] ++ [(⟨"SubConfig", "", [], true⟩, Sample.subConfigT)]))
        (.struct [.struct [.int 7]]) "outer" []).flags
      = [.IntVar [.field 0, .field 0] "outer.field" 0 ""] :=
  ⟨(name_composition Sample.env DefaultTagsNaming 1 [] "Config" [] []
      (.struct [.struct [.int 7]]) "outer" [] (.struct [.struct [.int 7]]) []
      ⟨"In", "", [], false⟩ Sample.subConfigT
      ⟨Sample.subConfigT.PtrTo, false, some ⟨Sample.subConfigT, .struct [.int 7], [], true⟩⟩
      (.struct [.int 7]) ⟨Sample.subConfigT, .struct [.int 7], [], true⟩
      rfl rfl rfl rfl (by decide)).2.2.1 (by decide) (by decide) rfl,
   (name_composition Sample.env DefaultTagsNaming 1 [] "Config" [] []
      (.struct [.struct [.int 7]]) "outer" [] (.struct [.struct [.int 7]]) []
      ⟨"SubConfig", "", [], true⟩ Sample.subConfigT
      ⟨Sample.subConfigT.PtrTo, false, some ⟨Sample.subConfigT, .struct [.int 7], [], true⟩⟩
      (.struct [.int 7]) ⟨Sample.subConfigT, .struct [.int 7], [], true⟩
      rfl rfl rfl rfl (by decide)).2.2.2 (by decide) (by decide) rfl⟩

/-- C10: the walk is fail-fast.  When the walk of the fields `xs` returns an error, the walk
of `xs ++ ys` returns the same error with the same registrations and the same contents: no
field of `ys` is visited, none is registered, and the content of every later field is what it
was before the walk (a nil pointer stays nil).  When the failing field is a leaf, the
registrations are those made before it.  When it is a structure field whose walk returns an
error, the error is wrapped with the name and type of that field and the registrations are
those the inner walk had made. -/
theorem fail_fast (W : Env) (S : TagsSettings) (n : Nat) (loc : Loc) (s : String)
    (m : List Method) (v : Val) (pfx : String) (fl0 : FlagSet) :
    (∀ (xs ys : List (StructField × GoType)) (err : GoError) (v1 : Val) (fl1 : FlagSet),
      fieldsAsFlags W S (n + 1) loc (.struct s m xs) v pfx fl0 = ⟨.error err, v1, fl1⟩ →
      fieldsAsFlags W S (n + 1) loc (.struct s m (xs ++ ys)) v pfx fl0 = ⟨.error err, v1, fl1⟩ ∧
      ∀ (j : Nat) (d : Val), xs.length ≤ j → v1.fields.getD j d = v.fields.getD j d) ∧
    (∀ (pre : List (StructField × GoType)) (v1 : Val) (fl1 : FlagSet) (f : StructField)
      (ft : GoType) (p : PointerValue) (fv1 : Val) (e : ElemValue),
      fieldsAsFlags W S (n + 1) loc (.struct s m pre) v pfx fl0 = ⟨.nil, v1, fl1⟩ →
      getPointerToField f ft (Val.Field v.fields ft pre.length) = .ok (p, fv1) →
      p.elem = some e → p.elemCanSet = true → f.Get S.Ignored ≠ "true" →
      (asValue ⟨p.typ, loc ++ .field pre.length :: e.rel⟩ p.typ ≠ none ∨ e.typ.kind ≠ .struct) →
      (fieldsAsFlags W S (n + 1) loc (.struct s m (pre ++ [(f, ft)])) v pfx fl0).out ≠ .nil →
      (fieldsAsFlags W S (n + 1) loc (.struct s m (pre ++ [(f, ft)])) v pfx fl0).flags = fl1) ∧
    (∀ (pre : List (StructField × GoType)) (v1 : Val) (fl1 : FlagSet) (f : StructField)
      (ft : GoType) (p : PointerValue) (fv1 : Val) (e : ElemValue) (err : GoError) (rv : Val)
      (rfl1 : FlagSet),
      fieldsAsFlags W S (n + 1) loc (.struct s m pre) v pfx fl0 = ⟨.nil, v1, fl1⟩ →
      getPointerToField f ft (Val.Field v.fields ft pre.length) = .ok (p, fv1) →
      p.elem = some e → p.elemCanSet = true → f.Get S.Ignored ≠ "true" →
      asValue ⟨p.typ, loc ++ .field pre.length :: e.rel⟩ p.typ = none →
      e.typ.kind = .struct →
      fieldsAsFlags W S n (loc ++ .field pre.length :: e.rel) e.typ e.val
        (if f.Anonymous then pfx else flagNameOf W S pfx f) fl1 = ⟨.error err, rv, rfl1⟩ →
      fieldsAsFlags W S (n + 1) loc (.struct s m (pre ++ [(f, ft)])) v pfx fl0
        = ⟨.error (.inField f.Name e.typ err),
            .struct (v1.fields.set pre.length (fv1.write e.rel rv)), rfl1⟩) := by
  refine ⟨?_, ?_, ?_⟩
  · intro xs ys err v1 fl1 h
    refine ⟨fieldsAsFlags_abort ys h (by simp), ?_⟩
    intro j d hj
    obtain ⟨hw, _⟩ := walkFields_of_fieldsAsFlags h
    have := walkFields_getD_outside (visitField (fieldsAsFlags W S n) W S pfx loc) xs 0
      v.fields fl0 j d (Or.inr (by omega))
    rw [hw] at this
    exact this
  · intro pre v1 fl1 f ft p fv1 e hpre hget he hcs hign hleaf hout
    rw [fieldsAsFlags_visited hpre hget he hcs hign] at hout ⊢
    rcases registerField_leaf (fieldsAsFlags W S n) W S pfx loc f pre.length p e fv1 fl1
      hleaf with ⟨h1, _⟩ | ⟨_, h2⟩
    · exact absurd h1 hout
    · exact h2
  · intro pre v1 fl1 f ft p fv1 e err rv rfl1 hpre hget he hcs hign hval hk hin
    rw [fieldsAsFlags_visited hpre hget he hcs hign, registerField_struct hval hk, hin]

/-- Witness of C10: in `struct { A int; B int; P *int }` with `default:"x"` on `B` the walk
returns the error of `B`, keeps the flag of `A`, and `P` stays nil. -/
theorem fail_fast_witness :
    MakeFlags Sample.env 1
        (.struct "Config" []
          ([(⟨"A", "", [], false⟩, Sample.intT),
            (⟨"B", "", [("default", "x")], false⟩, Sample.intT)]
           ++ [(⟨"P", "", [], false⟩, Sample.intT.PtrTo)]))
        (.struct [.int 7, .int 8, .ptr none])
      = ⟨.error (.IncorrectDefaultValue "B" (some Sample.intT) "x"
            (.external "strconv.ParseInt: invalid syntax")),
          .struct [.int 0, .int 8, .ptr none], [.IntVar [.field 0] "a" 0 ""]⟩ :=
  ((fail_fast Sample.env DefaultTagsNaming 0 [] "Config" []
      (.struct [.int 7, .int 8, .ptr none]) "" []).1
    [(⟨"A", "", [], false⟩, Sample.intT), (⟨"B", "", [("default", "x")], false⟩, Sample.intT)]
    [(⟨"P", "", [], false⟩, Sample.intT.PtrTo)]
    (.IncorrectDefaultValue "B" (some Sample.intT) "x"
      (.external "strconv.ParseInt: invalid syntax"))
    (.struct [.int 0, .int 8, .ptr none]) [.IntVar [.field 0] "a" 0 ""] rfl).1

/-- C8, the failing input: the walk of `struct { private *int }` with a nil pointer panics
in `getPointerToField`, which calls `field.Set` before the walk tests `CanSet`. -/
theorem unexported_nil_pointer_panics (W : Env) (n : Nat) :
    (MakeFlags W (n + 1)
        (.struct "Config" []
          [(⟨"private", "flagconfig", [], false⟩, (GoType.builtin "int" .int).PtrTo)])
        (.struct [.ptr none])).out
      = .panic "reflect: reflect.Value.Set using value obtained using unexported field" := by
  rfl

/-- C16: each of the seven default parsers returns the zero value and no error on the empty
string, whatever the standard parsers are (they are not called), and on a non-empty string
returns the value and the error of its standard parser: unchanged for bool, duration,
float64, int64 and uint64, the value converted with `int(..)` or `uint(..)` for int and
uint; the conversion `int(..)` leaves every value of the range of `int` as it is. -/
theorem default_parsers (W : Env) :
    (defaultBool W "" = (false, none) ∧ defaultDuration W "" = (0, none) ∧
      defaultFloat64 W "" = (0, none) ∧ defaultInt W "" = (0, none) ∧
      defaultInt64 W "" = (0, none) ∧ defaultUint W "" = (0, none) ∧
      defaultUint64 W "" = (0, none)) ∧
    (∀ str : String, str ≠ "" →
      defaultBool W str = W.ParseBool str ∧
      defaultDuration W str = W.ParseDuration str ∧
      defaultFloat64 W str = W.ParseFloat str 64 ∧
      defaultInt W str = (toInt W.intSize (W.ParseInt str 0 0).1, (W.ParseInt str 0 0).2) ∧
      defaultInt64 W str = W.ParseInt str 0 64 ∧
      defaultUint W str = (toUint W.intSize (W.ParseUint str 0 0).1, (W.ParseUint str 0 0).2) ∧
      defaultUint64 W str = W.ParseUint str 0 64) ∧
    (∀ (bits : Nat) (x : Int), 0 < bits → -(2 ^ (bits - 1)) ≤ x → x < 2 ^ (bits - 1) →
      toInt bits x = x) ∧
    (∀ (bits x : Nat), x < 2 ^ bits → toUint bits x = x) := by
  refine ⟨⟨rfl, rfl, rfl, rfl, rfl, rfl, rfl⟩, ?_, ?_, ?_⟩
  · intro str h
    simp [defaultBool, defaultDuration, defaultFloat64, defaultInt, defaultInt64, defaultUint,
      defaultUint64, h]
  · intro bits x hb h1 h2
    unfold toInt
    have hp : (2 : Int) ^ bits = 2 * 2 ^ (bits - 1) := by
      obtain ⟨k, rfl⟩ : ∃ k, bits = k + 1 := ⟨bits - 1, by omega⟩
      simp [pow_succ, mul_comm]
    rw [hp, Int.emod_eq_of_lt (by omega) (by omega)]
    omega
  · intro bits x h
    exact Nat.mod_eq_of_lt h

/-- Witness of C16: on `"25"` the parser `defaultInt` returns what `strconv.ParseInt`
returns, and the conversion keeps 25. -/
theorem default_parsers_witness :
    defaultInt Sample.env "25" = (25, none) ∧ toInt 64 25 = 25 :=
  ⟨((default_parsers Sample.env).2.1 "25" (by decide)).2.2.2.1,
   (default_parsers Sample.env).2.2.1 64 25 (by decide) (by decide) (by decide)⟩

/-- C20: an exported, not ignored field of interface type that is nil when the walk visits
it makes the registration fail.  `getPointerToField` returns the address of the interface
slot; its type, a pointer to an interface, has no settable capability, and the interface
type is not of structure kind, is not the duration type and is not of a supported kind; so
`fieldsAsFlags` returns the unsupported-type error naming the field, whatever the other
tags and the later fields are, and registers nothing for it. -/
theorem nil_interface_unsupported (W : Env) (S : TagsSettings) (n : Nat) (loc : Loc)
    (s : String) (m : List Method) (pre post : List (StructField × GoType)) (v : Val)
    (pfx : String) (fl0 : FlagSet) (v1 : Val) (fl1 : FlagSet) (f : StructField) (str : String)
    (ms : List Method)
    (hpre : fieldsAsFlags W S (n + 1) loc (.struct s m pre) v pfx fl0 = ⟨.nil, v1, fl1⟩)
    (hexp : f.PkgPath = "") (hign : f.Get S.Ignored ≠ "true")
    (hnil : Val.Field v.fields (.basic str .interface ms) pre.length = .iface none) :
    getPointerToField f (.basic str .interface ms) (.iface none)
      = .ok (⟨(GoType.basic str .interface ms).PtrTo, false,
          some ⟨.basic str .interface ms, .iface none, [], true⟩⟩, .iface none) ∧
    (∀ ptr : Pointer, asValue ptr (GoType.basic str .interface ms).PtrTo = none) ∧
    (GoType.basic str .interface ms).kind ≠ .struct ∧
    GoType.basic str .interface ms ≠ timeDurationType ∧
    supportedKind (GoType.basic str .interface ms).kind = false ∧
    fieldsAsFlags W S (n + 1) loc
        (.struct s m (pre ++ (f, .basic str .interface ms) :: post)) v pfx fl0
      = ⟨.error (.unsupportedField f.Name (.basic str .interface ms)),
          .struct (v1.fields.set pre.length (.iface none)), fl1⟩ := by
  have hget : getPointerToField f (.basic str .interface ms) (.iface none)
      = .ok (⟨(GoType.basic str .interface ms).PtrTo, false,
          some ⟨.basic str .interface ms, .iface none, [], true⟩⟩, .iface none) := by
    simp [getPointerToField, GoType.kind, BasicKind.toKind, hexp]
  have hk : (GoType.basic str .interface ms).kind ≠ .struct := by
    simp [GoType.kind, BasicKind.toKind]
  have hd : GoType.basic str .interface ms ≠ timeDurationType := by
    simp [timeDurationType]
  refine ⟨hget, fun ptr => asValue_ptr_interface ptr str ms, hk, hd, rfl, ?_⟩
  have hget2 : getPointerToField f (.basic str .interface ms)
      (Val.Field v.fields (.basic str .interface ms) pre.length)
      = .ok (⟨(GoType.basic str .interface ms).PtrTo, false,
          some ⟨.basic str .interface ms, .iface none, [], true⟩⟩, .iface none) := by
    rw [hnil]; exact hget
  have hsnoc : fieldsAsFlags W S (n + 1) loc
      (.struct s m (pre ++ [(f, .basic str .interface ms)])) v pfx fl0
      = ⟨.error (.unsupportedField f.Name (.basic str .interface ms)),
          .struct (v1.fields.set pre.length (.iface none)), fl1⟩ := by
    rw [fieldsAsFlags_visited (e := ⟨.basic str .interface ms, .iface none, [], true⟩)
        hpre hget2 rfl rfl hign,
      registerField_byKind (asValue_ptr_interface _ str ms) hk hd,
      byKind_unsupported (by rfl)]
    simp [errorsIs, unsupportedTypeErr, Val.write]
  rw [fieldsAsFlags_abort_at post (by rw [hsnoc]; simp), hsnoc]

/-- Witness of C20: `struct { A int; Sub interface{}; B int }` with `Sub` nil fails on
`Sub`, after registering `a`. -/
theorem nil_interface_unsupported_witness :
    MakeFlags Sample.env 1
        (.struct "Config" [] ([(⟨"A", "", [], false⟩, Sample.intT)]
          ++ (⟨"Sub", "", [("default", "x")], false⟩,
                GoType.basic "interface \x7b\x7d" .interface [])
            :: [(⟨"B", "", [], false⟩, Sample.intT)]))
        (.struct [.int 7, .iface none, .int 9])
      = ⟨.error (.unsupportedField "Sub" (.basic "interface \x7b\x7d" .interface [])),
          .struct [.int 0, .iface none, .int 9], [.IntVar [.field 0] "a" 0 ""]⟩ :=
  (nil_interface_unsupported Sample.env DefaultTagsNaming 0 [] "Config" []
      [(⟨"A", "", [], false⟩, Sample.intT)] [(⟨"B", "", [], false⟩, Sample.intT)]
      (.struct [.int 7, .iface none, .int 9]) "" []
      (.struct [.int 0, .iface none, .int 9]) [.IntVar [.field 0] "a" 0 ""]
      ⟨"Sub", "", [("default", "x")], false⟩ "interface \x7b\x7d" []
      rfl rfl (by decide) rfl).2.2.2.2.2

/-- C15, the failing input: the description "a`b" has a single backquote, hence no
back-quoted name, and for the settable field `T time.Time` the registrar still receives it
unchanged: the type is not put in front of it, as it is for a description without a
back-quoted name according to the comment in the source and to the specification
(`specUsage`). -/
theorem usage_unpaired_backquote :
    hasBacktickSegment "a`b" = false ∧
    (MakeFlags Sample.env 1
        (.struct "Config" [] [(⟨"T", "", [("desc", "a`b")], false⟩, Sample.timeT)])
        (.struct [.struct [.str ""]])).flags.map Flag.usage = ["a`b"] ∧
    specUsage Sample.timeT "a`b" = "`time.Time` a`b" ∧
    (MakeFlags Sample.env 1
        (.struct "Config" [] [(⟨"T", "", [("desc", "a`b")], false⟩, Sample.timeT)])
        (.struct [.struct [.str ""]])).flags.map Flag.usage
      ≠ [specUsage Sample.timeT "a`b"] := by
  refine ⟨by decide, by rfl, by decide, by decide⟩

/-- C17, the failing input: a field `L Level` of the defined type `type Level int` has kind
int and no settable capability; `byKind` asserts that the pointer `*Level` is a `*int`, the
assertion fails and the walk panics. -/
theorem named_type_panics (W : Env) (n : Nat) :
    (MakeFlags W (n + 1)
        (.struct "Config" [] [(⟨"L", "", [], false⟩, .basic "main.Level" .int [])])
        (.struct [.int 0])).out
      = .panic "interface conversion: interface \x7b\x7d is *main.Level, not *int" := by
  rfl

/-- C19, counterexample: in `struct { T *time.Time }` with `T` nil and no
default tag, `T` is a settable-value field with an empty default string and `Set` is not
called, yet the field does not keep the value it held: the nil pointer is replaced by a
pointer to a zero `time.Time`, to which the flag is bound. -/
theorem nil_pointer_not_kept :
    asValue ⟨Sample.timeT.PtrTo, [.field 0, .deref]⟩ Sample.timeT.PtrTo
      = some (.textWrapper ⟨Sample.timeT.PtrTo, [.field 0, .deref]⟩) ∧
    defaultStringFlag ⟨"T", "", [], false⟩ DefaultTagsNaming = "" ∧
    MakeFlags Sample.env 1
        (.struct "Config" [] [(⟨"T", "", [], false⟩, Sample.timeT.PtrTo)])
        (.struct [.ptr none])
      = ⟨.nil, .struct [.ptr (some (zero Sample.timeT))],
          [.Var (.textWrapper ⟨Sample.timeT.PtrTo, [.field 0, .deref]⟩) "t" "`time.Time` "]⟩ ∧
    Val.ptr (some (zero Sample.timeT)) ≠ Val.ptr none := by
  refine ⟨rfl, rfl, rfl, ?_⟩
  simp

/-- C19, amended: what the walk does to the value a field holds depends on the path.  For
an exported, not ignored field of a predeclared type of the seven kinds, and for one of type
`time.Duration`, the parsed default (the zero value with an empty default string) is the
value argument of the registration and is stored in the field, whatever the field held.  For
a visited settable-value field with an empty default string `Set` is not called: the field
keeps its content, except that a nil pointer has been replaced by a pointer to a zero
value, whether `flags.Var` then records the flag or panics in `String()`. -/
theorem stored_or_kept (W : Env) (S : TagsSettings) (n : Nat) (loc : Loc) (s : String)
    (m : List Method) (pre : List (StructField × GoType)) (v : Val) (pfx : String)
    (fl0 : FlagSet) (v1 : Val) (fl1 : FlagSet) (f : StructField) (ft : GoType)
    (hpre : fieldsAsFlags W S (n + 1) loc (.struct s m pre) v pfx fl0 = ⟨.nil, v1, fl1⟩)
    (hign : f.Get S.Ignored ≠ "true") :
    (f.PkgPath = "" → ft ∈ builtinTypes →
      (defaultStringFlag f S = "" ∨ literalError W ft.kind (defaultStringFlag f S) = none) →
      ∃ flag : Flag,
        fieldsAsFlags W S (n + 1) loc (.struct s m (pre ++ [(f, ft)])) v pfx fl0
          = ⟨.nil,
              .struct (v1.fields.set pre.length
                (if defaultStringFlag f S = "" then zero ft
                 else parsedLiteral W ft.kind (defaultStringFlag f S))),
              fl1 ++ [flag]⟩ ∧
        flag.value = some (if defaultStringFlag f S = "" then zero ft
          else parsedLiteral W ft.kind (defaultStringFlag f S))) ∧
    (f.PkgPath = "" → ft = timeDurationType →
      (defaultDuration W (defaultStringFlag f S)).2 = none →
      fieldsAsFlags W S (n + 1) loc (.struct s m (pre ++ [(f, ft)])) v pfx fl0
        = ⟨.nil,
            .struct (v1.fields.set pre.length
              (.int (defaultDuration W (defaultStringFlag f S)).1)),
            fl1 ++ [.DurationVar (loc ++ [.field pre.length]) (flagNameOf W S pfx f)
              (defaultDuration W (defaultStringFlag f S)).1 (f.Get S.Description)]⟩ ∧
      (defaultStringFlag f S = "" → (defaultDuration W (defaultStringFlag f S)).1 = 0)) ∧
    (∀ (p : PointerValue) (fv1 : Val) (e : ElemValue) (value : FlagValue),
      getPointerToField f ft (Val.Field v.fields ft pre.length) = .ok (p, fv1) →
      p.elem = some e → p.elemCanSet = true →
      asValue ⟨p.typ, loc ++ .field pre.length :: e.rel⟩ p.typ = some value →
      defaultStringFlag f S = "" →
      (fieldsAsFlags W S (n + 1) loc (.struct s m (pre ++ [(f, ft)])) v pfx fl0).val
        = .struct (v1.fields.set pre.length fv1) ∧
      (∀ data : String, value.toStr W e.val = .ok data →
        fieldsAsFlags W S (n + 1) loc (.struct s m (pre ++ [(f, ft)])) v pfx fl0
          = ⟨.nil, .struct (v1.fields.set pre.length fv1),
              fl1 ++ [.Var value (flagNameOf W S pfx f)
                (usageOf e.typ (f.Get S.Description))]⟩) ∧
      (∀ msg : String, value.toStr W e.val = .error msg →
        fieldsAsFlags W S (n + 1) loc (.struct s m (pre ++ [(f, ft)])) v pfx fl0
          = ⟨.panic msg, .struct (v1.fields.set pre.length fv1), fl1⟩) ∧
      (fv1 = Val.Field v.fields ft pre.length ∨
        ∃ (nm : Option String) (et : GoType), ft = .ptr nm et ∧
          (∀ pv, Val.Field v.fields ft pre.length ≠ .ptr (some pv)) ∧
          fv1 = .ptr (some (zero et)))) := by
  refine ⟨?_, ?_, ?_⟩
  · intro hexp hft hok
    have hget := getPointerToField_builtin hft hexp (Val.Field v.fields ft pre.length)
    obtain ⟨flag, hR, h1, _, _⟩ := fieldsAsFlags_builtin_at
      (e := ⟨ft, Val.Field v.fields ft pre.length, [], true⟩) hpre hget rfl rfl hign rfl hft hok
    exact ⟨flag, by simpa [Val.write] using hR, h1⟩
  · intro hexp hft hok
    subst hft
    have hget := getPointerToField_duration hexp (Val.Field v.fields timeDurationType pre.length)
    have hR := fieldsAsFlags_visited
      (e := ⟨timeDurationType, Val.Field v.fields timeDurationType pre.length, [], true⟩)
      hpre hget rfl rfl hign
    rw [registerField_duration (asValue_duration _) rfl] at hR
    refine ⟨?_, ?_⟩
    · rw [hR]
      split
      · rename_i x err heq
        rw [heq] at hok
        simp at hok
      · rename_i x heq
        simp [heq, Val.write]
    · intro hd
      simp [hd, defaultDuration]
  · intro p fv1 e value hget he hcs hval hd
    have hR := fieldsAsFlags_visited hpre hget he hcs hign
    have hc := registerField_settable_cases (fieldsAsFlags W S n) W S pfx loc f pre.length p e
      fv1 fl1 value hval
    simp only [hd, ne_eq, not_true_eq_false, if_false,
      getPointerToField_write_self hget he] at hc
    refine ⟨?_, ?_, ?_, getPointerToField_content hget⟩
    · rcases hc with ⟨err, h, _⟩ | ⟨_, msg, _, h⟩ | ⟨_, data, _, h⟩
      · simp at h
      · rw [hR, h]
      · rw [hR, h]
    · intro data hs
      rcases hc with ⟨err, h, _⟩ | ⟨_, msg, h1, h⟩ | ⟨_, data2, _, h⟩
      · simp at h
      · rw [hs] at h1; simp at h1
      · rw [hR, h]
    · intro msg hs
      rcases hc with ⟨err, h, _⟩ | ⟨_, msg2, h1, h⟩ | ⟨_, data2, h1, h⟩
      · simp at h
      · rw [hs] at h1
        simp only [Except.error.injEq] at h1
        subst h1
        rw [hR, h]
      · rw [hs] at h1; simp at h1

/-- Witness of C19, amended: in `struct { Width int; T time.Time }` with the contents 7 and
a set time, the walk stores the default 25 in `Width` and leaves `T` as it is. -/
theorem stored_or_kept_witness :
    (∃ flag : Flag,
      MakeFlags Sample.env 1
          (.struct "Config" [] ([] ++ [(⟨"Width", "", [("default", "25")], false⟩, Sample.intT)]))
          (.struct [.int 7])
        = ⟨.nil, .struct [.int 25], [] ++ [flag]⟩ ∧ flag.value = some (.int 25)) ∧
    MakeFlags Sample.env 1
        (.struct "Config" [] ([] ++ [(⟨"T", "", [], false⟩, Sample.timeT)]))
        (.struct [.struct [.str "2006"]])
      = ⟨.nil, .struct [.struct [.str "2006"]],
          [] ++ [.Var (.textWrapper ⟨Sample.timeT.PtrTo, [.field 0]⟩) "t" "`time.Time` "]⟩ :=
  ⟨(stored_or_kept Sample.env DefaultTagsNaming 0 [] "Config" [] [] (.struct [.int 7]) "" []
      (.struct [.int 7]) [] ⟨"Width", "", [("default", "25")], false⟩ Sample.intT
      rfl (by decide)).1 rfl (by decide) (Or.inr rfl),
   ((stored_or_kept Sample.env DefaultTagsNaming 0 [] "Config" [] []
      (.struct [.struct [.str "2006"]]) "" [] (.struct [.struct [.str "2006"]]) []
      ⟨"T", "", [], false⟩ Sample.timeT rfl (by decide)).2.2
      ⟨Sample.timeT.PtrTo, false, some ⟨Sample.timeT, .struct [.str "2006"], [], true⟩⟩
      (.struct [.str "2006"]) ⟨Sample.timeT, .struct [.str "2006"], [], true⟩
      (.textWrapper ⟨Sample.timeT.PtrTo, [.field 0]⟩) rfl rfl rfl (by decide) rfl).2.1
      "2006" rfl⟩

/-- C13: nil pointers are allocated.  For an exported field of pointer type whose content
is not a non-nil pointer, `getPointerToField` stores a pointer to the zero value of the
pointee type in the field and returns that pointer: its `Elem()` is that zero value, at the
address behind the field.  A non-nil pointer is returned with its own pointee and the field
is left as it is, whether the field is exported or not.  Hence, in a typed structure, an
exported pointer field that the walk reaches holds a non-nil pointer when the walk is over,
and every registration of the walk is bound to an address inside the walked structure at
which the structure holds a value when the walk is over. -/
theorem nil_pointer_allocated (W : Env) (S : TagsSettings) (n : Nat) (loc : Loc)
    (s : String) (m : List Method) (pre post : List (StructField × GoType)) (v : Val)
    (pfx : String) (fl0 : FlagSet) (v1 : Val) (fl1 : FlagSet) (f : StructField)
    (nm : Option String) (et : GoType)
    (hpre : fieldsAsFlags W S (n + 1) loc (.struct s m pre) v pfx fl0 = ⟨.nil, v1, fl1⟩)
    (hexp : f.PkgPath = "")
    (hty : Val.hasType (.struct s m (pre ++ (f, .ptr nm et) :: post)) v = true) :
    (∀ fv : Val, (∀ pv : Val, fv ≠ .ptr (some pv)) →
      getPointerToField f (.ptr nm et) fv
        = .ok (⟨.ptr nm et, false, some ⟨et, zero et, [.deref], true⟩⟩,
            .ptr (some (zero et)))) ∧
    (∀ (g : StructField) (pv : Val),
      getPointerToField g (.ptr nm et) (.ptr (some pv))
        = .ok (⟨.ptr nm et, decide (g.PkgPath ≠ ""), some ⟨et, pv, [.deref], true⟩⟩,
            .ptr (some pv))) ∧
    (∃ pv : Val,
      (fieldsAsFlags W S (n + 1) loc (.struct s m (pre ++ (f, .ptr nm et) :: post)) v pfx
        fl0).val.fields[pre.length]? = some (.ptr (some pv))) ∧
    (∃ new : FlagSet,
      (fieldsAsFlags W S (n + 1) loc (.struct s m (pre ++ (f, .ptr nm et) :: post)) v pfx
        fl0).flags = fl0 ++ new ∧
      ∀ g ∈ new, ∃ rel : Loc, g.loc = loc ++ rel ∧
        ((fieldsAsFlags W S (n + 1) loc (.struct s m (pre ++ (f, .ptr nm et) :: post)) v pfx
          fl0).val.read rel).isSome = true) := by
  refine ⟨?_, fun _ _ => rfl, ?_, fieldsAsFlags_bound W S (n + 1) loc _ v pfx fl0 hty⟩
  · intro fv hnil
    cases fv with
    | ptr o =>
      cases o with
      | some pv => exact absurd rfl (hnil pv)
      | none => simp [getPointerToField, GoType.kind, hexp]
    | _ => simp [getPointerToField, GoType.kind, hexp]
  · have hlen : pre.length < v.fields.length := by
      rw [Val.hasTypeFields_length _ _ (Val.hasType_struct hty)]
      simp
    rw [fieldsAsFlags_field_at f (.ptr nm et) post hpre hlen]
    obtain ⟨pv, h⟩ := visitField_ptr_val (fieldsAsFlags W S n) W S pfx loc f nm et pre.length
      (Val.Field v.fields (.ptr nm et) pre.length) fl1 hexp
    exact ⟨pv, by rw [h]⟩

/-- Witness of C13: in `struct { P *int }` with `P` nil the walk leaves `P` pointing to an
`int`. -/
theorem nil_pointer_allocated_witness :
    getPointerToField ⟨"P", "", [], false⟩ Sample.intT.PtrTo (.ptr none)
      = .ok (⟨Sample.intT.PtrTo, false, some ⟨Sample.intT, .int 0, [.deref], true⟩⟩,
          .ptr (some (.int 0))) ∧
    ∃ pv : Val,
      (MakeFlags Sample.env 1
        (.struct "Config" [] [(⟨"P", "", [], false⟩, Sample.intT.PtrTo)])
        (.struct [.ptr none])).val.fields[0]? = some (.ptr (some pv)) :=
  have h := nil_pointer_allocated Sample.env DefaultTagsNaming 0 [] "Config" [] [] []
    (.struct [.ptr none]) "" [] (.struct [.ptr none]) [] ⟨"P", "", [], false⟩ none Sample.intT
    rfl rfl rfl
  ⟨h.1 (.ptr none) (by simp), h.2.2.1⟩

/-- C11: errors of nested structures.  When the walk descends through `d` struct levels
(`frames`, outermost first) and the innermost walk returns the error `err`, the top-level
call returns `err` wrapped `d` times: the layers are those of `wrapLayers`, one per level,
naming the field of the level and the type of the structure walked for it, outermost first.
Calling `Unwrap` `d` times on the returned error gives `err` itself, its message is built
from the layers in that order, and when `err` is an `IncorrectDefaultValue` then
`errors.As` on the returned error finds `err`, with its field, type and default string, and
its `Unwrap` is its reason. -/
theorem nested_error_wrapped (W : Env) (S : TagsSettings) (frames : List Frame) (c : Call)
    (err : GoError) (hnest : nestedIn W S frames c)
    (herr : ((innermost W S frames c).run W S).out = .error err) :
    (c.run W S).out = .error (wrapLayers frames err) ∧
    unwrapN frames.length (wrapLayers frames err) = some err ∧
    (∀ (fr : Frame) (rest : List Frame),
      (wrapLayers (fr :: rest) err).Error W
        = "in field " ++ fr.f.Name ++ " with type " ++ fr.e.typ.toStr ++ ": "
          ++ (wrapLayers rest err).Error W) ∧
    (∀ (name : String) (typ : Option GoType) (d : String) (reason : GoError),
      err = .IncorrectDefaultValue name typ d reason →
      errorsAsIncorrectDefaultValue (wrapLayers frames err)
        = some (.IncorrectDefaultValue name typ d reason) ∧
      (GoError.IncorrectDefaultValue name typ d reason).Unwrap = some reason) := by
  refine ⟨?_, ?_, fun _ _ => rfl, ?_⟩
  · induction frames generalizing c with
    | nil => exact herr
    | cons fr rest ih =>
      obtain ⟨hok, hrest⟩ := hnest
      have hin := ih (fr.inner W S c) hrest herr
      obtain ⟨fuel, loc, typ, val, pfx, fl⟩ := c
      obtain ⟨hfuel, htyp, hpre, hget, he, hcs, hign, hval, hk⟩ := hok
      simp only at hfuel htyp hpre hget hval
      obtain ⟨n, rfl⟩ : ∃ n, fuel = n + 1 := ⟨fuel - 1, by omega⟩
      subst htyp
      simp only [Call.run, Frame.inner, Nat.add_sub_cancel] at hin
      have hq : (fieldsAsFlags W S (n + 1) loc
          (.struct fr.s fr.m (fr.pre ++ [(fr.f, fr.ft)])) val pfx fl).out
          = .error (.inField fr.f.Name fr.e.typ (wrapLayers rest err)) := by
        rw [fieldsAsFlags_visited hpre hget he hcs hign, registerField_struct hval hk]
        simp only [hin]
      simp only [Call.run, wrapLayers]
      rw [fieldsAsFlags_abort_at fr.post (by rw [hq]; simp)]
      exact hq
  · clear hnest herr
    induction frames with
    | nil => rfl
    | cons fr rest ih => simpa [unwrapN, wrapLayers, GoError.Unwrap] using ih
  · intro name typ d reason h
    subst h
    refine ⟨?_, rfl⟩
    clear hnest herr
    induction frames with
    | nil => rfl
    | cons fr rest ih => simpa [wrapLayers, errorsAsIncorrectDefaultValue] using ih

/-- Witness of C11, depth 2: the bad default of `Width` in `Nested.Outer.Inner` reaches the
caller wrapped in the layers of `Outer` and `Inner`. -/
theorem nested_error_wrapped_witness :
    (MakeFlags Sample.env 3 Sample.nestedT (.struct [.struct [.struct [.int 0]]])).out
      = .error (.inField "Outer" Sample.midT (.inField "Inner" Sample.leafT
          (.IncorrectDefaultValue "Width" (some Sample.intT) "x"
            (.external "strconv.ParseInt: invalid syntax")))) ∧
    unwrapN 2 (.inField "Outer" Sample.midT (.inField "Inner" Sample.leafT
        (.IncorrectDefaultValue "Width" (some Sample.intT) "x"
          (.external "strconv.ParseInt: invalid syntax"))))
      = some (.IncorrectDefaultValue "Width" (some Sample.intT) "x"
          (.external "strconv.ParseInt: invalid syntax")) :=
  have h := nested_error_wrapped Sample.env DefaultTagsNaming
    [⟨"main.Nested", [], [], ⟨"Outer", "", [], false⟩, Sample.midT, [],
        .struct [.struct [.struct [.int 0]]], [],
        ⟨Sample.midT.PtrTo, false, some ⟨Sample.midT, .struct [.struct [.int 0]], [], true⟩⟩,
        .struct [.struct [.int 0]], ⟨Sample.midT, .struct [.struct [.int 0]], [], true⟩⟩,
     ⟨"main.Mid", [], [], ⟨"Inner", "", [], false⟩, Sample.leafT, [],
        .struct [.struct [.int 0]], [],
        ⟨Sample.leafT.PtrTo, false, some ⟨Sample.leafT, .struct [.int 0], [], true⟩⟩,
        .struct [.int 0], ⟨Sample.leafT, .struct [.int 0], [], true⟩⟩]
    ⟨3, [], Sample.nestedT, .struct [.struct [.struct [.int 0]]], "", []⟩
    (.IncorrectDefaultValue "Width" (some Sample.intT) "x"
      (.external "strconv.ParseInt: invalid syntax"))
    ⟨⟨by decide, rfl, rfl, rfl, rfl, rfl, by decide, rfl, rfl⟩,
      ⟨by decide, rfl, rfl, rfl, rfl, rfl, by decide, rfl, rfl⟩, trivial⟩
    rfl
  ⟨h.1, h.2.1⟩

/-- C18: the walk terminates.  The types and values of the embedding are finite trees, the
inputs of finite nesting: a struct type does not contain itself and an interface value does
not point back to an enclosing structure.  On every such input, with fuel above the nesting
depth of the type and of the value the walk does not run out of fuel and returns the same
result for every larger fuel.  The recursion descends strictly: what a recursive call is
made on (`Elem()` of a field) is nested less deeply than the structure walked.  And no
address is registered twice: the registrations the walk adds are bound to pairwise
different addresses. -/
theorem walk_terminates (W : Env) (S : TagsSettings) (loc : Loc) (t : GoType) (v : Val)
    (pfx : String) (fl : FlagSet) (fuel : Nat) (hfuel : max t.depth v.depth < fuel) :
    (fieldsAsFlags W S fuel loc t v pfx fl).out ≠ .outOfFuel ∧
    (∀ fuel2 : Nat, fuel ≤ fuel2 →
      fieldsAsFlags W S fuel2 loc t v pfx fl = fieldsAsFlags W S fuel loc t v pfx fl) ∧
    (∀ (s : String) (m : List Method) (fs : List (StructField × GoType)),
      t = .struct s m fs →
      ∀ q ∈ fs, ∀ (i : Nat) (p : PointerValue) (fv1 : Val) (e : ElemValue),
        getPointerToField q.1 q.2 (Val.Field v.fields q.2 i) = .ok (p, fv1) →
        p.elem = some e →
        max e.typ.depth e.val.depth < max t.depth v.depth) ∧
    (∃ new : FlagSet,
      (fieldsAsFlags W S fuel loc t v pfx fl).flags = fl ++ new ∧
      (new.map Flag.loc).Nodup) := by
  obtain ⟨n, rfl⟩ : ∃ n, fuel = n + 1 := ⟨fuel - 1, by omega⟩
  have ht : t.depth ≤ n := by
    have := le_max_left t.depth v.depth
    omega
  have hv : v.depth ≤ n := by
    have := le_max_right t.depth v.depth
    omega
  refine ⟨(fieldsAsFlags_enough_fuel W S n loc t v pfx fl ht hv 0).2, ?_, ?_, ?_⟩
  · intro fuel2 h2
    obtain ⟨k, rfl⟩ : ∃ k, fuel2 = n + 1 + k := ⟨fuel2 - (n + 1), by omega⟩
    exact (fieldsAsFlags_enough_fuel W S n loc t v pfx fl ht hv k).1
  · intro s m fs hs q hq i p fv1 e hget he
    subst hs
    have hq2 := GoType.depth_le_depthFields fs q hq
    have h1 : q.2.depth ≤ max (GoType.depth (.struct s m fs)) v.depth - 1 := by
      have := le_max_left (GoType.depth (.struct s m fs)) v.depth
      simp only [GoType.depth] at this ⊢
      omega
    have h2 : v.depth ≤ max (GoType.depth (.struct s m fs)) v.depth - 1 + 1 := by
      have := le_max_right (GoType.depth (.struct s m fs)) v.depth
      omega
    have h3 := Val.Field_depth v q.2 i _ h2 h1
    have h4 := getPointerToField_depth hget he h1 h3
    have h5 : 1 ≤ max (GoType.depth (.struct s m fs)) v.depth := by
      have := le_max_left (GoType.depth (.struct s m fs)) v.depth
      simp only [GoType.depth] at this ⊢
      omega
    have h6 := max_le h4.1 h4.2
    omega
  · obtain ⟨new, h1, h2, _⟩ := fieldsAsFlags_distinct W S (n + 1) loc t v pfx fl
    exact ⟨new, h1, h2⟩

/-- Witness of C18: the three struct levels of `Nested` are walked with fuel 4. -/
theorem walk_terminates_witness :
    (MakeFlags Sample.env 4 Sample.nestedT (.struct [.struct [.struct [.int 0]]])).out
      ≠ .outOfFuel ∧
    ∀ fuel2 : Nat, 4 ≤ fuel2 →
      MakeFlags Sample.env fuel2 Sample.nestedT (.struct [.struct [.struct [.int 0]]])
        = MakeFlags Sample.env 4 Sample.nestedT (.struct [.struct [.struct [.int 0]]]) :=
  have h := walk_terminates Sample.env DefaultTagsNaming [] Sample.nestedT
    (.struct [.struct [.struct [.int 0]]]) "" [] 4 (by decide)
  ⟨h.1, h.2.1⟩

/-- C14: registrations and leaf fields.  When `fieldsAsFlags` returns nil and the composed
names of the leaf fields are pairwise distinct, the registrations it has added correspond
one to one, in the same order, to the leaf fields of the structure in depth-first
declaration order (`leafFields`: one leaf per visited field that is settable-value, of the
duration type or of a supported primitive kind, the leaves of the members for a visited
field of struct kind without settable capability, none for a skipped field): each added
registration is bound to the address of its leaf and carries the composed name of its leaf,
there are as many registrations as leaves, and their names are pairwise distinct. -/
theorem registrations_are_leaves (W : Env) (S : TagsSettings) (fuel : Nat) (loc : Loc)
    (t : GoType) (v : Val) (pfx : String) (fl : FlagSet)
    (hnil : (fieldsAsFlags W S fuel loc t v pfx fl).out = .nil)
    (hnames : ((leafFields W S fuel loc t v pfx).map Prod.snd).Nodup) :
    ∃ new : FlagSet,
      (fieldsAsFlags W S fuel loc t v pfx fl).flags = fl ++ new ∧
      new.map Flag.binding = leafFields W S fuel loc t v pfx ∧
      new.length = (leafFields W S fuel loc t v pfx).length ∧
      (new.map Flag.name).Nodup := by
  obtain ⟨new, hnew⟩ := fieldsAsFlags_flags_mono W S fuel loc t v pfx fl
  have h := fieldsAsFlags_leaves W S fuel loc t v pfx fl hnil
  rw [← hnew, List.map_append, List.append_cancel_left_eq] at h
  refine ⟨new, hnew.symm, h, ?_, ?_⟩
  · rw [← h, List.length_map]
  · have h2 : new.map Flag.name = (new.map Flag.binding).map Prod.snd := by
      rw [List.map_map]
      rfl
    rw [h2, h]
    exact hnames

/-- Witness of C14: `struct { A int; Sub SubConfig; hidden int; T time.Time }` has the
leaves `a`, `sub.field` and `t`; the unexported field has none. -/
theorem registrations_are_leaves_witness :
    ∃ new : FlagSet,
      (MakeFlags Sample.env 2
        (.struct "Config" []
          [(⟨"A", "", [], false⟩, Sample.intT), (⟨"Sub", "", [], false⟩, Sample.subConfigT),
           (⟨"hidden", "main", [], false⟩, Sample.intT), (⟨"T", "", [], false⟩, Sample.timeT)])
        (.struct [.int 0, .struct [.int 0], .int 0, .struct [.str ""]])).flags = [] ++ new ∧
      new.map Flag.binding
        = [([.field 0], "a"), ([.field 1, .field 0], "sub.field"), ([.field 3], "t")] ∧
      new.length = 3 ∧ (new.map Flag.name).Nodup :=
  registrations_are_leaves Sample.env DefaultTagsNaming 2 []
    (.struct "Config" []
      [(⟨"A", "", [], false⟩, Sample.intT), (⟨"Sub", "", [], false⟩, Sample.subConfigT),
       (⟨"hidden", "main", [], false⟩, Sample.intT), (⟨"T", "", [], false⟩, Sample.timeT)])
    (.struct [.int 0, .struct [.int 0], .int 0, .struct [.str ""]]) "" [] rfl
    (by
      rw [show leafFields Sample.env DefaultTagsNaming 2 []
        (.struct "Config" []
          [(⟨"A", "", [], false⟩, Sample.intT), (⟨"Sub", "", [], false⟩, Sample.subConfigT),
           (⟨"hidden", "main", [], false⟩, Sample.intT), (⟨"T", "", [], false⟩, Sample.timeT)])
        (.struct [.int 0, .struct [.int 0], .int 0, .struct [.str ""]]) ""
        = [([.field 0], "a"), ([.field 1, .field 0], "sub.field"), ([.field 3], "t")] from rfl]
      decide)

end Flagconfig
